import Mathlib

/-!
# The bochservisor bridge of `bochs/main.cc`

A shallow embedding of the hypervisor bridge that `bochs/main.cc` adds to Bochs:
the generation counter `hypervisor_context_switches`, the context translators
`set_context` / `get_context`, the bounded steppers `step_cpu` / `step_device`
and the start-up routine `initialize_bochservisor`.

Conventions.
* Machine integers are natural numbers; a narrowing that the source performs
  (a `Reg32` view, a cast, a mask) is written out, and a wrapping increment is
  taken modulo `2 ^ 64`.
* Everything the bridge calls but `main.cc` does not define (the methods of
  `BX_CPU_C`, of its register objects and of `bx_pc_system`) is a field of
  `Interp`, so every theorem holds for all implementations of those methods.
* `Bochs.calls` is a ghost log: each call of a state-changing interpreter method
  appends one `Call`, in program order.  The interpreter methods cannot see it.
* Interpreter methods are total: a method that ends the process or unwinds the
  stack (a panic, an exception raised inside an instruction) is outside the
  model, as is every build option other than the one named at a definition.
-/

namespace Applepie

/-! ## The register block handed over by the hypervisor -/

/-- The `Reg32` member of a `WHV_REGISTER_VALUE`: the low 32 bits of `Reg64`. -/
def Reg32 (reg64 : Nat) : Nat := reg64 % 2 ^ 32

/-- The `Segment` member of a `WHV_REGISTER_VALUE`. -/
structure WHV_X64_SEGMENT_REGISTER where
  Base : Nat
  Limit : Nat
  Selector : Nat
  Attributes : Nat
deriving DecidableEq, Repr, Inhabited

/-- The bit-field `Present` of a segment: bit 7 of `Attributes`. -/
def WHV_X64_SEGMENT_REGISTER.Present (s : WHV_X64_SEGMENT_REGISTER) : Nat :=
  (s.Attributes >>> 7) &&& 1

/-- The `Table` member of a `WHV_REGISTER_VALUE` (IDTR, GDTR). -/
structure WHV_X64_TABLE_REGISTER where
  Limit : Nat
  Base : Nat
deriving DecidableEq, Repr, Inhabited

/-- The `Fp` member of a `WHV_REGISTER_VALUE`: one 80-bit x87 register. -/
structure WHV_X64_FP_REGISTER where
  Mantissa : Nat
  BiasedExponent : Nat
  Sign : Nat
deriving DecidableEq, Repr, Inhabited

/-- The `FpControlStatus` member.  `LastFpRip` is a union with the pair
`LastFpEip` (bits 0..31) and `LastFpCs` (bits 32..47). -/
structure WHV_X64_FP_CONTROL_STATUS_REGISTER where
  FpControl : Nat
  FpStatus : Nat
  FpTag : Nat
  LastFpOp : Nat
  LastFpRip : Nat
deriving DecidableEq, Repr, Inhabited

/-- The `XmmControlStatus` member.  `LastFpRdp` is a union with the pair
`LastFpDp` (bits 0..31) and `LastFpDs` (bits 32..47). -/
structure WHV_X64_XMM_CONTROL_STATUS_REGISTER where
  LastFpRdp : Nat
  XmmStatusControl : Nat
  XmmStatusControlMask : Nat
deriving DecidableEq, Repr, Inhabited

/-- Read the 32-bit offset that shares storage with a 64-bit last pointer. -/
def lo32 (rip : Nat) : Nat := rip % 2 ^ 32

/-- Read the 16-bit selector that shares storage with a 64-bit last pointer. -/
def sel16 (rip : Nat) : Nat := (rip / 2 ^ 32) % 2 ^ 16

/-- Store a 32-bit offset into bits 0..31 of the shared 64-bit storage. -/
def set_lo32 (rip : Nat) (eip : Nat) : Nat := (rip / 2 ^ 32) * 2 ^ 32 + eip % 2 ^ 32

/-- Store a 16-bit selector into bits 32..47 of the shared 64-bit storage. -/
def set_sel16 (rip : Nat) (cs : Nat) : Nat :=
  (rip / 2 ^ 48) * 2 ^ 48 + (cs % 2 ^ 16) * 2 ^ 32 + rip % 2 ^ 32

/-- The register block `struct _whvp_context`, one field per member, each with
the view of the union that `main.cc` uses for it. -/
structure _whvp_context where
  rax : Nat
  rcx : Nat
  rdx : Nat
  rbx : Nat
  rsp : Nat
  rbp : Nat
  rsi : Nat
  rdi : Nat
  r8 : Nat
  r9 : Nat
  r10 : Nat
  r11 : Nat
  r12 : Nat
  r13 : Nat
  r14 : Nat
  r15 : Nat
  rip : Nat
  rflags : Nat
  es : WHV_X64_SEGMENT_REGISTER
  cs : WHV_X64_SEGMENT_REGISTER
  ss : WHV_X64_SEGMENT_REGISTER
  ds : WHV_X64_SEGMENT_REGISTER
  fs : WHV_X64_SEGMENT_REGISTER
  gs : WHV_X64_SEGMENT_REGISTER
  ldtr : WHV_X64_SEGMENT_REGISTER
  tr : WHV_X64_SEGMENT_REGISTER
  idtr : WHV_X64_TABLE_REGISTER
  gdtr : WHV_X64_TABLE_REGISTER
  cr0 : Nat
  cr2 : Nat
  cr3 : Nat
  cr4 : Nat
  cr8 : Nat
  dr0 : Nat
  dr1 : Nat
  dr2 : Nat
  dr3 : Nat
  dr6 : Nat
  dr7 : Nat
  xmm0 : Nat
  xmm1 : Nat
  xmm2 : Nat
  xmm3 : Nat
  xmm4 : Nat
  xmm5 : Nat
  xmm6 : Nat
  xmm7 : Nat
  xmm8 : Nat
  xmm9 : Nat
  xmm10 : Nat
  xmm11 : Nat
  xmm12 : Nat
  xmm13 : Nat
  xmm14 : Nat
  xmm15 : Nat
  st0 : WHV_X64_FP_REGISTER
  st1 : WHV_X64_FP_REGISTER
  st2 : WHV_X64_FP_REGISTER
  st3 : WHV_X64_FP_REGISTER
  st4 : WHV_X64_FP_REGISTER
  st5 : WHV_X64_FP_REGISTER
  st6 : WHV_X64_FP_REGISTER
  st7 : WHV_X64_FP_REGISTER
  fp_control : WHV_X64_FP_CONTROL_STATUS_REGISTER
  xmm_control : WHV_X64_XMM_CONTROL_STATUS_REGISTER
  tsc : Nat
  efer : Nat
  kernel_gs_base : Nat
  apic_base : Nat
  pat : Nat
  sysenter_cs : Nat
  sysenter_eip : Nat
  sysenter_esp : Nat
  star : Nat
  lstar : Nat
  cstar : Nat
  sfmask : Nat
  tsc_aux : Nat
  xcr0 : Nat
deriving Repr, Inhabited

/-- Every member lies within the width of its declared C type. -/
def WHV_X64_SEGMENT_REGISTER.WellFormed (s : WHV_X64_SEGMENT_REGISTER) : Prop :=
  s.Base < 2 ^ 64 ∧ s.Limit < 2 ^ 32 ∧ s.Selector < 2 ^ 16 ∧ s.Attributes < 2 ^ 16

/-- Every member lies within the width of its declared C type. -/
def WHV_X64_TABLE_REGISTER.WellFormed (t : WHV_X64_TABLE_REGISTER) : Prop :=
  t.Limit < 2 ^ 16 ∧ t.Base < 2 ^ 64

/-- Every member lies within the width of its bit-field. -/
def WHV_X64_FP_REGISTER.WellFormed (f : WHV_X64_FP_REGISTER) : Prop :=
  f.Mantissa < 2 ^ 64 ∧ f.BiasedExponent < 2 ^ 15 ∧ f.Sign < 2

/-- Every member lies within the width of its declared C type. -/
def WHV_X64_FP_CONTROL_STATUS_REGISTER.WellFormed
    (f : WHV_X64_FP_CONTROL_STATUS_REGISTER) : Prop :=
  f.FpControl < 2 ^ 16 ∧ f.FpStatus < 2 ^ 16 ∧ f.FpTag < 2 ^ 8 ∧ f.LastFpOp < 2 ^ 16 ∧
    f.LastFpRip < 2 ^ 64

/-- Every member lies within the width of its declared C type. -/
def WHV_X64_XMM_CONTROL_STATUS_REGISTER.WellFormed
    (x : WHV_X64_XMM_CONTROL_STATUS_REGISTER) : Prop :=
  x.LastFpRdp < 2 ^ 64 ∧ x.XmmStatusControl < 2 ^ 32 ∧ x.XmmStatusControlMask < 2 ^ 32

/-- The 64-bit scalar members of a register block, in declaration order. -/
def _whvp_context.scalars (c : _whvp_context) : List Nat :=
  [c.rax, c.rcx, c.rdx, c.rbx, c.rsp, c.rbp, c.rsi, c.rdi, c.r8, c.r9, c.r10, c.r11,
   c.r12, c.r13, c.r14, c.r15, c.rip, c.rflags, c.cr0, c.cr2, c.cr3, c.cr4, c.cr8,
   c.dr0, c.dr1, c.dr2, c.dr3, c.dr6, c.dr7, c.tsc, c.efer, c.kernel_gs_base,
   c.apic_base, c.pat, c.sysenter_cs, c.sysenter_eip, c.sysenter_esp, c.star,
   c.lstar, c.cstar, c.sfmask, c.tsc_aux, c.xcr0]

/-- The 128-bit SIMD members of a register block, in declaration order. -/
def _whvp_context.xmms (c : _whvp_context) : List Nat :=
  [c.xmm0, c.xmm1, c.xmm2, c.xmm3, c.xmm4, c.xmm5, c.xmm6, c.xmm7, c.xmm8, c.xmm9,
   c.xmm10, c.xmm11, c.xmm12, c.xmm13, c.xmm14, c.xmm15]

/-- A well-formed register block: every member is a value of its C type, that
is, it lies within the width the type declares (64 bits for `Reg64`, 128 bits
for `Reg128`, the declared widths for the structured members). -/
def _whvp_context.WellFormed (c : _whvp_context) : Prop :=
  (∀ v ∈ c.scalars, v < 2 ^ 64) ∧ (∀ v ∈ c.xmms, v < 2 ^ 128) ∧
  (∀ s ∈ [c.es, c.cs, c.ss, c.ds, c.fs, c.gs, c.ldtr, c.tr], s.WellFormed) ∧
  c.idtr.WellFormed ∧ c.gdtr.WellFormed ∧
  (∀ f ∈ [c.st0, c.st1, c.st2, c.st3, c.st4, c.st5, c.st6, c.st7], f.WellFormed) ∧
  c.fp_control.WellFormed ∧ c.xmm_control.WellFormed

/-! ## The interpreter state that `main.cc` touches -/

/-- One x87 register as Bochs keeps it: `fraction` and the 16-bit `exp`, whose
bit 15 is the sign. -/
structure floatx80 where
  fraction : Nat
  exp : Nat
deriving DecidableEq, Repr, Inhabited

/-- The members of `BX_CPU_C` that `set_context` writes by plain assignment:
the general registers and `RIP` (the register shortcuts of `cpu.h`), the table
registers, `cr2`, `cr3`, `dr[0..3]`, the vector registers
(`BX_READ_XMM_REG(i)`), the members of `the_i387`, `mxcsr` and the members of
`msr`. -/
structure Registers where
  RAX : Nat
  RCX : Nat
  RDX : Nat
  RBX : Nat
  RSP : Nat
  RBP : Nat
  RSI : Nat
  RDI : Nat
  R8 : Nat
  R9 : Nat
  R10 : Nat
  R11 : Nat
  R12 : Nat
  R13 : Nat
  R14 : Nat
  R15 : Nat
  RIP : Nat
  idtr_base : Nat
  idtr_limit : Nat
  gdtr_base : Nat
  gdtr_limit : Nat
  cr2 : Nat
  cr3 : Nat
  dr0 : Nat
  dr1 : Nat
  dr2 : Nat
  dr3 : Nat
  xmm0 : Nat
  xmm1 : Nat
  xmm2 : Nat
  xmm3 : Nat
  xmm4 : Nat
  xmm5 : Nat
  xmm6 : Nat
  xmm7 : Nat
  xmm8 : Nat
  xmm9 : Nat
  xmm10 : Nat
  xmm11 : Nat
  xmm12 : Nat
  xmm13 : Nat
  xmm14 : Nat
  xmm15 : Nat
  st_space0 : floatx80
  st_space1 : floatx80
  st_space2 : floatx80
  st_space3 : floatx80
  st_space4 : floatx80
  st_space5 : floatx80
  st_space6 : floatx80
  st_space7 : floatx80
  cwd : Nat
  swd : Nat
  twd : Nat
  foo : Nat
  fip : Nat
  fcs : Nat
  fdp : Nat
  fds : Nat
  mxcsr : Nat
  mxcsr_mask : Nat
  kernelgsbase : Nat
  apicbase : Nat
  pat : Nat
  sysenter_cs_msr : Nat
  sysenter_eip_msr : Nat
  sysenter_esp_msr : Nat
  star : Nat
  lstar : Nat
  cstar : Nat
  fmask : Nat
  tsc_aux : Nat
deriving DecidableEq, Repr, Inhabited

/-- The state of the interpreter as `main.cc` sees it: the plainly assigned
registers, the four further members `main.cc` assigns (`prev_rsp`, `prev_rip`,
`async_event`, `icount`), and `rest`, which stands for everything that is only
reached through interpreter methods (flags, descriptor caches, control
registers, local APIC, time stamp counter, TLB, instruction cache, devices and
`bx_pc_system`). -/
structure BX_CPU_C (κ : Type) where
  regs : Registers
  prev_rsp : Nat
  prev_rip : Nat
  async_event : Nat
  icount : Nat
  rest : κ

/-- The segment registers that `SET_SEGMENT_FULL` / `GET_SEGMENT_FULL` name. -/
inductive Seg where
  | ES | CS | SS | DS | FS | GS | LDTR | TR
deriving DecidableEq, Repr

/-- The register objects that `main.cc` accesses through `set32` / `get32`. -/
inductive Reg32Obj where
  | cr0 | cr4 | dr6 | dr7 | xcr0 | efer
deriving DecidableEq, Repr

/-- A decoded trace as returned by `getICacheEntry`: the first instruction `i`
and the trace length `tlen`. -/
structure bxICacheEntry_c where
  i : Nat
  tlen : Nat
deriving DecidableEq, Repr, Inhabited

/-- The interpreter methods that the bridge calls and `main.cc` does not
define.  A method that changes state maps the interpreter state to the new one
(and to its result, if it has one); an accessor that `main.cc` uses for its
value only is a function of the state. -/
structure Interp (κ : Type) where
  /-- The flags register is written by `setEFlags(Bit32u)`. -/
  setEFlags : BX_CPU_C κ → Nat → BX_CPU_C κ
  /-- The flags register is read by `read_eflags()`. -/
  read_eflags : BX_CPU_C κ → Nat
  /-- The call `set_segment_ar_data(seg, valid, selector, base, limit, ar)`. -/
  set_segment_ar_data : BX_CPU_C κ → Seg → Nat → Nat → Nat → Nat → Nat → BX_CPU_C κ
  /-- The member `seg.cache.u.segment.base`. -/
  seg_base : BX_CPU_C κ → Seg → Nat
  /-- The member `seg.cache.u.segment.limit_scaled`. -/
  seg_limit_scaled : BX_CPU_C κ → Seg → Nat
  /-- The member `seg.selector.value`. -/
  seg_selector_value : BX_CPU_C κ → Seg → Nat
  /-- The call `get_descriptor_h(seg.cache)`. -/
  get_descriptor_h : BX_CPU_C κ → Seg → Nat
  /-- The method `set32` of a register object. -/
  set32 : Reg32Obj → BX_CPU_C κ → Nat → BX_CPU_C κ
  /-- The method `get32` of a register object. -/
  get32 : Reg32Obj → BX_CPU_C κ → Nat
  /-- The long-mode-active test `efer.get_LMA()`. -/
  get_LMA : BX_CPU_C κ → Bool
  /-- The task priority is written by `lapic.set_tpr`. -/
  set_tpr : BX_CPU_C κ → Nat → BX_CPU_C κ
  /-- The task priority is read by `get_cr8()`. -/
  get_cr8 : BX_CPU_C κ → Nat
  /-- The macro `BX_READ_FPU_REG(i)`. -/
  BX_READ_FPU_REG : BX_CPU_C κ → Nat → floatx80
  /-- The method `the_i387.get_control_word()`. -/
  get_control_word : BX_CPU_C κ → Nat
  /-- The method `the_i387.get_status_word()`. -/
  get_status_word : BX_CPU_C κ → Nat
  /-- The method `the_i387.get_tag_word()`. -/
  get_tag_word : BX_CPU_C κ → Nat
  /-- The time stamp counter is written by `set_TSC`. -/
  set_TSC : BX_CPU_C κ → Nat → BX_CPU_C κ
  /-- The time stamp counter is read by `get_TSC()`. -/
  get_TSC : BX_CPU_C κ → Nat
  /-- The method `TLB_flush()`. -/
  TLB_flush : BX_CPU_C κ → BX_CPU_C κ
  /-- The method `handleAlignmentCheck()`. -/
  handleAlignmentCheck : BX_CPU_C κ → BX_CPU_C κ
  /-- The method `handleCpuModeChange()`. -/
  handleCpuModeChange : BX_CPU_C κ → BX_CPU_C κ
  /-- The method `handleSseModeChange()`. -/
  handleSseModeChange : BX_CPU_C κ → BX_CPU_C κ
  /-- The method `handleAvxModeChange()`. -/
  handleAvxModeChange : BX_CPU_C κ → BX_CPU_C κ
  /-- The method `handleAsyncEvent()`; the result `true` asks the caller to
  return as soon as possible. -/
  handleAsyncEvent : BX_CPU_C κ → BX_CPU_C κ × Bool
  /-- The method `getICacheEntry()`; it is given the current value of
  `hypervisor_context_switches`, which the instruction cache consults. -/
  getICacheEntry : Nat → BX_CPU_C κ → BX_CPU_C κ × bxICacheEntry_c
  /-- The instrumentation callback `BX_INSTR_BEFORE_EXECUTION(cpu, i)`. -/
  BX_INSTR_BEFORE_EXECUTION : BX_CPU_C κ → Nat → BX_CPU_C κ
  /-- The length `i->ilen()` of an instruction. -/
  ilen : BX_CPU_C κ → Nat → Nat
  /-- The handler call `BX_CPU_CALL_METHOD(i->execute1, (i))`. -/
  execute1 : BX_CPU_C κ → Nat → BX_CPU_C κ
  /-- The instrumentation callback `BX_INSTR_AFTER_EXECUTION(cpu, i)`. -/
  BX_INSTR_AFTER_EXECUTION : BX_CPU_C κ → Nat → BX_CPU_C κ
  /-- The macro `BX_SYNC_TIME_IF_SINGLE_PROCESSOR(0)`. -/
  BX_SYNC_TIME_IF_SINGLE_PROCESSOR : BX_CPU_C κ → BX_CPU_C κ
  /-- The method `bx_pc_system.tickn(n)`. -/
  tickn : BX_CPU_C κ → Nat → BX_CPU_C κ

/-- One entry of the ghost log: a call of a state-changing interpreter method,
with its arguments (and, for `handleAsyncEvent`, its result). -/
inductive Call where
  | setEFlags (val : Nat)
  | set_segment_ar_data (seg : Seg) (valid selector base limit ar : Nat)
  | set32 (reg : Reg32Obj) (val : Nat)
  | set_tpr (val : Nat)
  | set_TSC (val : Nat)
  | TLB_flush
  | handleAlignmentCheck
  | handleCpuModeChange
  | handleSseModeChange
  | handleAvxModeChange
  | handleAsyncEvent (ret : Bool)
  | getICacheEntry
  | BX_INSTR_BEFORE_EXECUTION (i : Nat)
  | execute1 (i : Nat)
  | BX_INSTR_AFTER_EXECUTION (i : Nat)
  | BX_SYNC_TIME_IF_SINGLE_PROCESSOR
  | tickn (n : Nat)
deriving DecidableEq, Repr

/-- The global state of the bridge: the interpreter (`bx_cpu` and what hangs
off it), the generation counter `hypervisor_context_switches`, and the ghost
log of interpreter calls. -/
structure Bochs (κ : Type) where
  cpu : BX_CPU_C κ
  hypervisor_context_switches : Nat
  calls : List Call

/-- The initial value of `hypervisor_context_switches`. -/
def hypervisor_context_switches_init : Nat := 0x12ad1fef77be846a

/-- A plain assignment to members of `regs`. -/
def Bochs.assign {κ : Type} (f : Registers → Registers) (b : Bochs κ) : Bochs κ :=
  { b with cpu := { b.cpu with regs := f b.cpu.regs } }

/-- A plain assignment to a member of the interpreter state outside `regs`. -/
def Bochs.store {κ : Type} (f : BX_CPU_C κ → BX_CPU_C κ) (b : Bochs κ) : Bochs κ :=
  { b with cpu := f b.cpu }

/-- A call of a state-changing interpreter method, recorded in the log. -/
def Bochs.call {κ : Type} (c : Call) (f : BX_CPU_C κ → BX_CPU_C κ) (b : Bochs κ) :
    Bochs κ :=
  { b with cpu := f b.cpu, calls := b.calls ++ [c] }

/-- The macro `SET_SEGMENT_FULL(name, bochs_seg)`. -/
def SET_SEGMENT_FULL {κ : Type} (I : Interp κ) (name : WHV_X64_SEGMENT_REGISTER)
    (bochs_seg : Seg) (b : Bochs κ) : Bochs κ :=
  b.call (.set_segment_ar_data bochs_seg name.Present name.Selector name.Base name.Limit
      name.Attributes)
    (fun c => I.set_segment_ar_data c bochs_seg name.Present name.Selector name.Base
      name.Limit name.Attributes)

/-- The value that the macro `SET_FP_REG(name, bochs_idx)` stores in
`the_i387.st_space[bochs_idx]`: `fraction = Mantissa`, `exp = BiasedExponent`,
then `exp |= Sign << 15`. -/
def SET_FP_REG (name : WHV_X64_FP_REGISTER) : floatx80 :=
  { fraction := name.Mantissa, exp := name.BiasedExponent ||| (name.Sign <<< 15) }

/-- The function `set_context` (main.cc, lines 492-632), statement by statement;
a run of consecutive plain assignments is one record update.  The build is the
one the bridge requires (`BX_CPU_LEVEL >= 6`, `BX_SUPPORT_AVX`), so all four
mode handlers are called. -/
def set_context {κ : Type} (I : Interp κ) (context : _whvp_context) (b : Bochs κ) :
    Bochs κ :=
  { b with hypervisor_context_switches := (b.hypervisor_context_switches + 1) % 2 ^ 64 }
  |>.assign (fun r => { r with
      RAX := context.rax, RCX := context.rcx, RDX := context.rdx, RBX := context.rbx,
      RSP := context.rsp })
  |>.store (fun c => { c with prev_rsp := context.rsp })
  |>.assign (fun r => { r with
      RBP := context.rbp, RSI := context.rsi, RDI := context.rdi,
      R8 := context.r8, R9 := context.r9, R10 := context.r10, R11 := context.r11,
      R12 := context.r12, R13 := context.r13, R14 := context.r14, R15 := context.r15,
      RIP := context.rip })
  |>.store (fun c => { c with prev_rip := context.rip })
  |>.call (.setEFlags (Reg32 context.rflags)) (fun c => I.setEFlags c (Reg32 context.rflags))
  |> SET_SEGMENT_FULL I context.es .ES
  |> SET_SEGMENT_FULL I context.cs .CS
  |> SET_SEGMENT_FULL I context.ss .SS
  |> SET_SEGMENT_FULL I context.ds .DS
  |> SET_SEGMENT_FULL I context.fs .FS
  |> SET_SEGMENT_FULL I context.gs .GS
  |> SET_SEGMENT_FULL I context.ldtr .LDTR
  |> SET_SEGMENT_FULL I context.tr .TR
  |>.assign (fun r => { r with
      idtr_base := context.idtr.Base, idtr_limit := context.idtr.Limit,
      gdtr_base := context.gdtr.Base, gdtr_limit := context.gdtr.Limit })
  |>.call (.set32 .cr0 (Reg32 context.cr0)) (fun c => I.set32 .cr0 c (Reg32 context.cr0))
  |>.assign (fun r => { r with cr2 := context.cr2, cr3 := context.cr3 })
  |>.call (.set32 .cr4 (Reg32 context.cr4)) (fun c => I.set32 .cr4 c (Reg32 context.cr4))
  |>.call (.set_tpr ((Reg32 context.cr8 &&& 0xf) <<< 4))
      (fun c => I.set_tpr c ((Reg32 context.cr8 &&& 0xf) <<< 4))
  |>.assign (fun r => { r with
      dr0 := context.dr0, dr1 := context.dr1, dr2 := context.dr2, dr3 := context.dr3 })
  |>.call (.set32 .dr6 (Reg32 context.dr6)) (fun c => I.set32 .dr6 c (Reg32 context.dr6))
  |>.call (.set32 .dr7 (Reg32 context.dr7)) (fun c => I.set32 .dr7 c (Reg32 context.dr7))
  |>.call (.set32 .xcr0 (Reg32 context.xcr0)) (fun c => I.set32 .xcr0 c (Reg32 context.xcr0))
  |>.assign (fun r => { r with
      xmm0 := context.xmm0, xmm1 := context.xmm1, xmm2 := context.xmm2,
      xmm3 := context.xmm3, xmm4 := context.xmm4, xmm5 := context.xmm5,
      xmm6 := context.xmm6, xmm7 := context.xmm7, xmm8 := context.xmm8,
      xmm9 := context.xmm9, xmm10 := context.xmm10, xmm11 := context.xmm11,
      xmm12 := context.xmm12, xmm13 := context.xmm13, xmm14 := context.xmm14,
      xmm15 := context.xmm15 })
  |>.assign (fun r => { r with
      st_space0 := SET_FP_REG context.st0, st_space1 := SET_FP_REG context.st1,
      st_space2 := SET_FP_REG context.st2, st_space3 := SET_FP_REG context.st3,
      st_space4 := SET_FP_REG context.st4, st_space5 := SET_FP_REG context.st5,
      st_space6 := SET_FP_REG context.st6, st_space7 := SET_FP_REG context.st7 })
  |>.assign (fun r => { r with
      cwd := context.fp_control.FpControl, swd := context.fp_control.FpStatus,
      twd := context.fp_control.FpTag, foo := context.fp_control.LastFpOp })
  |> (fun (b : Bochs κ) =>
      if I.get_LMA b.cpu then
        b.assign (fun r => { r with fip := context.fp_control.LastFpRip })
      else
        b.assign (fun r => { r with
          fip := lo32 context.fp_control.LastFpRip,
          fcs := sel16 context.fp_control.LastFpRip }))
  |>.assign (fun r => { r with
      mxcsr := context.xmm_control.XmmStatusControl,
      mxcsr_mask := context.xmm_control.XmmStatusControlMask })
  |> (fun (b : Bochs κ) =>
      if I.get_LMA b.cpu then
        b.assign (fun r => { r with fdp := context.xmm_control.LastFpRdp })
      else
        b.assign (fun r => { r with
          fdp := lo32 context.xmm_control.LastFpRdp,
          fds := sel16 context.xmm_control.LastFpRdp }))
  |>.call (.set_TSC context.tsc) (fun c => I.set_TSC c context.tsc)
  |>.call (.set32 .efer (Reg32 context.efer)) (fun c => I.set32 .efer c (Reg32 context.efer))
  |>.assign (fun r => { r with
      kernelgsbase := context.kernel_gs_base, apicbase := context.apic_base,
      pat := context.pat, sysenter_cs_msr := Reg32 context.sysenter_cs,
      sysenter_eip_msr := context.sysenter_eip, sysenter_esp_msr := context.sysenter_esp,
      star := context.star, lstar := context.lstar, cstar := context.cstar,
      fmask := Reg32 context.sfmask, tsc_aux := Reg32 context.tsc_aux })
  |>.call .TLB_flush I.TLB_flush
  |>.call .handleAlignmentCheck I.handleAlignmentCheck
  |>.call .handleCpuModeChange I.handleCpuModeChange
  |>.call .handleSseModeChange I.handleSseModeChange
  |>.call .handleAvxModeChange I.handleAvxModeChange

/-- The segment that the macro `GET_SEGMENT_FULL(name, bochs_seg)` stores into
`context->name.Segment`. -/
def GET_SEGMENT_FULL {κ : Type} (I : Interp κ) (c : BX_CPU_C κ) (bochs_seg : Seg) :
    WHV_X64_SEGMENT_REGISTER :=
  { Base := I.seg_base c bochs_seg,
    Limit := I.seg_limit_scaled c bochs_seg,
    Selector := I.seg_selector_value c bochs_seg,
    Attributes := (I.get_descriptor_h c bochs_seg >>> 8) &&& 0xffff }

/-- The register that the macro `GET_FP_REG(name, bochs_idx)` stores into
`context->name.Fp`. -/
def GET_FP_REG {κ : Type} (I : Interp κ) (c : BX_CPU_C κ) (bochs_idx : Nat) :
    WHV_X64_FP_REGISTER :=
  { Mantissa := (I.BX_READ_FPU_REG c bochs_idx).fraction,
    BiasedExponent := (I.BX_READ_FPU_REG c bochs_idx).exp &&& 0x7fff,
    Sign := ((I.BX_READ_FPU_REG c bochs_idx).exp >>> 15) &&& 1 }

/-- The function `get_context` (main.cc, lines 649-763): it fills the caller's
block `context` from the interpreter state `c`.  Members it does not assign
(the bits of a last-pointer union outside the pair written in legacy mode)
keep the value the caller's block had. -/
def get_context {κ : Type} (I : Interp κ) (c : BX_CPU_C κ) (context : _whvp_context) :
    _whvp_context :=
  { rax := c.regs.RAX, rcx := c.regs.RCX, rdx := c.regs.RDX, rbx := c.regs.RBX,
    rsp := c.regs.RSP, rbp := c.regs.RBP, rsi := c.regs.RSI, rdi := c.regs.RDI,
    r8 := c.regs.R8, r9 := c.regs.R9, r10 := c.regs.R10, r11 := c.regs.R11,
    r12 := c.regs.R12, r13 := c.regs.R13, r14 := c.regs.R14, r15 := c.regs.R15,
    rip := c.regs.RIP,
    rflags := I.read_eflags c,
    es := GET_SEGMENT_FULL I c .ES, cs := GET_SEGMENT_FULL I c .CS,
    ss := GET_SEGMENT_FULL I c .SS, ds := GET_SEGMENT_FULL I c .DS,
    fs := GET_SEGMENT_FULL I c .FS, gs := GET_SEGMENT_FULL I c .GS,
    ldtr := GET_SEGMENT_FULL I c .LDTR, tr := GET_SEGMENT_FULL I c .TR,
    idtr := { Base := c.regs.idtr_base, Limit := c.regs.idtr_limit },
    gdtr := { Base := c.regs.gdtr_base, Limit := c.regs.gdtr_limit },
    cr0 := I.get32 .cr0 c, cr2 := c.regs.cr2, cr3 := c.regs.cr3,
    cr4 := I.get32 .cr4 c, cr8 := I.get_cr8 c,
    dr0 := c.regs.dr0, dr1 := c.regs.dr1, dr2 := c.regs.dr2, dr3 := c.regs.dr3,
    dr6 := I.get32 .dr6 c, dr7 := I.get32 .dr7 c,
    xcr0 := I.get32 .xcr0 c,
    xmm0 := c.regs.xmm0, xmm1 := c.regs.xmm1, xmm2 := c.regs.xmm2, xmm3 := c.regs.xmm3,
    xmm4 := c.regs.xmm4, xmm5 := c.regs.xmm5, xmm6 := c.regs.xmm6, xmm7 := c.regs.xmm7,
    xmm8 := c.regs.xmm8, xmm9 := c.regs.xmm9, xmm10 := c.regs.xmm10,
    xmm11 := c.regs.xmm11, xmm12 := c.regs.xmm12, xmm13 := c.regs.xmm13,
    xmm14 := c.regs.xmm14, xmm15 := c.regs.xmm15,
    st0 := GET_FP_REG I c 0, st1 := GET_FP_REG I c 1, st2 := GET_FP_REG I c 2,
    st3 := GET_FP_REG I c 3, st4 := GET_FP_REG I c 4, st5 := GET_FP_REG I c 5,
    st6 := GET_FP_REG I c 6, st7 := GET_FP_REG I c 7,
    fp_control :=
      { FpControl := I.get_control_word c,
        FpStatus := I.get_status_word c,
        FpTag := I.get_tag_word c % 2 ^ 8,
        LastFpOp := c.regs.foo,
        LastFpRip :=
          if I.get_LMA c then c.regs.fip
          else set_sel16 (set_lo32 context.fp_control.LastFpRip (c.regs.fip % 2 ^ 32))
            c.regs.fcs },
    xmm_control :=
      { XmmStatusControl := c.regs.mxcsr,
        XmmStatusControlMask := c.regs.mxcsr_mask,
        LastFpRdp :=
          if I.get_LMA c then c.regs.fdp
          else set_sel16 (set_lo32 context.xmm_control.LastFpRdp (c.regs.fdp % 2 ^ 32))
            c.regs.fds },
    tsc := I.get_TSC c,
    efer := I.get32 .efer c,
    kernel_gs_base := c.regs.kernelgsbase,
    apic_base := c.regs.apicbase,
    pat := c.regs.pat,
    sysenter_cs := c.regs.sysenter_cs_msr,
    sysenter_eip := c.regs.sysenter_eip_msr,
    sysenter_esp := c.regs.sysenter_esp_msr,
    star := c.regs.star,
    lstar := c.regs.lstar,
    cstar := c.regs.cstar,
    sfmask := c.regs.fmask,
    tsc_aux := c.regs.tsc_aux }

/-! ## The bounded steppers -/

/-- The test that opens the body of both stepping loops:
`if (async_event) { if (handleAsyncEvent()) return; }`.  The second component
is `true` when the function returns to its caller. -/
def check_async_event {κ : Type} (I : Interp κ) (b : Bochs κ) : Bochs κ × Bool :=
  if b.cpu.async_event ≠ 0 then
    ({ b with cpu := (I.handleAsyncEvent b.cpu).1,
              calls := b.calls ++ [.handleAsyncEvent (I.handleAsyncEvent b.cpu).2] },
     (I.handleAsyncEvent b.cpu).2)
  else (b, false)

/-- The rest of the body of the loop of `step_cpu` (main.cc, lines 791-844) in
the build without debugger, gdb stub and handler chaining: fetch the trace,
execute its first instruction, commit `prev_rip`, count it in `icount`; then
`continue` if an event is latched, else refetch when the trace is exhausted
and clear the stop-trace bit.  `stop_trace` is the constant
`BX_ASYNC_EVENT_STOP_TRACE` and `async_event` is 32 bits wide. -/
def step_cpu_execute {κ : Type} (I : Interp κ) (stop_trace : Nat) (b : Bochs κ) : Bochs κ :=
  let entry := (I.getICacheEntry b.hypervisor_context_switches b.cpu).2
  let b : Bochs κ := b.call .getICacheEntry
    (fun c => (I.getICacheEntry b.hypervisor_context_switches c).1)
  let i := entry.i
  let last := i + entry.tlen
  let b : Bochs κ := b.call (.BX_INSTR_BEFORE_EXECUTION i)
    (fun c => I.BX_INSTR_BEFORE_EXECUTION c i)
  let b : Bochs κ := b.assign (fun r => { r with RIP := (r.RIP + I.ilen b.cpu i) % 2 ^ 64 })
  let b : Bochs κ := b.call (.execute1 i) (fun c => I.execute1 c i)
  let b : Bochs κ := b.store (fun c => { c with prev_rip := c.regs.RIP })
  let b : Bochs κ := b.call (.BX_INSTR_AFTER_EXECUTION i)
    (fun c => I.BX_INSTR_AFTER_EXECUTION c i)
  let b : Bochs κ := b.store (fun c => { c with icount := (c.icount + 1) % 2 ^ 64 })
  let b : Bochs κ := b.call .BX_SYNC_TIME_IF_SINGLE_PROCESSOR
    I.BX_SYNC_TIME_IF_SINGLE_PROCESSOR
  if b.cpu.async_event ≠ 0 then b
  else
    let b : Bochs κ :=
      if i + 1 = last then
        b.call .getICacheEntry (fun c => (I.getICacheEntry b.hypervisor_context_switches c).1)
      else b
    b.store (fun c => { c with async_event := c.async_event &&& (0xffffffff ^^^ stop_trace) })

/-- The loop `while (steps)` of `step_cpu`: `steps--` comes first, then the
event test, then the execution.  The second component of the result is the
value of the local `steps` when the function returns. -/
def step_cpu_loop {κ : Type} (I : Interp κ) (stop_trace : Nat) : Nat → Bochs κ → Bochs κ × Nat
  | 0, b => (b, 0)
  | steps + 1, b =>
    if (check_async_event I b).2 then ((check_async_event I b).1, steps)
    else step_cpu_loop I stop_trace steps (step_cpu_execute I stop_trace (check_async_event I b).1)

/-- The function `step_cpu` (main.cc, lines 770-846): flush, then loop. -/
def step_cpu {κ : Type} (I : Interp κ) (stop_trace : Nat) (steps : Nat) (b : Bochs κ) :
    Bochs κ × Nat :=
  step_cpu_loop I stop_trace steps (b.call .TLB_flush I.TLB_flush)

/-- The loop `while (steps)` of `step_device`: the event test, then
`bx_pc_system.tickn(1)`, then `steps--`.  The second component of the result
is the value of the local `steps` when the function returns. -/
def step_device_loop {κ : Type} (I : Interp κ) : Nat → Bochs κ → Bochs κ × Nat
  | 0, b => (b, 0)
  | steps + 1, b =>
    if (check_async_event I b).2 then ((check_async_event I b).1, steps + 1)
    else step_device_loop I steps
      ((check_async_event I b).1.call (.tickn 1) (fun c => I.tickn c 1))

/-- The function `step_device` (main.cc, lines 851-878): flush, then loop. -/
def step_device {κ : Type} (I : Interp κ) (steps : Nat) (b : Bochs κ) : Bochs κ × Nat :=
  step_device_loop I steps (b.call .TLB_flush I.TLB_flush)

/-- The calls that a function appended to the ghost log: what `after` holds
beyond the `before.calls.length` entries that were there at entry. -/
def new_calls {κ : Type} (before after : Bochs κ) : List Call :=
  after.calls.drop before.calls.length

/-- The instruction executions (`execute1` calls) in a piece of the log. -/
def executions (l : List Call) : List Nat :=
  l.filterMap (fun c => match c with
    | .execute1 i => some i
    | _ => none)

/-- The arguments of the `tickn` calls in a piece of the log, in order. -/
def ticks (l : List Call) : List Nat :=
  l.filterMap (fun c => match c with
    | .tickn n => some n
    | _ => none)

/-- One pass through the loop body of `step_cpu` that does not return. -/
def step_cpu_pass {κ : Type} (I : Interp κ) (stop_trace : Nat) (b : Bochs κ) : Bochs κ :=
  step_cpu_execute I stop_trace (check_async_event I b).1

/-- One pass through the loop body of `step_device` that does not return. -/
def step_device_pass {κ : Type} (I : Interp κ) (b : Bochs κ) : Bochs κ :=
  (check_async_event I b).1.call (.tickn 1) (fun c => I.tickn c 1)

/-! ## Start-up: `initialize_bochservisor` -/

/-- The configuration values that `initialize_bochservisor` reads through
`SIM->get_param_num(..)->get()` and `SIM->get_param_enum(..)`. -/
structure bx_params where
  /-- The parameter `BXPN_IPS`. -/
  ips : Nat
  /-- The index `get()` of the enum parameter `BXPN_CPU_MODEL`. -/
  cpu_model : Nat
  /-- The name `get_selected()` of the enum parameter `BXPN_CPU_MODEL`. -/
  cpu_model_selected : String
  /-- The parameter `BXPN_CPU_NPROCESSORS`. -/
  nprocessors : Nat
  /-- The parameter `BXPN_CPU_NCORES`. -/
  ncores : Nat
  /-- The parameter `BXPN_CPU_NTHREADS`. -/
  nthreads : Nat
  /-- The enum parameter `BXPN_CLOCK_SYNC`. -/
  clock_sync : Int
deriving DecidableEq, Repr

/-- What the operating system answers: the module handle of `LoadLibrary` and
the three addresses of `GetProcAddress` (`none` is `NULL`). -/
structure Win32 where
  LoadLibrary : Option Nat
  GetProcAddress_bochs_cpu_loop : Option Nat
  GetProcAddress_report_coverage : Option Nat
  GetProcAddress_register_state : Option Nat
deriving DecidableEq, Repr

/-- The functions of `main.cc` whose addresses go into the routines table. -/
inductive Routine where
  | set_context | get_context | step_device | step_cpu | get_memory_backing | do_cpuid
  | write_msr | bochservisor_after_restore | bochservisor_reset | take_snapshot
deriving DecidableEq, Repr

/-- The table `struct _bochs_routines`; `none` is a null function pointer. -/
structure _bochs_routines where
  set_context : Option Routine
  get_context : Option Routine
  step_device : Option Routine
  step_cpu : Option Routine
  get_memory_backing : Option Routine
  cpuid : Option Routine
  write_msr : Option Routine
  after_restore : Option Routine
  reset_all : Option Routine
  take_snapshot : Option Routine
deriving DecidableEq, Repr

/-- The globals that `initialize_bochservisor` reads and writes: its static
`initialized`, the table `routines` and the three cached addresses. -/
structure Globals where
  initialized : Bool
  routines : _bochs_routines
  bochs_cpu_loop : Option Nat
  report_coverage : Option Nat
  register_state : Option Nat
deriving DecidableEq, Repr

/-- The static initialisers: `routines = { 0 }`, the cached addresses `NULL`,
`initialized = 0`. -/
def Globals.initial : Globals :=
  { initialized := false,
    routines :=
      { set_context := none, get_context := none, step_device := none, step_cpu := none,
        get_memory_backing := none, cpuid := none, write_msr := none,
        after_restore := none, reset_all := none, take_snapshot := none },
    bochs_cpu_loop := none, report_coverage := none, register_state := none }

/-- The places where `initialize_bochservisor` calls `exit`. -/
inductive ExitSite where
  | called_twice | ips | cpu_model | topology | clock_sync | LoadLibrary
  | GetProcAddress_bochs_cpu_loop | GetProcAddress_report_coverage
  | GetProcAddress_register_state
deriving DecidableEq, Repr

/-- The diagnostic printed to `stderr` before each `exit` (format strings as in
the source). -/
def ExitSite.diagnostic : ExitSite → String
  | .called_twice => "initialize_bochservisor() got called twice!?\n"
  | .ips => "Bochservisor requires ips=1000000 in your bochsrc!\n"
  | .cpu_model => "Bochservisor requires corei7_skylake_x cpu model!\n"
  | .topology => "Bochservisor requires procs=cores=threads=1 in your bochsrc!\n"
  | .clock_sync => "Bochservisor requires clock: sync=none in your bochsrc!\n"
  | .LoadLibrary => "LoadLibrary() error : %d\n"
  | .GetProcAddress_bochs_cpu_loop => "GetProcAddress() error : %d\n"
  | .GetProcAddress_report_coverage => "GetProcAddress() error : %d\n"
  | .GetProcAddress_register_state => "GetProcAddress() error : %d\n"

/-- The four exits that reject the configuration. -/
def ExitSite.is_config_violation : ExitSite → Bool
  | .ips | .cpu_model | .topology | .clock_sync => true
  | _ => false

/-- How a call of `initialize_bochservisor` ends: it returns, or the process
exits at a site with a status. -/
inductive Outcome where
  | returned
  | exited (site : ExitSite) (status : Int)
deriving DecidableEq, Repr

/-- The globals when the call ends, and how it ends. -/
structure InitResult where
  globals : Globals
  outcome : Outcome
deriving DecidableEq, Repr

/-- The function `initialize_bochservisor` (main.cc, lines 895-983).
`BX_CLOCK_SYNC_NONE` is the enum constant of that name. -/
def initialize_bochservisor (BX_CLOCK_SYNC_NONE : Int) (SIM : bx_params) (os : Win32)
    (g : Globals) : InitResult :=
  if g.initialized then ⟨g, .exited .called_twice (-1)⟩
  else
    let g : Globals := { g with initialized := true }
    if SIM.ips ≠ 1000000 then ⟨g, .exited .ips (-1)⟩
    else if SIM.cpu_model = 0 ∨ SIM.cpu_model_selected ≠ "corei7_skylake_x" then
      ⟨g, .exited .cpu_model (-1)⟩
    else if SIM.nprocessors ≠ 1 ∨ SIM.ncores ≠ 1 ∨ SIM.nthreads ≠ 1 then
      ⟨g, .exited .topology (-1)⟩
    else if SIM.clock_sync ≠ BX_CLOCK_SYNC_NONE then ⟨g, .exited .clock_sync (-1)⟩
    else
      match os.LoadLibrary with
      | none => ⟨g, .exited .LoadLibrary (-1)⟩
      | some _ =>
        let g : Globals := { g with routines :=
          { set_context := some .set_context, get_context := some .get_context,
            step_device := some .step_device, step_cpu := some .step_cpu,
            get_memory_backing := some .get_memory_backing, cpuid := some .do_cpuid,
            write_msr := some .write_msr,
            after_restore := some .bochservisor_after_restore,
            reset_all := some .bochservisor_reset,
            take_snapshot := some .take_snapshot } }
        let g : Globals := { g with bochs_cpu_loop := os.GetProcAddress_bochs_cpu_loop }
        if g.bochs_cpu_loop.isNone then ⟨g, .exited .GetProcAddress_bochs_cpu_loop (-1)⟩
        else
          let g : Globals := { g with report_coverage := os.GetProcAddress_report_coverage }
          if g.report_coverage.isNone then
            ⟨g, .exited .GetProcAddress_report_coverage (-1)⟩
          else
            let g : Globals := { g with register_state := os.GetProcAddress_register_state }
            if g.register_state.isNone then
              ⟨g, .exited .GetProcAddress_register_state (-1)⟩
            else ⟨g, .returned⟩

/-- The call got past the configuration checks: it returned, or it exited at a
later site (loading the library or resolving its entry points). -/
def Outcome.past_validation : Outcome → Bool
  | .returned => true
  | .exited .LoadLibrary _ => true
  | .exited .GetProcAddress_bochs_cpu_loop _ => true
  | .exited .GetProcAddress_report_coverage _ => true
  | .exited .GetProcAddress_register_state _ => true
  | .exited _ _ => false

/-- The process was terminated for a configuration violation. -/
def Outcome.config_violation : Outcome → Bool
  | .exited site _ => site.is_config_violation
  | .returned => false

/-- The configuration that the checks accept. -/
def bx_params.accepted (BX_CLOCK_SYNC_NONE : Int) (SIM : bx_params) : Prop :=
  SIM.ips = 1000000 ∧ SIM.cpu_model ≠ 0 ∧ SIM.cpu_model_selected = "corei7_skylake_x" ∧
  SIM.nprocessors = 1 ∧ SIM.ncores = 1 ∧ SIM.nthreads = 1 ∧
  SIM.clock_sync = BX_CLOCK_SYNC_NONE

/-- The globals that a running process can hold when `initialize_bochservisor`
is entered: the static initialisers, or what an earlier call that returned
left behind (a call that exits ends the process). -/
inductive Globals.Reachable (BX_CLOCK_SYNC_NONE : Int) : Globals → Prop where
  | initial : Globals.Reachable BX_CLOCK_SYNC_NONE Globals.initial
  | call (g : Globals) (SIM : bx_params) (os : Win32) :
      Globals.Reachable BX_CLOCK_SYNC_NONE g →
      (initialize_bochservisor BX_CLOCK_SYNC_NONE SIM os g).outcome = .returned →
      Globals.Reachable BX_CLOCK_SYNC_NONE
        (initialize_bochservisor BX_CLOCK_SYNC_NONE SIM os g).globals

/-! ## Notions used to state the properties -/

/-- Well-formedness of a register block is decidable. -/
instance _whvp_context.decidableWellFormed (c : _whvp_context) : Decidable c.WellFormed := by
  unfold _whvp_context.WellFormed WHV_X64_SEGMENT_REGISTER.WellFormed
    WHV_X64_TABLE_REGISTER.WellFormed WHV_X64_FP_REGISTER.WellFormed
    WHV_X64_FP_CONTROL_STATUS_REGISTER.WellFormed
    WHV_X64_XMM_CONTROL_STATUS_REGISTER.WellFormed
  infer_instance

/-- Calling `set_context` once for each block of a list, in order. -/
def set_contexts {κ : Type} (I : Interp κ) (contexts : List _whvp_context) (b : Bochs κ) :
    Bochs κ :=
  contexts.foldl (fun b context => set_context I context b) b

/-- Modelled from the spec: the reuse test of the decoded-instruction cache,
which lives in the interpreter (not in main.cc).  An entry is valid for reuse
only while its stored generation `age` equals the current counter value. -/
def icache_entry_valid (age : Nat) (hypervisor_context_switches : Nat) : Bool :=
  age == hypervisor_context_switches

/-- The interpreter methods that `set_context` calls leave the plainly assigned
registers alone (they may change anything else). -/
structure Interp.Frame {κ : Type} (I : Interp κ) : Prop where
  setEFlags : ∀ c v, (I.setEFlags c v).regs = c.regs
  set_segment_ar_data : ∀ c s valid selector base limit ar,
    (I.set_segment_ar_data c s valid selector base limit ar).regs = c.regs
  set32 : ∀ r c v, (I.set32 r c v).regs = c.regs
  set_tpr : ∀ c v, (I.set_tpr c v).regs = c.regs
  set_TSC : ∀ c v, (I.set_TSC c v).regs = c.regs
  TLB_flush : ∀ c, (I.TLB_flush c).regs = c.regs
  handleAlignmentCheck : ∀ c, (I.handleAlignmentCheck c).regs = c.regs
  handleCpuModeChange : ∀ c, (I.handleCpuModeChange c).regs = c.regs
  handleSseModeChange : ∀ c, (I.handleSseModeChange c).regs = c.regs
  handleAvxModeChange : ∀ c, (I.handleAvxModeChange c).regs = c.regs

/-! ## Concrete interpreters and states, used to instantiate the theorems -/

/-- An interpreter whose methods do nothing: setters keep the state, accessors
read 0, no event handler asks to return, every trace has one instruction. -/
def idle : Interp Unit where
  setEFlags c _ := c
  read_eflags _ := 0
  set_segment_ar_data c _ _ _ _ _ _ := c
  seg_base _ _ := 0
  seg_limit_scaled _ _ := 0
  seg_selector_value _ _ := 0
  get_descriptor_h _ _ := 0
  set32 _ c _ := c
  get32 _ _ := 0
  get_LMA _ := false
  set_tpr c _ := c
  get_cr8 _ := 0
  BX_READ_FPU_REG _ _ := ⟨0, 0⟩
  get_control_word _ := 0
  get_status_word _ := 0
  get_tag_word _ := 0
  set_TSC c _ := c
  get_TSC _ := 0
  TLB_flush c := c
  handleAlignmentCheck c := c
  handleCpuModeChange c := c
  handleSseModeChange c := c
  handleAvxModeChange c := c
  handleAsyncEvent c := (c, false)
  getICacheEntry _ c := (c, ⟨0, 1⟩)
  BX_INSTR_BEFORE_EXECUTION c _ := c
  ilen _ _ := 1
  execute1 c _ := c
  BX_INSTR_AFTER_EXECUTION c _ := c
  BX_SYNC_TIME_IF_SINGLE_PROCESSOR c := c
  tickn c _ := c

/-- The state at program start: registers zero, no event latched, the
generation counter at its initial value, an empty log. -/
def Bochs.boot : Bochs Unit :=
  { cpu := { regs := default, prev_rsp := 0, prev_rip := 0, async_event := 0, icount := 0,
             rest := () },
    hypervisor_context_switches := hypervisor_context_switches_init,
    calls := [] }

/-- A register block with distinct values in some members. -/
def sample_context : _whvp_context :=
  { (default : _whvp_context) with
    rax := 0x1122334455667788, rsp := 0xffffa00000001000, rip := 0xfffff80000401000,
    cr3 := 0x1ad000, xmm3 := 0x0123456789abcdef0123456789abcdef,
    lstar := 0xfffff80000a00000, sysenter_cs := 0x10, tsc_aux := 7 }

/-- An interpreter in which executing the second instruction latches an event
and the event handler asks to return. -/
def latch_on_second_instruction : Interp Unit :=
  { idle with
    execute1 := fun c _ => if c.icount = 1 then { c with async_event := 1 } else c
    handleAsyncEvent := fun c => (c, true) }

/-- An interpreter whose `rest` counts device ticks; the first tick latches an
event and the event handler asks to return. -/
def latch_on_first_tick : Interp Nat :=
  { setEFlags := fun c _ => c
    read_eflags := fun _ => 0
    set_segment_ar_data := fun c _ _ _ _ _ _ => c
    seg_base := fun _ _ => 0
    seg_limit_scaled := fun _ _ => 0
    seg_selector_value := fun _ _ => 0
    get_descriptor_h := fun _ _ => 0
    set32 := fun _ c _ => c
    get32 := fun _ _ => 0
    get_LMA := fun _ => false
    set_tpr := fun c _ => c
    get_cr8 := fun _ => 0
    BX_READ_FPU_REG := fun _ _ => ⟨0, 0⟩
    get_control_word := fun _ => 0
    get_status_word := fun _ => 0
    get_tag_word := fun _ => 0
    set_TSC := fun c _ => c
    get_TSC := fun _ => 0
    TLB_flush := fun c => c
    handleAlignmentCheck := fun c => c
    handleCpuModeChange := fun c => c
    handleSseModeChange := fun c => c
    handleAvxModeChange := fun c => c
    handleAsyncEvent := fun c => (c, true)
    getICacheEntry := fun _ c => (c, ⟨0, 1⟩)
    BX_INSTR_BEFORE_EXECUTION := fun c _ => c
    ilen := fun _ _ => 1
    execute1 := fun c _ => c
    BX_INSTR_AFTER_EXECUTION := fun c _ => c
    BX_SYNC_TIME_IF_SINGLE_PROCESSOR := fun c => c
    tickn := fun c n =>
      { c with rest := c.rest + n, async_event := if c.rest = 0 then 1 else c.async_event } }

/-- The state at program start for an interpreter that counts ticks. -/
def Bochs.boot_ticks : Bochs Nat :=
  { cpu := { regs := default, prev_rsp := 0, prev_rip := 0, async_event := 0, icount := 0,
             rest := 0 },
    hypervisor_context_switches := hypervisor_context_switches_init,
    calls := [] }

/-- A configuration that passes every check. -/
def accepted_params : bx_params :=
  { ips := 1000000, cpu_model := 1, cpu_model_selected := "corei7_skylake_x",
    nprocessors := 1, ncores := 1, nthreads := 1, clock_sync := 0 }

/-- An operating system that loads the library and resolves all three names. -/
def loaded_os : Win32 :=
  { LoadLibrary := some 0x7ff800000000,
    GetProcAddress_bochs_cpu_loop := some 0x7ff800001000,
    GetProcAddress_report_coverage := some 0x7ff800002000,
    GetProcAddress_register_state := some 0x7ff800003000 }

/-- The accepted configuration with another instruction rate. -/
def wrong_ips_params : bx_params :=
  { accepted_params with ips := 4000000 }

/-! ## Snapshot and memory-backing entry points -/

/-- How a bridge routine ends: it returns to its caller, or the process exits
with a status. -/
inductive Ending where
  | returned
  | exited (status : Int)
deriving DecidableEq, Repr

/-- The result of `take_snapshot`: the simulator state that `save_state` left,
the ghost log of the `save_state` calls made (each with its destination), and
the way the routine ends. -/
structure SnapshotRun (σ : Type) where
  sim : σ
  save_state_calls : List String
  ending : Ending

/-- The function `take_snapshot` (main.cc, lines 421-424):
`SIM->save_state(folder_name); exit(-1337);`.  The method `save_state` is a
parameter; its boolean result is not used. -/
def take_snapshot {σ : Type} (save_state : σ → String → σ × Bool) (folder_name : String)
    (sim : σ) : SnapshotRun σ :=
  { sim := (save_state sim folder_name).1,
    save_state_calls := [folder_name],
    ending := .exited (-1337) }

/-- An exit status seen through a `w`-bit unsigned window (32 bits for the
process exit code, 8 bits for a POSIX wait status). -/
def exit_status_bits (w : Nat) (status : Int) : Nat := (status % 2 ^ w).toNat

/-- The function `get_memory_backing` (main.cc, lines 476-478):
`return (void*)getHostMemAddr(address, type);`.  The method is a parameter
that may change the interpreter state; a pointer is its address and 0 is the
null pointer. -/
def get_memory_backing {κ : Type}
    (getHostMemAddr : BX_CPU_C κ → Nat → Int → BX_CPU_C κ × Nat)
    (address : Nat) (type : Int) (b : Bochs κ) : Bochs κ × Nat :=
  ({ b with cpu := (getHostMemAddr b.cpu address type).1 },
   (getHostMemAddr b.cpu address type).2)

/-- A memory model with `ram_size` bytes of guest RAM mapped at host address
`host_base`: an address below `ram_size` is backed, any other is not. -/
def flat_ram (host_base ram_size : Nat) :
    BX_CPU_C Unit → Nat → Int → BX_CPU_C Unit × Nat :=
  fun c address _ => (c, if address < ram_size then host_base + address else 0)

/-! ## The dirty-page bitmap -/

/-- The number of words of `dirty_bits_l1` (main.cc, line 399). -/
def dirty_bits_l1_words : Nat := (4 * 1024 * 1024 * 1024) / (1024 * 1024 * 64)

/-- The number of words of `dirty_bits_l2` (main.cc, line 402). -/
def dirty_bits_l2_words : Nat := (4 * 1024 * 1024 * 1024) / (4096 * 64)

/-- The two arrays of 64-bit words `dirty_bits_l1` and `dirty_bits_l2`. -/
structure DirtyBitmap where
  dirty_bits_l1 : List Nat
  dirty_bits_l2 : List Nat
deriving DecidableEq, Repr

/-- The static initialisers `= { 0 }` of both arrays. -/
def DirtyBitmap.initial : DirtyBitmap :=
  { dirty_bits_l1 := List.replicate dirty_bits_l1_words 0,
    dirty_bits_l2 := List.replicate dirty_bits_l2_words 0 }

/-- Both arrays have their declared number of words. -/
def DirtyBitmap.WellFormed (d : DirtyBitmap) : Prop :=
  d.dirty_bits_l1.length = dirty_bits_l1_words ∧ d.dirty_bits_l2.length = dirty_bits_l2_words

/-- Set bit `bit_index` of an array of 64-bit words:
`words[bit_index / 64] |= 1 << (bit_index % 64)`. -/
def set_bit (words : List Nat) (bit_index : Nat) : List Nat :=
  words.set (bit_index / 64) (words.getD (bit_index / 64) 0 ||| (1 <<< (bit_index % 64)))

/-- Test bit `bit_index` of an array of 64-bit words. -/
def test_bit (words : List Nat) (bit_index : Nat) : Bool :=
  (words.getD (bit_index / 64) 0).testBit (bit_index % 64)

/-- The 4 KiB page that holds a physical address. -/
def page (address : Nat) : Nat := address / 4096

/-- The first-level region that holds a physical address.  One first-level
bit stands for 1 MiB (the comment at main.cc, line 398), so that one
first-level word of 64 bits spans 64 MiB. -/
def region (address : Nat) : Nat := address / (1024 * 1024)

/-- Modelled from the spec: the operation `mark(address)` of the dirty-page
tracker, which lives in the interpreter's memory-write path (not in main.cc).
It sets the second-level bit of the containing 4 KiB page and the first-level
bit of the containing region. -/
def mark (address : Nat) (d : DirtyBitmap) : DirtyBitmap :=
  { dirty_bits_l1 := set_bit d.dirty_bits_l1 (region address),
    dirty_bits_l2 := set_bit d.dirty_bits_l2 (page address) }

/-- Modelled from the spec: the point query `is_page_dirty(4 KiB index)`, which
is not in main.cc. -/
def is_page_dirty (d : DirtyBitmap) (page_index : Nat) : Bool :=
  test_bit d.dirty_bits_l2 page_index

/-- Modelled from the spec: the point query `is_region_dirty(index)`, which is
not in main.cc. -/
def is_region_dirty (d : DirtyBitmap) (region_index : Nat) : Bool :=
  test_bit d.dirty_bits_l1 region_index

/-- Modelled from the spec: the operation `clear_all()`, which is not in
main.cc.  It resets every word of both levels to zero. -/
def clear_all (d : DirtyBitmap) : DirtyBitmap :=
  { dirty_bits_l1 := List.replicate d.dirty_bits_l1.length 0,
    dirty_bits_l2 := List.replicate d.dirty_bits_l2.length 0 }

/-- The tracked store path: one `mark` for each written address, in order. -/
def marks (addresses : List Nat) (d : DirtyBitmap) : DirtyBitmap :=
  addresses.foldl (fun d address => mark address d) d

/-- The invariant of the two levels: a set page bit has its covering region
bit set (a region of 1 MiB holds 256 pages). -/
def DirtyBitmap.Covered (d : DirtyBitmap) : Prop :=
  ∀ page_index, is_page_dirty d page_index = true →
    is_region_dirty d (page_index / 256) = true

/-! ## Further notions for the mode test and the stop-trace bit -/

/-- The long-mode test of the interpreter reads interpreter state that only an
EFER write changes: it does not depend on the members that `set_context`
assigns plainly, and the methods that `set_context` calls before the test
(`setEFlags`, `set_segment_ar_data`, `set_tpr`, and `set32` of a register
other than EFER) leave it as it is. -/
structure Interp.ModeStable {κ : Type} (I : Interp κ) : Prop where
  regs : ∀ (c : BX_CPU_C κ) (r : Registers), I.get_LMA { c with regs := r } = I.get_LMA c
  prev_rsp : ∀ (c : BX_CPU_C κ) (v : Nat), I.get_LMA { c with prev_rsp := v } = I.get_LMA c
  prev_rip : ∀ (c : BX_CPU_C κ) (v : Nat), I.get_LMA { c with prev_rip := v } = I.get_LMA c
  setEFlags : ∀ c v, I.get_LMA (I.setEFlags c v) = I.get_LMA c
  set_segment_ar_data : ∀ c s valid selector base limit ar,
    I.get_LMA (I.set_segment_ar_data c s valid selector base limit ar) = I.get_LMA c
  set32 : ∀ r c v, r ≠ Reg32Obj.efer → I.get_LMA (I.set32 r c v) = I.get_LMA c
  set_tpr : ∀ c v, I.get_LMA (I.set_tpr c v) = I.get_LMA c

/-- An interpreter whose `rest` is the EFER register: `efer.set32` stores it,
`efer.get32` reads it, and the long-mode test is its bit 10 (EFER.LMA). -/
def efer_interp : Interp Nat :=
  { setEFlags := fun c _ => c
    read_eflags := fun _ => 0
    set_segment_ar_data := fun c _ _ _ _ _ _ => c
    seg_base := fun _ _ => 0
    seg_limit_scaled := fun _ _ => 0
    seg_selector_value := fun _ _ => 0
    get_descriptor_h := fun _ _ => 0
    set32 := fun r c v => match r with
      | .efer => { c with rest := v }
      | _ => c
    get32 := fun r c => match r with
      | .efer => c.rest
      | _ => 0
    get_LMA := fun c => c.rest.testBit 10
    set_tpr := fun c _ => c
    get_cr8 := fun _ => 0
    BX_READ_FPU_REG := fun _ _ => ⟨0, 0⟩
    get_control_word := fun _ => 0
    get_status_word := fun _ => 0
    get_tag_word := fun _ => 0
    set_TSC := fun c _ => c
    get_TSC := fun _ => 0
    TLB_flush := fun c => c
    handleAlignmentCheck := fun c => c
    handleCpuModeChange := fun c => c
    handleSseModeChange := fun c => c
    handleAvxModeChange := fun c => c
    handleAsyncEvent := fun c => (c, false)
    getICacheEntry := fun _ c => (c, ⟨0, 1⟩)
    BX_INSTR_BEFORE_EXECUTION := fun c _ => c
    ilen := fun _ _ => 1
    execute1 := fun c _ => c
    BX_INSTR_AFTER_EXECUTION := fun c _ => c
    BX_SYNC_TIME_IF_SINGLE_PROCESSOR := fun c => c
    tickn := fun c _ => c }

/-- The state after a reset: registers zero and EFER zero (legacy mode). -/
def Bochs.boot_legacy : Bochs Nat :=
  { cpu := { regs := default, prev_rsp := 0, prev_rip := 0, async_event := 0, icount := 0,
             rest := 0 },
    hypervisor_context_switches := hypervisor_context_switches_init,
    calls := [] }

/-- A register block of a 64-bit guest: EFER has SCE, LME, LMA and NXE set and
the last x87 instruction and data pointers lie above 4 GiB. -/
def long_mode_context : _whvp_context :=
  { (default : _whvp_context) with
    efer := 0xd01,
    fp_control := { FpControl := 0x37f, FpStatus := 0, FpTag := 0, LastFpOp := 0,
                    LastFpRip := 0xfffff80000401000 },
    xmm_control := { LastFpRdp := 0xffffa00000002000, XmmStatusControl := 0x1f80,
                     XmmStatusControlMask := 0xffff } }

/-- The state of `step_cpu` right after the instruction of a pass has been
executed and accounted for (main.cc, lines 791-826), before the test
`if (async_event) continue;`. -/
def step_cpu_post_execution {κ : Type} (I : Interp κ) (b : Bochs κ) : Bochs κ :=
  let entry := (I.getICacheEntry b.hypervisor_context_switches b.cpu).2
  let b : Bochs κ := b.call .getICacheEntry
    (fun c => (I.getICacheEntry b.hypervisor_context_switches c).1)
  let i := entry.i
  let b : Bochs κ := b.call (.BX_INSTR_BEFORE_EXECUTION i)
    (fun c => I.BX_INSTR_BEFORE_EXECUTION c i)
  let b : Bochs κ := b.assign (fun r => { r with RIP := (r.RIP + I.ilen b.cpu i) % 2 ^ 64 })
  let b : Bochs κ := b.call (.execute1 i) (fun c => I.execute1 c i)
  let b : Bochs κ := b.store (fun c => { c with prev_rip := c.regs.RIP })
  let b : Bochs κ := b.call (.BX_INSTR_AFTER_EXECUTION i)
    (fun c => I.BX_INSTR_AFTER_EXECUTION c i)
  let b : Bochs κ := b.store (fun c => { c with icount := (c.icount + 1) % 2 ^ 64 })
  b.call .BX_SYNC_TIME_IF_SINGLE_PROCESSOR I.BX_SYNC_TIME_IF_SINGLE_PROCESSOR

/-- An interpreter in which every instruction is a taken branch: executing it
sets the stop-trace bit of `async_event`, and the event handler finds nothing
to do. -/
def branch_interp : Interp Unit :=
  { idle with
    execute1 := fun c _ => { c with async_event := c.async_event ||| 0x80000000 } }

/-- The register-writing interpreter calls of `set_context`, in program order,
with the arguments taken from the applied block. -/
def register_write_calls (context : _whvp_context) : List Call :=
  [.setEFlags (Reg32 context.rflags),
   .set_segment_ar_data .ES context.es.Present context.es.Selector context.es.Base
     context.es.Limit context.es.Attributes,
   .set_segment_ar_data .CS context.cs.Present context.cs.Selector context.cs.Base
     context.cs.Limit context.cs.Attributes,
   .set_segment_ar_data .SS context.ss.Present context.ss.Selector context.ss.Base
     context.ss.Limit context.ss.Attributes,
   .set_segment_ar_data .DS context.ds.Present context.ds.Selector context.ds.Base
     context.ds.Limit context.ds.Attributes,
   .set_segment_ar_data .FS context.fs.Present context.fs.Selector context.fs.Base
     context.fs.Limit context.fs.Attributes,
   .set_segment_ar_data .GS context.gs.Present context.gs.Selector context.gs.Base
     context.gs.Limit context.gs.Attributes,
   .set_segment_ar_data .LDTR context.ldtr.Present context.ldtr.Selector context.ldtr.Base
     context.ldtr.Limit context.ldtr.Attributes,
   .set_segment_ar_data .TR context.tr.Present context.tr.Selector context.tr.Base
     context.tr.Limit context.tr.Attributes,
   .set32 .cr0 (Reg32 context.cr0),
   .set32 .cr4 (Reg32 context.cr4),
   .set_tpr ((Reg32 context.cr8 &&& 0xf) <<< 4),
   .set32 .dr6 (Reg32 context.dr6),
   .set32 .dr7 (Reg32 context.dr7),
   .set32 .xcr0 (Reg32 context.xcr0),
   .set_TSC context.tsc,
   .set32 .efer (Reg32 context.efer)]

/-! ## Notions for the register-level properties of the context functions -/

/-- The x87 member `st<i>` of a register block, by index. -/
def _whvp_context.st (c : _whvp_context) (i : Nat) : WHV_X64_FP_REGISTER :=
  match i with
  | 0 => c.st0
  | 1 => c.st1
  | 2 => c.st2
  | 3 => c.st3
  | 4 => c.st4
  | 5 => c.st5
  | 6 => c.st6
  | _ => c.st7

/-- The interpreter member `the_i387.st_space[i]`, by index. -/
def Registers.st_space (r : Registers) (i : Nat) : floatx80 :=
  match i with
  | 0 => r.st_space0
  | 1 => r.st_space1
  | 2 => r.st_space2
  | 3 => r.st_space3
  | 4 => r.st_space4
  | 5 => r.st_space5
  | 6 => r.st_space6
  | _ => r.st_space7

/-- An idle interpreter whose `BX_READ_FPU_REG(i)` reads `st_space[i]`. -/
def fpu_interp : Interp Unit :=
  { idle with BX_READ_FPU_REG := fun c i => c.regs.st_space i }

/-- A register block whose `st3` holds -1.0 (sign 1, biased exponent 0x3fff,
mantissa with the integer bit only). -/
def minus_one_context : _whvp_context :=
  { (default : _whvp_context) with st3 := ⟨0x8000000000000000, 0x3fff, 1⟩ }

/-- The members of a register block that `set_context` reads through their
`Reg32` view. -/
def _whvp_context.reg32_members (c : _whvp_context) : List Nat :=
  [c.rflags, c.cr0, c.cr4, c.dr6, c.dr7, c.xcr0, c.efer, c.sysenter_cs, c.sfmask,
   c.tsc_aux]

/-- The block `R2` differs from `R1` at most in the upper 32 bits of the
members that `set_context` reads through `Reg32`: every other member is equal
and those ten have equal low halves. -/
def _whvp_context.SameLow32 (R1 R2 : _whvp_context) : Prop :=
  R2 = { R1 with
    rflags := R2.rflags, cr0 := R2.cr0, cr4 := R2.cr4, dr6 := R2.dr6, dr7 := R2.dr7,
    xcr0 := R2.xcr0, efer := R2.efer, sysenter_cs := R2.sysenter_cs, sfmask := R2.sfmask,
    tsc_aux := R2.tsc_aux } ∧
  R2.reg32_members.map Reg32 = R1.reg32_members.map Reg32

/-- The accessors `read_eflags` and `get32` return values of their declared
type, which is 32 bits wide. -/
structure Interp.Returns32 {κ : Type} (I : Interp κ) : Prop where
  read_eflags : ∀ c, I.read_eflags c < 2 ^ 32
  get32 : ∀ r c, I.get32 r c < 2 ^ 32

/-- The arguments of the `lapic.set_tpr` calls in a piece of the log. -/
def tpr_writes (l : List Call) : List Nat :=
  l.filterMap (fun c => match c with
    | .set_tpr v => some v
    | _ => none)

/-- The interpreter methods that `set_context` calls leave the instruction
and stack pointers and their committed copies (`RIP`, `RSP`, `prev_rip`,
`prev_rsp`) alone. -/
structure Interp.FramePointers {κ : Type} (I : Interp κ) : Prop where
  setEFlags : ∀ c v,
    (I.setEFlags c v).regs.RIP = c.regs.RIP ∧
    (I.setEFlags c v).regs.RSP = c.regs.RSP ∧
    (I.setEFlags c v).prev_rip = c.prev_rip ∧
    (I.setEFlags c v).prev_rsp = c.prev_rsp
  set_segment_ar_data : ∀ c s valid selector base limit ar,
    (I.set_segment_ar_data c s valid selector base limit ar).regs.RIP = c.regs.RIP ∧
    (I.set_segment_ar_data c s valid selector base limit ar).regs.RSP = c.regs.RSP ∧
    (I.set_segment_ar_data c s valid selector base limit ar).prev_rip = c.prev_rip ∧
    (I.set_segment_ar_data c s valid selector base limit ar).prev_rsp = c.prev_rsp
  set32 : ∀ r c v,
    (I.set32 r c v).regs.RIP = c.regs.RIP ∧
    (I.set32 r c v).regs.RSP = c.regs.RSP ∧
    (I.set32 r c v).prev_rip = c.prev_rip ∧
    (I.set32 r c v).prev_rsp = c.prev_rsp
  set_tpr : ∀ c v,
    (I.set_tpr c v).regs.RIP = c.regs.RIP ∧
    (I.set_tpr c v).regs.RSP = c.regs.RSP ∧
    (I.set_tpr c v).prev_rip = c.prev_rip ∧
    (I.set_tpr c v).prev_rsp = c.prev_rsp
  set_TSC : ∀ c v,
    (I.set_TSC c v).regs.RIP = c.regs.RIP ∧
    (I.set_TSC c v).regs.RSP = c.regs.RSP ∧
    (I.set_TSC c v).prev_rip = c.prev_rip ∧
    (I.set_TSC c v).prev_rsp = c.prev_rsp
  TLB_flush : ∀ c,
    (I.TLB_flush c).regs.RIP = c.regs.RIP ∧
    (I.TLB_flush c).regs.RSP = c.regs.RSP ∧
    (I.TLB_flush c).prev_rip = c.prev_rip ∧
    (I.TLB_flush c).prev_rsp = c.prev_rsp
  handleAlignmentCheck : ∀ c,
    (I.handleAlignmentCheck c).regs.RIP = c.regs.RIP ∧
    (I.handleAlignmentCheck c).regs.RSP = c.regs.RSP ∧
    (I.handleAlignmentCheck c).prev_rip = c.prev_rip ∧
    (I.handleAlignmentCheck c).prev_rsp = c.prev_rsp
  handleCpuModeChange : ∀ c,
    (I.handleCpuModeChange c).regs.RIP = c.regs.RIP ∧
    (I.handleCpuModeChange c).regs.RSP = c.regs.RSP ∧
    (I.handleCpuModeChange c).prev_rip = c.prev_rip ∧
    (I.handleCpuModeChange c).prev_rsp = c.prev_rsp
  handleSseModeChange : ∀ c,
    (I.handleSseModeChange c).regs.RIP = c.regs.RIP ∧
    (I.handleSseModeChange c).regs.RSP = c.regs.RSP ∧
    (I.handleSseModeChange c).prev_rip = c.prev_rip ∧
    (I.handleSseModeChange c).prev_rsp = c.prev_rsp
  handleAvxModeChange : ∀ c,
    (I.handleAvxModeChange c).regs.RIP = c.regs.RIP ∧
    (I.handleAvxModeChange c).regs.RSP = c.regs.RSP ∧
    (I.handleAvxModeChange c).prev_rip = c.prev_rip ∧
    (I.handleAvxModeChange c).prev_rsp = c.prev_rsp

/-- An idle interpreter whose `handleCpuModeChange` clears the upper halves of
`RIP` and `RSP`, as a mode handler does when the new mode is a 32-bit one. -/
def compat_interp : Interp Unit :=
  { idle with
    handleCpuModeChange := fun c =>
      { c with regs := { c.regs with RIP := c.regs.RIP % 2 ^ 32, RSP := c.regs.RSP % 2 ^ 32 } } }

/-- The interpreter keeps the task priority that `lapic.set_tpr` was given,
readable from its state through `tpr`, and the other methods that
`set_context` calls leave it alone. -/
structure Interp.KeepsTpr {κ : Type} (I : Interp κ) (tpr : κ → Nat) : Prop where
  set_tpr : ∀ c v, tpr (I.set_tpr c v).rest = v
  setEFlags : ∀ c v, tpr (I.setEFlags c v).rest = tpr c.rest
  set_segment_ar_data : ∀ c s valid selector base limit ar,
    tpr (I.set_segment_ar_data c s valid selector base limit ar).rest = tpr c.rest
  set32 : ∀ r c v, tpr (I.set32 r c v).rest = tpr c.rest
  set_TSC : ∀ c v, tpr (I.set_TSC c v).rest = tpr c.rest
  TLB_flush : ∀ c, tpr (I.TLB_flush c).rest = tpr c.rest
  handleAlignmentCheck : ∀ c, tpr (I.handleAlignmentCheck c).rest = tpr c.rest
  handleCpuModeChange : ∀ c, tpr (I.handleCpuModeChange c).rest = tpr c.rest
  handleSseModeChange : ∀ c, tpr (I.handleSseModeChange c).rest = tpr c.rest
  handleAvxModeChange : ∀ c, tpr (I.handleAvxModeChange c).rest = tpr c.rest

/-- An interpreter whose `rest` is the task priority register of the local
APIC: `lapic.set_tpr` stores it and `get_cr8` reads its bits 4..7. -/
def tpr_interp : Interp Nat :=
  { efer_interp with
    set32 := fun _ c _ => c
    get32 := fun _ _ => 0
    get_LMA := fun _ => false
    set_tpr := fun c v => { c with rest := v }
    get_cr8 := fun c => (c.rest >>> 4) &&& 0xf }

/-- A register block whose CR8 is 0x1f, above the 4-bit range. -/
def high_cr8_context : _whvp_context :=
  { sample_context with cr8 := 0x1f }

/-- The number of times the body of the loop of `step_cpu` is entered. -/
def step_cpu_loop_iterations {κ : Type} (I : Interp κ) (stop_trace : Nat) :
    Nat → Bochs κ → Nat
  | 0, _ => 0
  | steps + 1, b =>
    if (check_async_event I b).2 then 1
    else 1 + step_cpu_loop_iterations I stop_trace steps (step_cpu_pass I stop_trace b)

/-- The number of times the body of the loop of `step_device` is entered. -/
def step_device_loop_iterations {κ : Type} (I : Interp κ) : Nat → Bochs κ → Nat
  | 0, _ => 0
  | steps + 1, b =>
    if (check_async_event I b).2 then 1
    else 1 + step_device_loop_iterations I steps (step_device_pass I b)

/-- A block with upper halves set in the members read through `Reg32`. -/
def high_halves_context : _whvp_context :=
  { sample_context with
    rflags := 0xdead00000202, cr0 := 0x180050033, efer := 0xffff000000000d01,
    sfmask := 0x100004700 }

/-- The same block with those upper halves clear. -/
def low_halves_context : _whvp_context :=
  { sample_context with
    rflags := 0x202, cr0 := 0x80050033, efer := 0xd01, sfmask := 0x4700 }

/-- The 16 general-purpose registers of a register block. -/
def _whvp_context.general (c : _whvp_context) : List Nat :=
  [c.rax, c.rcx, c.rdx, c.rbx, c.rsp, c.rbp, c.rsi, c.rdi, c.r8, c.r9, c.r10, c.r11,
   c.r12, c.r13, c.r14, c.r15]

/-- The model-specific registers of a register block that both context
functions copy at their full 64 bits. -/
def _whvp_context.full_msrs (c : _whvp_context) : List Nat :=
  [c.kernel_gs_base, c.apic_base, c.pat, c.sysenter_eip, c.sysenter_esp, c.star, c.lstar,
   c.cstar]

/-- The argument of `lapic.set_tpr` in `set_context` (main.cc, line 534):
`(context->cr8.Reg32 & 0xf) << 4`. -/
def task_priority (cr8 : Nat) : Nat := (Reg32 cr8 &&& 0xf) <<< 4

/-! ## Splitting the command line (`split_string_into_argv`) -/

/-- The constant `MAX_ARGLEN`: the size of the buffer allocated for one
argument. -/
def MAX_ARGLEN : Nat := 80

/-- The double-quote character. -/
def double_quote : Char := Char.ofNat 34

/-- The single-quote character. -/
def single_quote : Char := Char.ofNat 39

/-- The locals of `split_string_into_argv` while the string is parsed:
`argv` holds the completed strings `argv[0] .. argv[argc-1]` and `outp` the
characters written so far into the buffer `argv[argc]`. -/
structure SplitState where
  in_double_quote : Bool
  in_single_quote : Bool
  argc : Nat
  argv : List (List Char)
  outp : List Char
deriving DecidableEq, Repr

/-- What `split_string_into_argv` hands back: the return code, the value
stored through `argc_out` (none when the function returns before the store)
and the completed strings of `argv`. -/
structure SplitResult where
  ret : Int
  argc_out : Option Nat
  argv : List (List Char)
deriving DecidableEq, Repr

/-- The loop `for (p=buf; *p; p++) if (*p!=' ') last_nonspace = p;` on the
characters from `p` on; `i` is the offset of `p` from `buf` and the result is
the offset of `last_nonspace` from `buf`. -/
def find_last_nonspace : List Char → Nat → Nat → Nat
  | [], _, last_nonspace => last_nonspace
  | c :: p, i, last_nonspace =>
    find_last_nonspace p (i + 1) (if c ≠ ' ' then i else last_nonspace)

/-- The statements under the comment `trim leading and trailing spaces`
(main.cc, lines 1075-1082): skip the leading spaces, find the last non-space
character, and cut the copy of the string after it if it is not the first
character (`if (last_nonspace != buf) *(last_nonspace+1) = 0`). -/
def trim_spaces (string : List Char) : List Char :=
  if find_last_nonspace (string.dropWhile (fun c => c = ' ')) 0 0 ≠ 0 then
    (string.dropWhile (fun c => c = ' ')).take
      (find_last_nonspace (string.dropWhile (fun c => c = ' ')) 0 0 + 1)
  else string.dropWhile (fun c => c = ' ')

/-- The loop `while (!done) switch (*p)` of `split_string_into_argv`
(main.cc, lines 1085-1123) on the characters from `p` on, the terminating NUL
being the end of the list.  The flag `skipping` is set while the inner loop
`while (*p==' ') p++` of the space case runs.  The returns inside the loop
and the two after it give the result. -/
def split_string_into_argv_loop (max_argv : Nat) :
    List Char → Bool → SplitState → SplitResult
  | [], _, st =>
    if st.in_double_quote = true ∨ st.in_single_quote = true then ⟨-1, none, st.argv⟩
    else if st.argc + 1 ≥ max_argv then ⟨-1, none, st.argv ++ [st.outp]⟩
    else ⟨0, some (st.argc + 1), st.argv ++ [st.outp]⟩
  | c :: p, skipping, st =>
    if skipping = true ∧ c = ' ' then split_string_into_argv_loop max_argv p true st
    else if c = ' ' ∧ st.in_double_quote = false ∧ st.in_single_quote = false then
      if st.argc + 1 ≥ max_argv then ⟨-1, none, st.argv ++ [st.outp]⟩
      else split_string_into_argv_loop max_argv p true
        { st with argc := st.argc + 1, argv := st.argv ++ [st.outp], outp := [] }
    else if c = double_quote ∧ st.in_single_quote = false then
      split_string_into_argv_loop max_argv p false
        { st with in_double_quote := !st.in_double_quote }
    else if c = single_quote ∧ st.in_double_quote = false then
      split_string_into_argv_loop max_argv p false
        { st with in_single_quote := !st.in_single_quote }
    else if st.outp.length ≥ MAX_ARGLEN then ⟨-1, none, st.argv⟩
    else split_string_into_argv_loop max_argv p false { st with outp := st.outp ++ [c] }

/-- The function `split_string_into_argv` (main.cc, lines 1062-1134) on the
characters of the C string `string` (those before its terminating NUL), for
`max_argv >= 2`: `argv[0]` is "bochs", `argc` starts at 1, the copy of the
string is trimmed and then parsed. -/
def split_string_into_argv (string : List Char) (max_argv : Nat) : SplitResult :=
  split_string_into_argv_loop max_argv (trim_spaces string) false
    { in_double_quote := false, in_single_quote := false, argc := 1,
      argv := ["bochs".toList], outp := [] }

/-- A command line made of the given words, consecutive words separated by
one space and as many more as the list `gaps` says. -/
def command_line : List (List Char) → List Nat → List Char
  | [], _ => []
  | [w], _ => w
  | w :: w2 :: ws, gaps =>
    w ++ (List.replicate (gaps.headD 0 + 1) ' ' ++ command_line (w2 :: ws) gaps.tail)

/-- A word as C25 takes it: 1 to 79 characters, none of them a space or a
quote character. -/
def PlainWord (w : List Char) : Prop :=
  1 ≤ w.length ∧ w.length ≤ 79 ∧ ∀ c ∈ w, c ≠ ' ' ∧ c ≠ double_quote ∧ c ≠ single_quote

/-- Whether a word is plain is decidable. -/
instance PlainWord.decidable (w : List Char) : Decidable (PlainWord w) := by
  unfold PlainWord
  infer_instance

/-! ## Theorems -/

/-! ### Helper lemmas on the state operations -/

theorem Bochs.assign_regs {κ : Type} (f : Registers → Registers) (b : Bochs κ) :
    (b.assign f).cpu.regs = f b.cpu.regs := rfl

theorem Bochs.call_cpu {κ : Type} (c : Call) (f : BX_CPU_C κ → BX_CPU_C κ) (b : Bochs κ) :
    (b.call c f).cpu = f b.cpu := rfl

theorem Bochs.store_cpu {κ : Type} (f : BX_CPU_C κ → BX_CPU_C κ) (b : Bochs κ) :
    (b.store f).cpu = f b.cpu := rfl

theorem Bochs.ite_regs {κ : Type} (p : Prop) [Decidable p] (x y : Bochs κ) :
    (if p then x else y).cpu.regs = if p then x.cpu.regs else y.cpu.regs := by
  split <;> rfl

theorem Bochs.assign_counter {κ : Type} (f : Registers → Registers) (b : Bochs κ) :
    (b.assign f).hypervisor_context_switches = b.hypervisor_context_switches := rfl

theorem Bochs.call_counter {κ : Type} (c : Call) (f : BX_CPU_C κ → BX_CPU_C κ)
    (b : Bochs κ) :
    (b.call c f).hypervisor_context_switches = b.hypervisor_context_switches := rfl

theorem Bochs.store_counter {κ : Type} (f : BX_CPU_C κ → BX_CPU_C κ) (b : Bochs κ) :
    (b.store f).hypervisor_context_switches = b.hypervisor_context_switches := rfl

theorem Bochs.ite_counter {κ : Type} (p : Prop) [Decidable p] (x y : Bochs κ) :
    (if p then x else y).hypervisor_context_switches
      = if p then x.hypervisor_context_switches else y.hypervisor_context_switches := by
  split <;> rfl

theorem Reg32_add (v : Nat) : Reg32 (v + 2 ^ 32) = Reg32 v := by
  simp [Reg32]

/-- The counter after one `set_context` is the old one plus one, modulo 2^64. -/
theorem set_context_counter {κ : Type} (I : Interp κ) (R : _whvp_context) (b : Bochs κ) :
    (set_context I R b).hypervisor_context_switches
      = (b.hypervisor_context_switches + 1) % 2 ^ 64 := by
  unfold set_context
  simp only [SET_SEGMENT_FULL, Bochs.assign_counter, Bochs.call_counter, Bochs.store_counter,
    Bochs.ite_counter, ite_self]

/-- The counter after a list of `set_context` calls. -/
theorem set_contexts_counter {κ : Type} (I : Interp κ) (Rs : List _whvp_context)
    (b : Bochs κ) (hb : b.hypervisor_context_switches < 2 ^ 64) :
    (set_contexts I Rs b).hypervisor_context_switches
      = (b.hypervisor_context_switches + Rs.length) % 2 ^ 64 := by
  induction Rs generalizing b with
  | nil =>
    have h0 : set_contexts I [] b = b := rfl
    rw [h0, List.length_nil, Nat.add_zero, Nat.mod_eq_of_lt hb]
  | cons R Rs ih =>
    have hstep : set_contexts I (R :: Rs) b = set_contexts I Rs (set_context I R b) := rfl
    have hlt : (set_context I R b).hypervisor_context_switches < 2 ^ 64 := by
      rw [set_context_counter]
      exact Nat.mod_lt _ (by norm_num)
    rw [hstep, ih _ hlt, set_context_counter, List.length_cons]
    omega

/-- The plainly assigned registers after `set_context`, when the interpreter
methods leave them alone: every member holds the value taken from the block;
only the four last-pointer members depend on the mode test. -/
theorem set_context_regs {κ : Type} (I : Interp κ) (hI : I.Frame) (R : _whvp_context)
    (b : Bochs κ) :
    ∃ fip fcs fdp fds, (set_context I R b).cpu.regs =
      { RAX := R.rax, RCX := R.rcx, RDX := R.rdx, RBX := R.rbx, RSP := R.rsp, RBP := R.rbp,
        RSI := R.rsi, RDI := R.rdi, R8 := R.r8, R9 := R.r9, R10 := R.r10, R11 := R.r11,
        R12 := R.r12, R13 := R.r13, R14 := R.r14, R15 := R.r15, RIP := R.rip,
        idtr_base := R.idtr.Base, idtr_limit := R.idtr.Limit,
        gdtr_base := R.gdtr.Base, gdtr_limit := R.gdtr.Limit,
        cr2 := R.cr2, cr3 := R.cr3, dr0 := R.dr0, dr1 := R.dr1, dr2 := R.dr2, dr3 := R.dr3,
        xmm0 := R.xmm0, xmm1 := R.xmm1, xmm2 := R.xmm2, xmm3 := R.xmm3, xmm4 := R.xmm4,
        xmm5 := R.xmm5, xmm6 := R.xmm6, xmm7 := R.xmm7, xmm8 := R.xmm8, xmm9 := R.xmm9,
        xmm10 := R.xmm10, xmm11 := R.xmm11, xmm12 := R.xmm12, xmm13 := R.xmm13,
        xmm14 := R.xmm14, xmm15 := R.xmm15,
        st_space0 := SET_FP_REG R.st0, st_space1 := SET_FP_REG R.st1,
        st_space2 := SET_FP_REG R.st2, st_space3 := SET_FP_REG R.st3,
        st_space4 := SET_FP_REG R.st4, st_space5 := SET_FP_REG R.st5,
        st_space6 := SET_FP_REG R.st6, st_space7 := SET_FP_REG R.st7,
        cwd := R.fp_control.FpControl, swd := R.fp_control.FpStatus,
        twd := R.fp_control.FpTag, foo := R.fp_control.LastFpOp,
        fip := fip, fcs := fcs, fdp := fdp, fds := fds,
        mxcsr := R.xmm_control.XmmStatusControl,
        mxcsr_mask := R.xmm_control.XmmStatusControlMask,
        kernelgsbase := R.kernel_gs_base, apicbase := R.apic_base, pat := R.pat,
        sysenter_cs_msr := Reg32 R.sysenter_cs, sysenter_eip_msr := R.sysenter_eip,
        sysenter_esp_msr := R.sysenter_esp, star := R.star, lstar := R.lstar,
        cstar := R.cstar, fmask := Reg32 R.sfmask, tsc_aux := Reg32 R.tsc_aux } := by
  refine ⟨(set_context I R b).cpu.regs.fip, (set_context I R b).cpu.regs.fcs,
    (set_context I R b).cpu.regs.fdp, (set_context I R b).cpu.regs.fds, ?_⟩
  unfold set_context
  simp only [SET_SEGMENT_FULL, Bochs.assign_regs, Bochs.call_cpu, Bochs.store_cpu,
    Bochs.ite_regs, hI.setEFlags, hI.set_segment_ar_data, hI.set32, hI.set_tpr, hI.set_TSC,
    hI.TLB_flush, hI.handleAlignmentCheck, hI.handleCpuModeChange, hI.handleSseModeChange,
    hI.handleAvxModeChange]
  split_ifs <;> rfl

/-- The methods of the idle interpreter leave the registers alone. -/
theorem idle_frame : idle.Frame := by
  constructor <;> intros <;> rfl

/-! ### Helper lemmas on the ghost log and the stepping loops -/

/-- The log of `after` extends the log of `before`. -/
theorem new_calls_of_append {κ : Type} {before after : Bochs κ} {L : List Call}
    (h : after.calls = before.calls ++ L) : new_calls before after = L := by
  simp [new_calls, h]

theorem new_calls_trans {κ : Type} {a b c : Bochs κ}
    (h1 : b.calls = a.calls ++ new_calls a b) (h2 : c.calls = b.calls ++ new_calls b c) :
    c.calls = a.calls ++ new_calls a c ∧ new_calls a c = new_calls a b ++ new_calls b c := by
  have h : c.calls = a.calls ++ (new_calls a b ++ new_calls b c) := by
    rw [h2, ← List.append_assoc, ← h1]
  have hn := new_calls_of_append h
  exact ⟨by rw [hn]; exact h, hn⟩

theorem executions_append (l m : List Call) :
    executions (l ++ m) = executions l ++ executions m := by
  simp [executions, List.filterMap_append]

theorem ticks_append (l m : List Call) : ticks (l ++ m) = ticks l ++ ticks m := by
  simp [ticks, List.filterMap_append]

theorem check_async_event_new_calls {κ : Type} (I : Interp κ) (b : Bochs κ) :
    new_calls b (check_async_event I b).1 =
      if b.cpu.async_event ≠ 0 then [Call.handleAsyncEvent (I.handleAsyncEvent b.cpu).2]
      else [] := by
  apply new_calls_of_append
  unfold check_async_event
  split <;> simp

theorem check_async_event_calls {κ : Type} (I : Interp κ) (b : Bochs κ) :
    (check_async_event I b).1.calls = b.calls ++ new_calls b (check_async_event I b).1 := by
  rw [check_async_event_new_calls]
  unfold check_async_event
  split <;> simp

theorem check_async_event_ret {κ : Type} (I : Interp κ) (b : Bochs κ) :
    (check_async_event I b).2 = true ↔
      b.cpu.async_event ≠ 0 ∧ (I.handleAsyncEvent b.cpu).2 = true := by
  unfold check_async_event
  split <;> simp_all

theorem step_cpu_execute_new_calls {κ : Type} (I : Interp κ) (stop_trace : Nat)
    (b : Bochs κ) :
    ∃ tail, new_calls b (step_cpu_execute I stop_trace b) =
      ([Call.getICacheEntry,
        .BX_INSTR_BEFORE_EXECUTION (I.getICacheEntry b.hypervisor_context_switches b.cpu).2.i,
        .execute1 (I.getICacheEntry b.hypervisor_context_switches b.cpu).2.i,
        .BX_INSTR_AFTER_EXECUTION (I.getICacheEntry b.hypervisor_context_switches b.cpu).2.i,
        .BX_SYNC_TIME_IF_SINGLE_PROCESSOR] ++ tail) ∧
      (tail = [] ∨ tail = [Call.getICacheEntry]) ∧
      (step_cpu_execute I stop_trace b).calls
        = b.calls ++ new_calls b (step_cpu_execute I stop_trace b) := by
  have key : ∃ tail, (step_cpu_execute I stop_trace b).calls = b.calls ++
      ([Call.getICacheEntry,
        .BX_INSTR_BEFORE_EXECUTION (I.getICacheEntry b.hypervisor_context_switches b.cpu).2.i,
        .execute1 (I.getICacheEntry b.hypervisor_context_switches b.cpu).2.i,
        .BX_INSTR_AFTER_EXECUTION (I.getICacheEntry b.hypervisor_context_switches b.cpu).2.i,
        .BX_SYNC_TIME_IF_SINGLE_PROCESSOR] ++ tail) ∧
      (tail = [] ∨ tail = [Call.getICacheEntry]) := by
    unfold step_cpu_execute
    simp only []
    split_ifs
    · exact ⟨[], by simp [Bochs.call, Bochs.assign, Bochs.store], Or.inl rfl⟩
    · exact ⟨[.getICacheEntry], by simp [Bochs.call, Bochs.assign, Bochs.store], Or.inr rfl⟩
    · exact ⟨[], by simp [Bochs.call, Bochs.assign, Bochs.store], Or.inl rfl⟩
  obtain ⟨tail, h, ht⟩ := key
  exact ⟨tail, new_calls_of_append h, ht, by rw [new_calls_of_append h]; exact h⟩

theorem step_cpu_pass_calls {κ : Type} (I : Interp κ) (stop_trace : Nat) (b : Bochs κ) :
    (step_cpu_pass I stop_trace b).calls = b.calls ++ new_calls b (step_cpu_pass I stop_trace b) ∧
    (executions (new_calls b (step_cpu_pass I stop_trace b))).length = 1 ∧
    (Call.handleAsyncEvent true ∈ new_calls b (step_cpu_pass I stop_trace b) →
      (check_async_event I b).2 = true) := by
  obtain ⟨tail, h, ht, hc⟩ := step_cpu_execute_new_calls I stop_trace (check_async_event I b).1
  obtain ⟨h1, h2⟩ := new_calls_trans (check_async_event_calls I b) hc
  refine ⟨h1, ?_, ?_⟩
  · unfold step_cpu_pass
    rw [h2, h, check_async_event_new_calls]
    rcases ht with rfl | rfl <;> split_ifs <;> simp [executions]
  · unfold step_cpu_pass
    rw [h2, h, check_async_event_new_calls, check_async_event_ret]
    intro hmem
    rcases ht with rfl | rfl <;> split_ifs at hmem with h0 <;> simp_all

theorem step_cpu_loop_calls {κ : Type} (I : Interp κ) (stop_trace : Nat) (n : Nat)
    (b : Bochs κ) :
    (step_cpu_loop I stop_trace n b).1.calls
      = b.calls ++ new_calls b (step_cpu_loop I stop_trace n b).1 ∧
    (executions (new_calls b (step_cpu_loop I stop_trace n b).1)).length ≤ n ∧
    ((executions (new_calls b (step_cpu_loop I stop_trace n b).1)).length < n →
      Call.handleAsyncEvent true ∈ new_calls b (step_cpu_loop I stop_trace n b).1) ∧
    ((∀ c, (I.handleAsyncEvent c).2 = false) →
      (executions (new_calls b (step_cpu_loop I stop_trace n b).1)).length = n) := by
  induction n generalizing b with
  | zero => simp [step_cpu_loop, new_calls, executions]
  | succ n ih =>
    by_cases hret : (check_async_event I b).2 = true
    · have h := (check_async_event_ret I b).1 hret
      have hl : (step_cpu_loop I stop_trace (n + 1) b).1 = (check_async_event I b).1 := by
        simp only [step_cpu_loop, hret, if_true]
      rw [hl, check_async_event_new_calls, if_pos h.1, h.2]
      refine ⟨?_, by simp [executions], by simp, ?_⟩
      · have := check_async_event_calls I b
        rwa [check_async_event_new_calls, if_pos h.1, h.2] at this
      · intro hnever
        rw [hnever] at h
        exact absurd h.2 (by simp)
    · obtain ⟨h1, he1, _⟩ := step_cpu_pass_calls I stop_trace b
      obtain ⟨h2, hle, hlt, hall⟩ := ih (step_cpu_pass I stop_trace b)
      have hl : (step_cpu_loop I stop_trace (n + 1) b).1
          = (step_cpu_loop I stop_trace n (step_cpu_pass I stop_trace b)).1 := by
        simp only [step_cpu_loop, hret, step_cpu_pass]
        rfl
      rw [hl]
      obtain ⟨h3, h4⟩ := new_calls_trans h1 h2
      refine ⟨h3, ?_, ?_, ?_⟩
      · rw [h4, executions_append, List.length_append, he1]; omega
      · intro hlen
        rw [h4, executions_append, List.length_append, he1] at hlen
        rw [h4]
        exact List.mem_append_right _ (hlt (by omega))
      · intro hnever
        rw [h4, executions_append, List.length_append, he1, hall hnever]; omega

theorem Bochs.call_calls {κ : Type} (c : Call) (f : BX_CPU_C κ → BX_CPU_C κ) (b : Bochs κ) :
    (b.call c f).calls = b.calls ++ new_calls b (b.call c f) ∧
    new_calls b (b.call c f) = [c] := by
  have h : (b.call c f).calls = b.calls ++ [c] := rfl
  exact ⟨by rw [new_calls_of_append h]; exact h, new_calls_of_append h⟩

theorem step_cpu_new_calls {κ : Type} (I : Interp κ) (stop_trace n : Nat) (b : Bochs κ) :
    new_calls b (step_cpu I stop_trace n b).1 =
      Call.TLB_flush ::
        new_calls (b.call .TLB_flush I.TLB_flush) (step_cpu I stop_trace n b).1 := by
  obtain ⟨h1, h2⟩ := Bochs.call_calls .TLB_flush I.TLB_flush b
  have h3 := (step_cpu_loop_calls I stop_trace n (b.call .TLB_flush I.TLB_flush)).1
  have h4 := (new_calls_trans h1 h3).2
  rw [h2] at h4
  exact h4

theorem step_cpu_iterate_calls {κ : Type} (I : Interp κ) (stop_trace : Nat) (k : Nat)
    (b : Bochs κ) :
    ((step_cpu_pass I stop_trace)^[k] b).calls
      = b.calls ++ new_calls b ((step_cpu_pass I stop_trace)^[k] b) ∧
    (executions (new_calls b ((step_cpu_pass I stop_trace)^[k] b))).length = k := by
  induction k with
  | zero => simp [new_calls, executions]
  | succ k ih =>
    rw [Function.iterate_succ_apply']
    obtain ⟨h1, h2, _⟩ := step_cpu_pass_calls I stop_trace ((step_cpu_pass I stop_trace)^[k] b)
    obtain ⟨h3, h4⟩ := new_calls_trans ih.1 h1
    exact ⟨h3, by rw [h4, executions_append, List.length_append, ih.2, h2]⟩

theorem step_cpu_loop_skip {κ : Type} (I : Interp κ) (stop_trace : Nat) (k n : Nat)
    (b : Bochs κ) (hk : k ≤ n)
    (h : ∀ i < k, (check_async_event I ((step_cpu_pass I stop_trace)^[i] b)).2 = false) :
    step_cpu_loop I stop_trace n b
      = step_cpu_loop I stop_trace (n - k) ((step_cpu_pass I stop_trace)^[k] b) := by
  induction k generalizing n b with
  | zero => rfl
  | succ k ih =>
    obtain ⟨m, rfl⟩ : ∃ m, n = m + 1 := ⟨n - 1, by omega⟩
    have h0 : (check_async_event I b).2 = false := h 0 (by omega)
    have hl : step_cpu_loop I stop_trace (m + 1) b
        = step_cpu_loop I stop_trace m (step_cpu_pass I stop_trace b) := by
      simp only [step_cpu_loop, h0, step_cpu_pass]
      rfl
    rw [hl, ih m (step_cpu_pass I stop_trace b) (by omega)
      (fun i hi => by rw [← Function.iterate_succ_apply]; exact h (i + 1) (by omega))]
    rw [Function.iterate_succ_apply]
    congr 1
    omega

/-- When no event is latched at the first `j` tests and the handler asks to
return at the next one, the loop of `step_cpu` ends there: `j` instructions
were executed and the local `steps` is `n - j - 1`. -/
theorem step_cpu_loop_early_return {κ : Type} (I : Interp κ) (stop_trace : Nat) (n j : Nat)
    (b : Bochs κ) (hj : j < n)
    (hquiet : ∀ k < j, ((step_cpu_pass I stop_trace)^[k] b).cpu.async_event = 0)
    (hlatched : ((step_cpu_pass I stop_trace)^[j] b).cpu.async_event ≠ 0)
    (hret : (I.handleAsyncEvent ((step_cpu_pass I stop_trace)^[j] b).cpu).2 = true) :
    (executions (new_calls b (step_cpu_loop I stop_trace n b).1)).length = j ∧
    (step_cpu_loop I stop_trace n b).2 = n - j - 1 := by
  have hskip := step_cpu_loop_skip I stop_trace j n b (by omega) (fun k hk => by
    have := hquiet k hk
    cases hc : (check_async_event I ((step_cpu_pass I stop_trace)^[k] b)).2
    · rfl
    · exact absurd this ((check_async_event_ret I _).1 hc).1)
  obtain ⟨m, hm⟩ : ∃ m, n - j = m + 1 := ⟨n - j - 1, by omega⟩
  have hc : (check_async_event I ((step_cpu_pass I stop_trace)^[j] b)).2 = true :=
    (check_async_event_ret I _).2 ⟨hlatched, hret⟩
  have hl : step_cpu_loop I stop_trace (m + 1) ((step_cpu_pass I stop_trace)^[j] b)
      = ((check_async_event I ((step_cpu_pass I stop_trace)^[j] b)).1, m) := by
    simp only [step_cpu_loop, hc, if_true]
  rw [hskip, hm, hl]
  obtain ⟨h1, h2⟩ := step_cpu_iterate_calls I stop_trace j b
  obtain ⟨_, h4⟩ := new_calls_trans h1 (check_async_event_calls I _)
  refine ⟨?_, by simp only; omega⟩
  simp only
  rw [h4, executions_append, List.length_append, h2, check_async_event_new_calls,
    if_pos hlatched]
  simp [executions]

theorem step_device_pass_calls {κ : Type} (I : Interp κ) (b : Bochs κ) :
    (step_device_pass I b).calls = b.calls ++ new_calls b (step_device_pass I b) ∧
    new_calls b (step_device_pass I b)
      = new_calls b (check_async_event I b).1 ++ [Call.tickn 1] ∧
    ticks (new_calls b (step_device_pass I b)) = [1] := by
  obtain ⟨h1, h2⟩ := Bochs.call_calls (.tickn 1) (fun c => I.tickn c 1) (check_async_event I b).1
  obtain ⟨h3, h4⟩ := new_calls_trans (check_async_event_calls I b) h1
  refine ⟨h3, by rw [← h2]; exact h4, ?_⟩
  unfold step_device_pass
  rw [h4, h2, check_async_event_new_calls]
  split_ifs <;> simp [ticks]

theorem step_device_loop_calls {κ : Type} (I : Interp κ) (n : Nat) (b : Bochs κ) :
    (step_device_loop I n b).1.calls = b.calls ++ new_calls b (step_device_loop I n b).1 ∧
    ((∀ c, (I.handleAsyncEvent c).2 = false) →
      ticks (new_calls b (step_device_loop I n b).1) = List.replicate n 1) := by
  induction n generalizing b with
  | zero => simp [step_device_loop, new_calls, ticks]
  | succ n ih =>
    by_cases hret : (check_async_event I b).2 = true
    · have h := (check_async_event_ret I b).1 hret
      have hl : (step_device_loop I (n + 1) b).1 = (check_async_event I b).1 := by
        simp only [step_device_loop, hret, if_true]
      rw [hl]
      refine ⟨check_async_event_calls I b, fun hnever => ?_⟩
      rw [hnever] at h
      exact absurd h.2 (by simp)
    · obtain ⟨h1, _, ht⟩ := step_device_pass_calls I b
      obtain ⟨h2, hall⟩ := ih (step_device_pass I b)
      have hl : (step_device_loop I (n + 1) b).1
          = (step_device_loop I n (step_device_pass I b)).1 := by
        simp only [step_device_loop, hret, step_device_pass]
        rfl
      rw [hl]
      obtain ⟨h3, h4⟩ := new_calls_trans h1 h2
      refine ⟨h3, fun hnever => ?_⟩
      rw [h4, ticks_append, ht, hall hnever]
      rfl

theorem step_device_new_calls {κ : Type} (I : Interp κ) (n : Nat) (b : Bochs κ) :
    new_calls b (step_device I n b).1 =
      Call.TLB_flush :: new_calls (b.call .TLB_flush I.TLB_flush) (step_device I n b).1 := by
  obtain ⟨h1, h2⟩ := Bochs.call_calls .TLB_flush I.TLB_flush b
  have h3 := (step_device_loop_calls I n (b.call .TLB_flush I.TLB_flush)).1
  have h4 := (new_calls_trans h1 h3).2
  rw [h2] at h4
  exact h4

theorem step_device_iterate_calls {κ : Type} (I : Interp κ) (k : Nat) (b : Bochs κ) :
    ((step_device_pass I)^[k] b).calls
      = b.calls ++ new_calls b ((step_device_pass I)^[k] b) ∧
    ticks (new_calls b ((step_device_pass I)^[k] b)) = List.replicate k 1 := by
  induction k with
  | zero => simp [new_calls, ticks]
  | succ k ih =>
    rw [Function.iterate_succ_apply']
    obtain ⟨h1, _, h2⟩ := step_device_pass_calls I ((step_device_pass I)^[k] b)
    obtain ⟨h3, h4⟩ := new_calls_trans ih.1 h1
    refine ⟨h3, ?_⟩
    rw [h4, ticks_append, ih.2, h2, List.replicate_succ']

theorem step_device_loop_skip {κ : Type} (I : Interp κ) (k n : Nat) (b : Bochs κ)
    (hk : k ≤ n)
    (h : ∀ i < k, (check_async_event I ((step_device_pass I)^[i] b)).2 = false) :
    step_device_loop I n b = step_device_loop I (n - k) ((step_device_pass I)^[k] b) := by
  induction k generalizing n b with
  | zero => rfl
  | succ k ih =>
    obtain ⟨m, rfl⟩ : ∃ m, n = m + 1 := ⟨n - 1, by omega⟩
    have h0 : (check_async_event I b).2 = false := h 0 (by omega)
    have hl : step_device_loop I (m + 1) b = step_device_loop I m (step_device_pass I b) := by
      simp only [step_device_loop, h0, step_device_pass]
      rfl
    rw [hl, ih m (step_device_pass I b) (by omega)
      (fun i hi => by rw [← Function.iterate_succ_apply]; exact h (i + 1) (by omega))]
    rw [Function.iterate_succ_apply]
    congr 1
    omega

/-- From a state with a latched event the first thing the loop of
`step_device` does is to call the handler; if the handler asks to return,
nothing else follows and the local `steps` is unchanged. -/
theorem step_device_loop_latched {κ : Type} (I : Interp κ) (m : Nat) (s : Bochs κ)
    (hlatched : s.cpu.async_event ≠ 0) :
    ∃ rest, new_calls s (step_device_loop I (m + 1) s).1
        = Call.handleAsyncEvent (I.handleAsyncEvent s.cpu).2 :: rest ∧
      ((I.handleAsyncEvent s.cpu).2 = true →
        rest = [] ∧ (step_device_loop I (m + 1) s).2 = m + 1) := by
  by_cases hret : (check_async_event I s).2 = true
  · have h := (check_async_event_ret I s).1 hret
    have hl : step_device_loop I (m + 1) s = ((check_async_event I s).1, m + 1) := by
      simp only [step_device_loop, hret, if_true]
    refine ⟨[], ?_, fun _ => ⟨rfl, by rw [hl]⟩⟩
    rw [hl]
    simp only
    rw [check_async_event_new_calls, if_pos hlatched]
  · have hfalse : (I.handleAsyncEvent s.cpu).2 = false := by
      cases hh : (I.handleAsyncEvent s.cpu).2
      · rfl
      · exact absurd ((check_async_event_ret I s).2 ⟨hlatched, hh⟩) hret
    have hl : (step_device_loop I (m + 1) s).1
        = (step_device_loop I m (step_device_pass I s)).1 := by
      simp only [step_device_loop, hret, step_device_pass]
      rfl
    obtain ⟨h1, h2, _⟩ := step_device_pass_calls I s
    obtain ⟨_, h4⟩ := new_calls_trans h1 (step_device_loop_calls I m (step_device_pass I s)).1
    refine ⟨[Call.tickn 1] ++ new_calls (step_device_pass I s)
      (step_device_loop I m (step_device_pass I s)).1, ?_, fun ht => ?_⟩
    · rw [hl, h4, h2, check_async_event_new_calls, if_pos hlatched]
      simp
    · rw [hfalse] at ht
      exact absurd ht (by simp)

/-! ### Helper lemmas on start-up -/

theorem initialize_first_call (K : Int) (SIM : bx_params) (os : Win32) (g : Globals)
    (hfirst : g.initialized = false) :
    ((initialize_bochservisor K SIM os g).outcome.past_validation = true ↔ SIM.accepted K) ∧
    ((initialize_bochservisor K SIM os g).outcome.config_violation = true ↔ ¬ SIM.accepted K) ∧
    ((initialize_bochservisor K SIM os g).outcome.config_violation = true →
      (initialize_bochservisor K SIM os g).globals = { g with initialized := true }) ∧
    ((initialize_bochservisor K SIM os g).outcome = .returned →
      (initialize_bochservisor K SIM os g).globals.initialized = true) ∧
    (¬ SIM.accepted K →
      ∃ site, site.is_config_violation = true ∧
        (initialize_bochservisor K SIM os g).outcome = .exited site (-1)) := by
  unfold initialize_bochservisor bx_params.accepted
  rw [hfirst]
  simp only [Bool.false_eq_true, if_false]
  split_ifs <;> (try split) <;>
    simp_all [Outcome.past_validation, Outcome.config_violation, ExitSite.is_config_violation] <;>
    tauto

theorem Globals.reachable_first_call (K : Int) (g : Globals) (hg : Globals.Reachable K g)
    (hfirst : g.initialized = false) : g = Globals.initial := by
  cases hg with
  | initial => rfl
  | call g0 SIM os hg0 hret =>
    by_cases h0 : g0.initialized = true
    · have hx : (initialize_bochservisor K SIM os g0).outcome = .exited .called_twice (-1) := by
        unfold initialize_bochservisor
        rw [h0]
        rfl
      rw [hx] at hret
      exact absurd hret (by simp)
    · have h1 := (initialize_first_call K SIM os g0 (by simpa using h0)).2.2.2.1 hret
      rw [h1] at hfirst
      exact absurd hfirst (by simp)

/-! ### Helper lemmas on the dirty-page bitmap -/

theorem getD_set_self (w : List Nat) (i v : Nat) :
    (w.set i v).getD i 0 = if i < w.length then v else 0 := by
  simp [List.getD_eq_getElem?_getD, List.getElem?_set]
  split_ifs <;> simp_all

theorem getD_set_ne (w : List Nat) (i j v : Nat) (h : i ≠ j) :
    (w.set i v).getD j 0 = w.getD j 0 := by
  simp [List.getD_eq_getElem?_getD, List.getElem?_set, h]

/-- Setting bit `i` makes bit `i` read as set (when its word exists) and keeps
every other bit. -/
theorem test_bit_set_bit (w : List Nat) (i j : Nat) :
    test_bit (set_bit w i) j
      = ((decide (i = j) && decide (i / 64 < w.length)) || test_bit w j) := by
  unfold test_bit set_bit
  by_cases hq : i / 64 = j / 64
  · rw [← hq, getD_set_self]
    by_cases hl : i / 64 < w.length
    · simp only [hl, if_true, Nat.testBit_or, decide_True, Bool.and_true]
      rw [Bool.or_comm]
      congr 1
      rw [Nat.one_shiftLeft, Nat.testBit_two_pow]
      by_cases hij : i = j
      · subst hij; simp
      · have : i % 64 ≠ j % 64 := by omega
        simp [hij, this]
    · have h0 : w.getD (i / 64) 0 = 0 := by
        simp [List.getD_eq_getElem?_getD, List.getElem?_eq_none (Nat.le_of_not_lt hl)]
      rw [if_neg hl, h0]
      simp [hl]
  · rw [getD_set_ne _ _ _ _ hq]
    have : i ≠ j := fun h => hq (by rw [h])
    simp [this]

theorem set_bit_idem (w : List Nat) (i : Nat) : set_bit (set_bit w i) i = set_bit w i := by
  unfold set_bit
  rw [getD_set_self, List.set_set]
  by_cases hl : i / 64 < w.length
  · simp only [hl, if_true]
    rw [Nat.or_assoc, Nat.or_self]
  · rw [List.set_eq_of_length_le (Nat.le_of_not_lt hl),
      List.set_eq_of_length_le (Nat.le_of_not_lt hl)]

theorem test_bit_replicate_zero (n i : Nat) : test_bit (List.replicate n 0) i = false := by
  unfold test_bit
  have h0 : (List.replicate n 0).getD (i / 64) 0 = 0 := by
    simp only [List.getD_eq_getElem?_getD, List.getElem?_replicate]
    split_ifs <;> rfl
  rw [h0]
  simp

/-- A set bit lies in a non-zero word. -/
theorem test_bit_word_ne_zero (w : List Nat) (i : Nat) (h : test_bit w i = true) :
    w.getD (i / 64) 0 ≠ 0 := by
  intro h0
  unfold test_bit at h
  rw [h0] at h
  simp at h

theorem mark_wellFormed (A : Nat) (d : DirtyBitmap) (hd : d.WellFormed) :
    (mark A d).WellFormed := by
  unfold DirtyBitmap.WellFormed mark set_bit
  simpa using hd

theorem initial_wellFormed : DirtyBitmap.initial.WellFormed := by
  simp [DirtyBitmap.WellFormed, DirtyBitmap.initial]

theorem clear_all_wellFormed (d : DirtyBitmap) (hd : d.WellFormed) :
    (clear_all d).WellFormed := by
  unfold DirtyBitmap.WellFormed clear_all
  simpa using hd

theorem clear_all_clean (d : DirtyBitmap) (i : Nat) :
    is_page_dirty (clear_all d) i = false ∧ is_region_dirty (clear_all d) i = false :=
  ⟨test_bit_replicate_zero _ _, test_bit_replicate_zero _ _⟩

theorem clear_all_covered (d : DirtyBitmap) : (clear_all d).Covered := by
  intro p hp
  rw [(clear_all_clean d p).1] at hp
  exact absurd hp (by simp)

/-- One `mark` of an address below 4 GiB: its page and its region read as
dirty afterwards, bits that were set stay set, and the invariant of the two
levels is kept. -/
theorem mark_spec (A : Nat) (hA : A < 2 ^ 32) (d : DirtyBitmap) (hd : d.WellFormed) :
    is_page_dirty (mark A d) (page A) = true ∧
    is_region_dirty (mark A d) (region A) = true ∧
    (∀ p, is_page_dirty d p = true → is_page_dirty (mark A d) p = true) ∧
    (∀ r, is_region_dirty d r = true → is_region_dirty (mark A d) r = true) ∧
    (d.Covered → (mark A d).Covered) := by
  have h1 : region A / 64 < d.dirty_bits_l1.length := by
    rw [hd.1]; unfold region dirty_bits_l1_words; omega
  have h2 : page A / 64 < d.dirty_bits_l2.length := by
    rw [hd.2]; unfold page dirty_bits_l2_words; omega
  have hp : ∀ p, is_page_dirty (mark A d) p = (decide (page A = p) || is_page_dirty d p) := by
    intro p
    unfold is_page_dirty mark
    rw [test_bit_set_bit]
    simp [h2]
  have hr : ∀ r, is_region_dirty (mark A d) r
      = (decide (region A = r) || is_region_dirty d r) := by
    intro r
    unfold is_region_dirty mark
    rw [test_bit_set_bit]
    simp [h1]
  refine ⟨by rw [hp]; simp, by rw [hr]; simp, fun p h => by rw [hp, h]; simp,
    fun r h => by rw [hr, h]; simp, fun hc p h => ?_⟩
  rw [hp] at h
  rw [hr]
  rcases (Bool.or_eq_true_iff).1 h with h | h
  · have : page A = p := by simpa using h
    have hreg : region A = p / 256 := by
      rw [← this]; unfold region page; omega
    simp [hreg]
  · rw [hc p h]; simp

theorem marks_spec (addresses : List Nat) (hA : ∀ A ∈ addresses, A < 2 ^ 32)
    (d : DirtyBitmap) (hd : d.WellFormed) :
    (marks addresses d).WellFormed ∧
    (∀ p, is_page_dirty d p = true → is_page_dirty (marks addresses d) p = true) ∧
    (∀ r, is_region_dirty d r = true → is_region_dirty (marks addresses d) r = true) ∧
    (∀ A ∈ addresses, is_page_dirty (marks addresses d) (page A) = true ∧
      is_region_dirty (marks addresses d) (region A) = true) ∧
    (d.Covered → (marks addresses d).Covered) := by
  induction addresses generalizing d with
  | nil => exact ⟨hd, fun _ h => h, fun _ h => h, by simp, fun h => h⟩
  | cons A As ih =>
    have hstep : marks (A :: As) d = marks As (mark A d) := rfl
    have hA0 : A < 2 ^ 32 := hA A (by simp)
    obtain ⟨m1, m2, m3, m4, m5⟩ := mark_spec A hA0 d hd
    obtain ⟨i1, i2, i3, i4, i5⟩ := ih (fun B hB => hA B (by simp [hB])) (mark A d)
      (mark_wellFormed A d hd)
    rw [hstep]
    refine ⟨i1, fun p h => i2 p (m3 p h), fun r h => i3 r (m4 r h), ?_, fun hc => i5 (m5 hc)⟩
    intro B hB
    rcases List.mem_cons.1 hB with rfl | hB
    · exact ⟨i2 _ m1, i3 _ m2⟩
    · exact i4 B hB

/-! ### Helper lemmas on the mode test, the budget and the flush -/

theorem Bochs.assign_cpu {κ : Type} (f : Registers → Registers) (b : Bochs κ) :
    (b.assign f).cpu = { b.cpu with regs := f b.cpu.regs } := rfl

theorem Bochs.ite_cpu {κ : Type} (p : Prop) [Decidable p] (x y : Bochs κ) :
    (if p then x else y).cpu = if p then x.cpu else y.cpu := by
  split <;> rfl

theorem Interp.get_LMA_ite {κ : Type} (I : Interp κ) (p : Prop) [Decidable p]
    (x y : BX_CPU_C κ) (v : Bool) (hx : I.get_LMA x = v) (hy : I.get_LMA y = v) :
    I.get_LMA (if p then x else y) = v := by
  split <;> assumption

/-- The last-pointer registers after `set_context`: the pair or the 64-bit
member is chosen by the long-mode test on the state held before the call. -/
theorem set_context_last_pointers {κ : Type} (I : Interp κ) (hI : I.Frame)
    (hM : I.ModeStable) (R : _whvp_context) (b : Bochs κ) :
    (set_context I R b).cpu.regs.fip
      = (if I.get_LMA b.cpu then R.fp_control.LastFpRip
         else lo32 R.fp_control.LastFpRip) ∧
    (set_context I R b).cpu.regs.fdp
      = (if I.get_LMA b.cpu then R.xmm_control.LastFpRdp
         else lo32 R.xmm_control.LastFpRdp) := by
  unfold set_context
  generalize hP : Bochs.assign _ (Bochs.assign _ (Bochs.assign _
    (Bochs.call (Call.set32 Reg32Obj.xcr0 _) _ _))) = P
  have h3 : ∀ (c : BX_CPU_C κ) (r : Registers) (p1 p2 : Nat),
      I.get_LMA ⟨r, p1, p2, c.async_event, c.icount, c.rest⟩ = I.get_LMA c := by
    intro c r p1 p2
    have e1 := hM.regs ⟨c.regs, p1, p2, c.async_event, c.icount, c.rest⟩ r
    have e2 := hM.prev_rip ⟨c.regs, p1, c.prev_rip, c.async_event, c.icount, c.rest⟩ p2
    have e3 := hM.prev_rsp c p1
    exact e1.trans (e2.trans e3)
  have hL : I.get_LMA P.cpu = I.get_LMA b.cpu := by
    subst hP
    simp only [SET_SEGMENT_FULL, Bochs.assign_cpu, Bochs.call_cpu, Bochs.store_cpu,
      hM.regs, h3, hM.setEFlags, hM.set_segment_ar_data, hM.set_tpr,
      hM.set32 .cr0 _ _ (by decide), hM.set32 .cr4 _ _ (by decide),
      hM.set32 .dr6 _ _ (by decide), hM.set32 .dr7 _ _ (by decide),
      hM.set32 .xcr0 _ _ (by decide)]
  clear hP h3
  by_cases h : I.get_LMA b.cpu = true
  · have hP1 : I.get_LMA P.cpu = true := hL.trans h
    simp only [hP1, if_true, Bochs.assign_regs, Bochs.call_cpu, hI.set32, hI.set_TSC,
      hI.TLB_flush, hI.handleAlignmentCheck, hI.handleCpuModeChange, hI.handleSseModeChange,
      hI.handleAvxModeChange, Bochs.assign_cpu, hM.regs, h]
    exact ⟨trivial, trivial⟩
  · have hP0 : I.get_LMA P.cpu = false := by
      rw [hL]; simpa using h
    have h0 : I.get_LMA b.cpu = false := by simpa using h
    simp only [hP0, Bool.false_eq_true, if_false, Bochs.assign_regs, Bochs.call_cpu, hI.set32,
      hI.set_TSC,
      hI.TLB_flush, hI.handleAlignmentCheck, hI.handleCpuModeChange, hI.handleSseModeChange,
      hI.handleAvxModeChange, Bochs.assign_cpu, hM.regs, h0]
    exact ⟨trivial, trivial⟩

theorem efer_interp_frame : efer_interp.Frame := by
  constructor <;> intros <;> (try rfl)
  rename_i r c v
  cases r <;> rfl

theorem efer_interp_modeStable : efer_interp.ModeStable := by
  constructor <;> intros <;> (try rfl)
  rename_i r c v h
  cases r <;> first | rfl | exact absurd rfl h

/-- The remaining budget and the executions of a run of the loop of
`step_cpu`. -/
theorem step_cpu_loop_remaining {κ : Type} (I : Interp κ) (stop_trace : Nat) (n : Nat)
    (b : Bochs κ) :
    (Call.handleAsyncEvent true ∈ new_calls b (step_cpu_loop I stop_trace n b).1 →
      (step_cpu_loop I stop_trace n b).2
        + (executions (new_calls b (step_cpu_loop I stop_trace n b).1)).length + 1 = n) ∧
    (Call.handleAsyncEvent true ∉ new_calls b (step_cpu_loop I stop_trace n b).1 →
      (step_cpu_loop I stop_trace n b).2 = 0 ∧
      (executions (new_calls b (step_cpu_loop I stop_trace n b).1)).length = n) := by
  induction n generalizing b with
  | zero => simp [step_cpu_loop, new_calls, executions]
  | succ n ih =>
    by_cases hret : (check_async_event I b).2 = true
    · have h := (check_async_event_ret I b).1 hret
      have hl : step_cpu_loop I stop_trace (n + 1) b = ((check_async_event I b).1, n) := by
        simp only [step_cpu_loop, hret, if_true]
      rw [hl]
      simp only
      rw [check_async_event_new_calls, if_pos h.1, h.2]
      simp [executions]
    · obtain ⟨h1, he1, hm1⟩ := step_cpu_pass_calls I stop_trace b
      have h2 := (step_cpu_loop_calls I stop_trace n (step_cpu_pass I stop_trace b)).1
      have hl : step_cpu_loop I stop_trace (n + 1) b
          = step_cpu_loop I stop_trace n (step_cpu_pass I stop_trace b) := by
        simp only [step_cpu_loop, hret, step_cpu_pass]
        rfl
      rw [hl]
      obtain ⟨_, h4⟩ := new_calls_trans h1 h2
      obtain ⟨ih1, ih2⟩ := ih (step_cpu_pass I stop_trace b)
      have hmem : Call.handleAsyncEvent true ∈
          new_calls b (step_cpu_loop I stop_trace n (step_cpu_pass I stop_trace b)).1 ↔
          Call.handleAsyncEvent true ∈ new_calls (step_cpu_pass I stop_trace b)
            (step_cpu_loop I stop_trace n (step_cpu_pass I stop_trace b)).1 := by
        rw [h4, List.mem_append]
        exact ⟨fun h => h.resolve_left (fun h' => hret (hm1 h')), Or.inr⟩
      rw [hmem, h4, executions_append, List.length_append, he1]
      refine ⟨fun h => ?_, fun h => ?_⟩
      · have := ih1 h; omega
      · have := ih2 h; exact ⟨this.1, by omega⟩

theorem step_cpu_execute_eq {κ : Type} (I : Interp κ) (stop_trace : Nat) (b : Bochs κ)
    (h : (step_cpu_post_execution I b).cpu.async_event ≠ 0) :
    step_cpu_execute I stop_trace b = step_cpu_post_execution I b := by
  unfold step_cpu_execute
  simp only []
  rw [if_pos]
  · rfl
  · exact h

theorem flush_not_in_pass {κ : Type} (I : Interp κ) (stop_trace : Nat) (b : Bochs κ) :
    Call.TLB_flush ∉ new_calls b (step_cpu_pass I stop_trace b) ∧
    Call.TLB_flush ∉ new_calls b (step_device_pass I b) := by
  constructor
  · obtain ⟨tail, h, ht, hc⟩ := step_cpu_execute_new_calls I stop_trace (check_async_event I b).1
    obtain ⟨_, h2⟩ := new_calls_trans (check_async_event_calls I b) hc
    unfold step_cpu_pass
    rw [h2, h, check_async_event_new_calls]
    rcases ht with rfl | rfl <;> split_ifs <;> simp
  · rw [(step_device_pass_calls I b).2.1, check_async_event_new_calls]
    split_ifs <;> simp

theorem flush_not_in_step_cpu_loop {κ : Type} (I : Interp κ) (stop_trace : Nat) (n : Nat)
    (b : Bochs κ) : Call.TLB_flush ∉ new_calls b (step_cpu_loop I stop_trace n b).1 := by
  induction n generalizing b with
  | zero => simp [step_cpu_loop, new_calls]
  | succ n ih =>
    by_cases hret : (check_async_event I b).2 = true
    · have hl : (step_cpu_loop I stop_trace (n + 1) b).1 = (check_async_event I b).1 := by
        simp only [step_cpu_loop, hret, if_true]
      rw [hl, check_async_event_new_calls]
      split_ifs <;> simp
    · have hl : (step_cpu_loop I stop_trace (n + 1) b).1
          = (step_cpu_loop I stop_trace n (step_cpu_pass I stop_trace b)).1 := by
        simp only [step_cpu_loop, hret, step_cpu_pass]
        rfl
      obtain ⟨_, h4⟩ := new_calls_trans (step_cpu_pass_calls I stop_trace b).1
        (step_cpu_loop_calls I stop_trace n (step_cpu_pass I stop_trace b)).1
      rw [hl, h4, List.mem_append]
      exact fun h => h.elim (flush_not_in_pass I stop_trace b).1 (ih _)

theorem flush_not_in_step_device_loop {κ : Type} (I : Interp κ) (n : Nat) (b : Bochs κ) :
    Call.TLB_flush ∉ new_calls b (step_device_loop I n b).1 := by
  induction n generalizing b with
  | zero => simp [step_device_loop, new_calls]
  | succ n ih =>
    by_cases hret : (check_async_event I b).2 = true
    · have hl : (step_device_loop I (n + 1) b).1 = (check_async_event I b).1 := by
        simp only [step_device_loop, hret, if_true]
      rw [hl, check_async_event_new_calls]
      split_ifs <;> simp
    · have hl : (step_device_loop I (n + 1) b).1
          = (step_device_loop I n (step_device_pass I b)).1 := by
        simp only [step_device_loop, hret, step_device_pass]
        rfl
      obtain ⟨_, h4⟩ := new_calls_trans (step_device_pass_calls I b).1
        (step_device_loop_calls I n (step_device_pass I b)).1
      rw [hl, h4, List.mem_append]
      exact fun h => h.elim (flush_not_in_pass I 0 b).2 (ih _)

theorem Bochs.assign_calls {κ : Type} (f : Registers → Registers) (b : Bochs κ) :
    (b.assign f).calls = b.calls := rfl

theorem Bochs.call_calls_eq {κ : Type} (c : Call) (f : BX_CPU_C κ → BX_CPU_C κ)
    (b : Bochs κ) : (b.call c f).calls = b.calls ++ [c] := rfl

theorem Bochs.store_calls {κ : Type} (f : BX_CPU_C κ → BX_CPU_C κ) (b : Bochs κ) :
    (b.store f).calls = b.calls := rfl

theorem Bochs.ite_calls {κ : Type} (p : Prop) [Decidable p] (x y : Bochs κ) :
    (if p then x else y).calls = if p then x.calls else y.calls := by
  split <;> rfl

/-- The function `set_context` is a prefix `pre` of register writes followed by
the flush and the four mode handlers; the prefix logs exactly the register
writing calls and ends with the assignments of the `msr` members. -/
theorem set_context_shape {κ : Type} (I : Interp κ) (R : _whvp_context) (b : Bochs κ) :
    ∃ pre : Bochs κ,
      set_context I R b
        = ((((pre.call .TLB_flush I.TLB_flush).call .handleAlignmentCheck
            I.handleAlignmentCheck).call .handleCpuModeChange I.handleCpuModeChange).call
            .handleSseModeChange I.handleSseModeChange).call .handleAvxModeChange
            I.handleAvxModeChange ∧
      pre.calls = b.calls ++ register_write_calls R ∧
      pre.cpu.regs.kernelgsbase = R.kernel_gs_base ∧
      pre.cpu.regs.apicbase = R.apic_base ∧
      pre.cpu.regs.pat = R.pat ∧
      pre.cpu.regs.sysenter_cs_msr = Reg32 R.sysenter_cs ∧
      pre.cpu.regs.sysenter_eip_msr = R.sysenter_eip ∧
      pre.cpu.regs.sysenter_esp_msr = R.sysenter_esp ∧
      pre.cpu.regs.star = R.star ∧
      pre.cpu.regs.lstar = R.lstar ∧
      pre.cpu.regs.cstar = R.cstar ∧
      pre.cpu.regs.fmask = Reg32 R.sfmask ∧
      pre.cpu.regs.tsc_aux = Reg32 R.tsc_aux := by
  unfold set_context
  refine ⟨_, rfl, ?_, rfl, rfl, rfl, rfl, rfl, rfl, rfl, rfl, rfl, rfl, rfl⟩
  simp only [SET_SEGMENT_FULL, Bochs.assign_calls, Bochs.call_calls_eq, Bochs.store_calls,
    Bochs.ite_calls, ite_self, List.append_assoc, register_write_calls]
  rfl

/-! ### Helper lemmas for the register-level properties of the context functions -/

theorem and_0x7fff (x : Nat) : x &&& 0x7fff = x % 2 ^ 15 :=
  Nat.and_pow_two_sub_one_eq_mod x 15

theorem pack_exp_eq (e s : Nat) (he : e < 2 ^ 15) : e ||| (s <<< 15) = s * 2 ^ 15 + e := by
  rw [Nat.lor_comm, Nat.shiftLeft_eq, Nat.mul_comm s, ← Nat.mul_add_lt_is_or he]

/-- Unpacking a packed sign and exponent gives them back. -/
theorem unpack_pack (e s : Nat) (he : e < 2 ^ 15) (hs : s < 2) :
    (e ||| (s <<< 15)) &&& 0x7fff = e ∧ ((e ||| (s <<< 15)) >>> 15) &&& 1 = s := by
  rw [pack_exp_eq e s he, and_0x7fff, Nat.shiftRight_eq_div_pow, Nat.and_one_is_mod]
  constructor <;> omega

/-- Packing the unpacked sign and exponent of a 16-bit word gives it back. -/
theorem pack_unpack (x : Nat) (hx : x < 2 ^ 16) :
    (x &&& 0x7fff) ||| (((x >>> 15) &&& 1) <<< 15) = x := by
  rw [pack_exp_eq _ _ (by rw [and_0x7fff]; omega), and_0x7fff, Nat.shiftRight_eq_div_pow,
    Nat.and_one_is_mod]
  omega

/-- The task priority written for a CR8 value. -/
theorem tpr_value (x : Nat) : (Reg32 x &&& 0xf) <<< 4 = 16 * (x % 16) := by
  have h : Reg32 x &&& 0xf = Reg32 x % 2 ^ 4 := Nat.and_pow_two_sub_one_eq_mod _ 4
  rw [h, Nat.shiftLeft_eq]
  unfold Reg32
  omega

/-- The log of one `set_context` call. -/
theorem set_context_log {κ : Type} (I : Interp κ) (R : _whvp_context) (b : Bochs κ) :
    (set_context I R b).calls = b.calls ++ (register_write_calls R ++
      [Call.TLB_flush, .handleAlignmentCheck, .handleCpuModeChange, .handleSseModeChange,
       .handleAvxModeChange]) := by
  obtain ⟨pre, heq, hcalls, _⟩ := set_context_shape I R b
  rw [heq]
  simp only [Bochs.call_calls_eq, hcalls, List.append_assoc]
  rfl

theorem Bochs.ite_cpu_prev_rsp {κ : Type} (p : Prop) [Decidable p] (x y : Bochs κ) :
    (if p then x else y).cpu.prev_rsp = if p then x.cpu.prev_rsp else y.cpu.prev_rsp := by
  split <;> rfl

theorem Bochs.ite_cpu_prev_rip {κ : Type} (p : Prop) [Decidable p] (x y : Bochs κ) :
    (if p then x else y).cpu.prev_rip = if p then x.cpu.prev_rip else y.cpu.prev_rip := by
  split <;> rfl

theorem Bochs.ite_cpu_RIP {κ : Type} (p : Prop) [Decidable p] (x y : Bochs κ) :
    (if p then x else y).cpu.regs.RIP = if p then x.cpu.regs.RIP else y.cpu.regs.RIP := by
  split <;> rfl

theorem Bochs.ite_cpu_RSP {κ : Type} (p : Prop) [Decidable p] (x y : Bochs κ) :
    (if p then x else y).cpu.regs.RSP = if p then x.cpu.regs.RSP else y.cpu.regs.RSP := by
  split <;> rfl

theorem Bochs.assign_rest {κ : Type} (f : Registers → Registers) (b : Bochs κ) :
    (b.assign f).cpu.rest = b.cpu.rest := rfl

theorem Bochs.ite_assign_rest {κ : Type} (p : Prop) [Decidable p] (x : Bochs κ)
    (f g : Registers → Registers) :
    (if p then x.assign f else x.assign g).cpu.rest = x.cpu.rest := by
  split <;> rfl

/-- The pointers and their committed copies after `set_context`, when the
interpreter methods leave them alone. -/
theorem set_context_pointers {κ : Type} (I : Interp κ) (hP : I.FramePointers)
    (R : _whvp_context) (b : Bochs κ) :
    (set_context I R b).cpu.regs.RIP = R.rip ∧ (set_context I R b).cpu.regs.RSP = R.rsp ∧
    (set_context I R b).cpu.prev_rip = R.rip ∧ (set_context I R b).cpu.prev_rsp = R.rsp := by
  have a1 := fun c v => (hP.setEFlags c v).1
  have a2 := fun c s valid selector base limit ar => (hP.set_segment_ar_data c s valid selector base limit ar).1
  have a3 := fun r c v => (hP.set32 r c v).1
  have a4 := fun c v => (hP.set_tpr c v).1
  have a5 := fun c v => (hP.set_TSC c v).1
  have a6 := fun c => (hP.TLB_flush c).1
  have a7 := fun c => (hP.handleAlignmentCheck c).1
  have a8 := fun c => (hP.handleCpuModeChange c).1
  have a9 := fun c => (hP.handleSseModeChange c).1
  have a10 := fun c => (hP.handleAvxModeChange c).1
  have b1 := fun c v => (hP.setEFlags c v).2.1
  have b2 := fun c s valid selector base limit ar => (hP.set_segment_ar_data c s valid selector base limit ar).2.1
  have b3 := fun r c v => (hP.set32 r c v).2.1
  have b4 := fun c v => (hP.set_tpr c v).2.1
  have b5 := fun c v => (hP.set_TSC c v).2.1
  have b6 := fun c => (hP.TLB_flush c).2.1
  have b7 := fun c => (hP.handleAlignmentCheck c).2.1
  have b8 := fun c => (hP.handleCpuModeChange c).2.1
  have b9 := fun c => (hP.handleSseModeChange c).2.1
  have b10 := fun c => (hP.handleAvxModeChange c).2.1
  have c1 := fun c v => (hP.setEFlags c v).2.2.1
  have c2 := fun c s valid selector base limit ar => (hP.set_segment_ar_data c s valid selector base limit ar).2.2.1
  have c3 := fun r c v => (hP.set32 r c v).2.2.1
  have c4 := fun c v => (hP.set_tpr c v).2.2.1
  have c5 := fun c v => (hP.set_TSC c v).2.2.1
  have c6 := fun c => (hP.TLB_flush c).2.2.1
  have c7 := fun c => (hP.handleAlignmentCheck c).2.2.1
  have c8 := fun c => (hP.handleCpuModeChange c).2.2.1
  have c9 := fun c => (hP.handleSseModeChange c).2.2.1
  have c10 := fun c => (hP.handleAvxModeChange c).2.2.1
  have d1 := fun c v => (hP.setEFlags c v).2.2.2
  have d2 := fun c s valid selector base limit ar => (hP.set_segment_ar_data c s valid selector base limit ar).2.2.2
  have d3 := fun r c v => (hP.set32 r c v).2.2.2
  have d4 := fun c v => (hP.set_tpr c v).2.2.2
  have d5 := fun c v => (hP.set_TSC c v).2.2.2
  have d6 := fun c => (hP.TLB_flush c).2.2.2
  have d7 := fun c => (hP.handleAlignmentCheck c).2.2.2
  have d8 := fun c => (hP.handleCpuModeChange c).2.2.2
  have d9 := fun c => (hP.handleSseModeChange c).2.2.2
  have d10 := fun c => (hP.handleAvxModeChange c).2.2.2
  unfold set_context
  refine ⟨?_, ?_, ?_, ?_⟩
  · simp only [SET_SEGMENT_FULL, Bochs.assign_cpu, Bochs.call_cpu, Bochs.store_cpu,
      Bochs.ite_cpu_RIP, ite_self, a1, a2, a3, a4, a5, a6, a7, a8, a9, a10]
  · simp only [SET_SEGMENT_FULL, Bochs.assign_cpu, Bochs.call_cpu, Bochs.store_cpu,
      Bochs.ite_cpu_RSP, ite_self, b1, b2, b3, b4, b5, b6, b7, b8, b9, b10]
  · simp only [SET_SEGMENT_FULL, Bochs.assign_cpu, Bochs.call_cpu, Bochs.store_cpu,
      Bochs.ite_cpu_prev_rip, ite_self, c1, c2, c3, c4, c5, c6, c7, c8, c9, c10]
  · simp only [SET_SEGMENT_FULL, Bochs.assign_cpu, Bochs.call_cpu, Bochs.store_cpu,
      Bochs.ite_cpu_prev_rsp, ite_self, d1, d2, d3, d4, d5, d6, d7, d8, d9, d10]

theorem idle_framePointers : idle.FramePointers := by
  constructor <;> intros <;> exact ⟨rfl, rfl, rfl, rfl⟩

/-- The task priority held by the interpreter after `set_context`, when the
interpreter keeps what `lapic.set_tpr` was given. -/
theorem set_context_tpr {κ : Type} (I : Interp κ) (tpr : κ → Nat) (hT : I.KeepsTpr tpr)
    (R : _whvp_context) (b : Bochs κ) :
    tpr (set_context I R b).cpu.rest = task_priority R.cr8 := by
  unfold set_context
  generalize hP : Bochs.call (Call.set_tpr _) _ _ = P
  have hPv : tpr P.cpu.rest = task_priority R.cr8 := by
    rw [← hP, Bochs.call_cpu, hT.set_tpr]
    rfl
  rw [← hPv]
  rw [Bochs.call_cpu, hT.handleAvxModeChange, Bochs.call_cpu, hT.handleSseModeChange,
    Bochs.call_cpu, hT.handleCpuModeChange, Bochs.call_cpu, hT.handleAlignmentCheck,
    Bochs.call_cpu, hT.TLB_flush, Bochs.assign_rest, Bochs.call_cpu, hT.set32,
    Bochs.call_cpu, hT.set_TSC]
  dsimp only
  rw [Bochs.ite_assign_rest, Bochs.assign_rest, Bochs.ite_assign_rest, Bochs.assign_rest,
    Bochs.assign_rest, Bochs.assign_rest, Bochs.call_cpu, hT.set32, Bochs.call_cpu, hT.set32,
    Bochs.call_cpu, hT.set32, Bochs.assign_rest]

theorem tpr_interp_keepsTpr : tpr_interp.KeepsTpr id := by
  constructor <;> intros <;> rfl

theorem fpu_interp_frame : fpu_interp.Frame := by
  constructor <;> intros <;> rfl

/-- Blocks with equal `Reg32` views in the ten narrowed members and equal
other members are applied identically. -/
theorem set_context_same_low32 {κ : Type} (I : Interp κ) (R1 R2 : _whvp_context)
    (h : R1.SameLow32 R2) (b : Bochs κ) : set_context I R2 b = set_context I R1 b := by
  obtain ⟨heq, hlow⟩ := h
  simp only [_whvp_context.reg32_members, List.map_cons, List.map_nil, List.cons.injEq,
    and_true] at hlow
  obtain ⟨h1, h2, h3, h4, h5, h6, h7, h8, h9, h10⟩ := hlow
  rw [heq]
  unfold set_context
  dsimp only
  rw [h1, h2, h3, h4, h5, h6, h7, h8, h9, h10]

theorem step_cpu_loop_iterations_spec {κ : Type} (I : Interp κ) (stop_trace : Nat) (n : Nat)
    (b : Bochs κ) :
    (step_cpu_loop I stop_trace n b).2 + step_cpu_loop_iterations I stop_trace n b = n := by
  induction n generalizing b with
  | zero => rfl
  | succ n ih =>
    by_cases hret : (check_async_event I b).2 = true
    · simp only [step_cpu_loop, step_cpu_loop_iterations, hret, if_true]
    · have hf : (check_async_event I b).2 = false := by simpa using hret
      simp only [step_cpu_loop, step_cpu_loop_iterations, hf, step_cpu_pass, Bool.false_eq_true,
        if_false]
      have := ih (step_cpu_execute I stop_trace (check_async_event I b).1)
      simp only [step_cpu_pass] at this
      omega

theorem step_device_loop_iterations_le {κ : Type} (I : Interp κ) (n : Nat) (b : Bochs κ) :
    step_device_loop_iterations I n b ≤ n ∧
    (step_device_loop I n b).2 ≤ n ∧
    n ≤ (step_device_loop I n b).2 + step_device_loop_iterations I n b ∧
    (step_device_loop I n b).2 + step_device_loop_iterations I n b ≤ n + 1 := by
  induction n generalizing b with
  | zero => simp [step_device_loop, step_device_loop_iterations]
  | succ n ih =>
    by_cases hret : (check_async_event I b).2 = true
    · simp only [step_device_loop, step_device_loop_iterations, hret, if_true]
      omega
    · have hf : (check_async_event I b).2 = false := by simpa using hret
      simp only [step_device_loop, step_device_loop_iterations, hf, step_device_pass,
        Bool.false_eq_true, if_false]
      have := ih ((check_async_event I b).1.call (.tickn 1) (fun c => I.tickn c 1))
      simp only [step_device_pass] at this
      omega

/-- The macro `GET_FP_REG` recovers a well-formed register from what
`SET_FP_REG` stored, when `BX_READ_FPU_REG` delivers the stored value. -/
theorem GET_FP_REG_of_stored {κ : Type} (I : Interp κ) (c : BX_CPU_C κ) (idx : Nat)
    (f : WHV_X64_FP_REGISTER) (hf : f.WellFormed)
    (hstored : I.BX_READ_FPU_REG c idx = SET_FP_REG f) : GET_FP_REG I c idx = f := by
  obtain ⟨_, he, hs⟩ := hf
  obtain ⟨h1, h2⟩ := unpack_pack f.BiasedExponent f.Sign he hs
  unfold GET_FP_REG
  rw [hstored]
  simp only [SET_FP_REG, h1, h2]

/-- The macro `SET_FP_REG` applied to what `GET_FP_REG` delivers stores the
register read, with its sign-and-exponent word taken as 16 bits. -/
theorem SET_FP_REG_of_read {κ : Type} (I : Interp κ) (c : BX_CPU_C κ) (idx : Nat) :
    SET_FP_REG (GET_FP_REG I c idx)
      = { fraction := (I.BX_READ_FPU_REG c idx).fraction,
          exp := (I.BX_READ_FPU_REG c idx).exp % 2 ^ 16 } := by
  unfold SET_FP_REG GET_FP_REG
  simp only
  rw [pack_exp_eq _ _ (by rw [and_0x7fff]; omega), and_0x7fff, Nat.shiftRight_eq_div_pow,
    Nat.and_one_is_mod]
  congr 1
  omega

theorem idle_returns32 : idle.Returns32 := by
  constructor <;> intros <;> exact Nat.two_pow_pos 32

theorem set_set (x e s : Nat) :
    set_sel16 (set_lo32 (set_sel16 (set_lo32 x e) s) e) s = set_sel16 (set_lo32 x e) s := by
  unfold set_sel16 set_lo32
  omega

theorem step_cpu_loop_iterations_log {κ : Type} (I : Interp κ) (stop_trace : Nat) (n : Nat)
    (b : Bochs κ) :
    (executions (new_calls b (step_cpu_loop I stop_trace n b).1)).length
      ≤ step_cpu_loop_iterations I stop_trace n b ∧
    step_cpu_loop_iterations I stop_trace n b
      ≤ (executions (new_calls b (step_cpu_loop I stop_trace n b).1)).length + 1 := by
  induction n generalizing b with
  | zero => simp [step_cpu_loop, step_cpu_loop_iterations, new_calls, executions]
  | succ n ih =>
    by_cases hret : (check_async_event I b).2 = true
    · have hl : (step_cpu_loop I stop_trace (n + 1) b).1 = (check_async_event I b).1 := by
        simp only [step_cpu_loop, hret, if_true]
      rw [hl, check_async_event_new_calls]
      simp only [step_cpu_loop_iterations, hret, if_true]
      split_ifs <;> simp [executions]
    · have hf : (check_async_event I b).2 = false := by simpa using hret
      obtain ⟨h1, he, _⟩ := step_cpu_pass_calls I stop_trace b
      have h2 := (step_cpu_loop_calls I stop_trace n (step_cpu_pass I stop_trace b)).1
      have hl : (step_cpu_loop I stop_trace (n + 1) b).1
          = (step_cpu_loop I stop_trace n (step_cpu_pass I stop_trace b)).1 := by
        simp only [step_cpu_loop, hf, step_cpu_pass, Bool.false_eq_true, if_false]
      obtain ⟨_, h4⟩ := new_calls_trans h1 h2
      rw [hl, h4, executions_append, List.length_append, he]
      simp only [step_cpu_loop_iterations, hf, Bool.false_eq_true, if_false]
      have := ih (step_cpu_pass I stop_trace b)
      omega

theorem step_device_loop_iterations_log {κ : Type} (I : Interp κ) (n : Nat) (b : Bochs κ) :
    (ticks (new_calls b (step_device_loop I n b).1)).length
      ≤ step_device_loop_iterations I n b ∧
    step_device_loop_iterations I n b
      ≤ (ticks (new_calls b (step_device_loop I n b).1)).length + 1 := by
  induction n generalizing b with
  | zero => simp [step_device_loop, step_device_loop_iterations, new_calls, ticks]
  | succ n ih =>
    by_cases hret : (check_async_event I b).2 = true
    · have hl : (step_device_loop I (n + 1) b).1 = (check_async_event I b).1 := by
        simp only [step_device_loop, hret, if_true]
      rw [hl, check_async_event_new_calls]
      simp only [step_device_loop_iterations, hret, if_true]
      split_ifs <;> simp [ticks]
    · have hf : (check_async_event I b).2 = false := by simpa using hret
      obtain ⟨h1, _, he⟩ := step_device_pass_calls I b
      have h2 := (step_device_loop_calls I n (step_device_pass I b)).1
      have hl : (step_device_loop I (n + 1) b).1
          = (step_device_loop I n (step_device_pass I b)).1 := by
        simp only [step_device_loop, hf, step_device_pass, Bool.false_eq_true, if_false]
      obtain ⟨_, h4⟩ := new_calls_trans h1 h2
      rw [hl, h4, ticks_append, List.length_append, he]
      simp only [step_device_loop_iterations, hf, Bool.false_eq_true, if_false]
      have := ih (step_device_pass I b)
      simp only [List.length_singleton]
      omega

theorem step_device_loop_remaining {κ : Type} (I : Interp κ) (n : Nat) (b : Bochs κ) :
    (step_device_loop I n b).2 + (ticks (new_calls b (step_device_loop I n b).1)).length
      = n := by
  induction n generalizing b with
  | zero => simp [step_device_loop, new_calls, ticks]
  | succ n ih =>
    by_cases hret : (check_async_event I b).2 = true
    · have hl : step_device_loop I (n + 1) b = ((check_async_event I b).1, n + 1) := by
        simp only [step_device_loop, hret, if_true]
      rw [hl, check_async_event_new_calls]
      split_ifs <;> simp [ticks]
    · have hf : (check_async_event I b).2 = false := by simpa using hret
      obtain ⟨h1, _, he⟩ := step_device_pass_calls I b
      have h2 := (step_device_loop_calls I n (step_device_pass I b)).1
      have hl : step_device_loop I (n + 1) b = step_device_loop I n (step_device_pass I b) := by
        simp only [step_device_loop, hf, step_device_pass, Bool.false_eq_true, if_false]
      obtain ⟨_, h4⟩ := new_calls_trans h1 h2
      rw [hl, h4, ticks_append, List.length_append, he]
      have := ih (step_device_pass I b)
      simp only [List.length_singleton]
      omega

/-! ### Helper lemmas on `split_string_into_argv` -/

theorem find_last_nonspace_snoc (init : List Char) (c : Char) (hc : c ≠ ' ')
    (i last_nonspace : Nat) :
    find_last_nonspace (init ++ [c]) i last_nonspace = i + init.length := by
  induction init generalizing i last_nonspace with
  | nil => simp [find_last_nonspace, hc]
  | cons a t ih =>
    rw [List.cons_append, find_last_nonspace, ih, List.length_cons]
    omega

/-- A string that neither starts nor ends with a space is left as it is by the
trimming statements. -/
theorem trim_spaces_id (c d : Char) (t init : List Char) (hc : c ≠ ' ') (hd : d ≠ ' ')
    (h : c :: t = init ++ [d]) : trim_spaces (c :: t) = c :: t := by
  have hdrop : (c :: t).dropWhile (fun c => c = ' ') = c :: t := by
    simp [List.dropWhile, hc]
  unfold trim_spaces
  rw [hdrop, h, find_last_nonspace_snoc init d hd]
  split
  · exact List.take_of_length_le (by simp)
  · rfl

/-- One pass of the loop on a character that is neither a space nor a quote:
it is copied into the current argument. -/
theorem split_loop_plain (max_argv : Nat) (c : Char) (p : List Char) (skipping : Bool)
    (st : SplitState) (h1 : c ≠ ' ') (h2 : c ≠ double_quote) (h3 : c ≠ single_quote)
    (hlen : st.outp.length < MAX_ARGLEN) :
    split_string_into_argv_loop max_argv (c :: p) skipping st
      = split_string_into_argv_loop max_argv p false { st with outp := st.outp ++ [c] } := by
  rw [split_string_into_argv_loop]
  simp only [h1, h2, h3, and_false, false_and, if_false, ge_iff_le, Nat.not_le.mpr hlen]

/-- The loop copies a run of characters that are neither spaces nor quotes. -/
theorem split_loop_copy (max_argv : Nat) (w p : List Char)
    (hw : ∀ c ∈ w, c ≠ ' ' ∧ c ≠ double_quote ∧ c ≠ single_quote) (st : SplitState)
    (hlen : st.outp.length + w.length ≤ MAX_ARGLEN) :
    split_string_into_argv_loop max_argv (w ++ p) false st
      = split_string_into_argv_loop max_argv p false { st with outp := st.outp ++ w } := by
  induction w generalizing st with
  | nil => simp
  | cons c w ih =>
    obtain ⟨h1, h2, h3⟩ := hw c (List.mem_cons_self c w)
    simp only [List.length_cons] at hlen
    rw [List.cons_append, split_loop_plain max_argv c _ false st h1 h2 h3 (by omega),
      ih (fun c hc => hw c (List.mem_cons_of_mem _ hc)) _
        (by simp only [List.length_append, List.length_singleton]; omega)]
    simp

/-- A word at the start of the rest of the string becomes the current
argument, whether or not the loop was skipping spaces. -/
theorem split_loop_word (max_argv : Nat) (w p : List Char) (hw : PlainWord w)
    (skipping : Bool) (st : SplitState) (ho : st.outp = []) :
    split_string_into_argv_loop max_argv (w ++ p) skipping st
      = split_string_into_argv_loop max_argv p false { st with outp := w } := by
  obtain ⟨hlo, hhi, hall⟩ := hw
  cases w with
  | nil => simp at hlo
  | cons c w =>
    obtain ⟨h1, h2, h3⟩ := hall c (List.mem_cons_self c w)
    simp only [List.length_cons] at hhi
    rw [List.cons_append, split_loop_plain max_argv c _ skipping st h1 h2 h3
        (by rw [ho]; decide),
      split_loop_copy max_argv w p (fun c hc => hall c (List.mem_cons_of_mem _ hc)) _
        (by simp only [ho, List.nil_append, List.length_singleton, MAX_ARGLEN]; omega)]
    simp [ho]

/-- The inner loop `while (*p==' ') p++`. -/
theorem split_loop_skip (max_argv : Nat) (g : Nat) (p : List Char) (st : SplitState) :
    split_string_into_argv_loop max_argv (List.replicate g ' ' ++ p) true st
      = split_string_into_argv_loop max_argv p true st := by
  induction g with
  | zero => rfl
  | succ g ih =>
    rw [List.replicate_succ, List.cons_append, split_string_into_argv_loop]
    simp only [and_self, if_true]
    exact ih

/-- A space outside quotes completes the current argument. -/
theorem split_loop_space (max_argv : Nat) (p : List Char) (st : SplitState)
    (hq1 : st.in_double_quote = false) (hq2 : st.in_single_quote = false)
    (hm : st.argc + 1 < max_argv) :
    split_string_into_argv_loop max_argv (' ' :: p) false st
      = split_string_into_argv_loop max_argv p true
          { st with argc := st.argc + 1, argv := st.argv ++ [st.outp], outp := [] } := by
  rw [split_string_into_argv_loop]
  simp only [hq1, hq2, and_self, Bool.false_eq_true, false_and, if_false, if_true, ge_iff_le,
    Nat.not_le.mpr hm]

/-- The terminating NUL outside quotes completes the last argument. -/
theorem split_loop_end (max_argv : Nat) (skipping : Bool) (st : SplitState)
    (hq1 : st.in_double_quote = false) (hq2 : st.in_single_quote = false)
    (hm : st.argc + 1 < max_argv) :
    split_string_into_argv_loop max_argv [] skipping st
      = ⟨0, some (st.argc + 1), st.argv ++ [st.outp]⟩ := by
  rw [split_string_into_argv_loop]
  simp only [hq1, hq2, Bool.false_eq_true, or_self, if_false, ge_iff_le, Nat.not_le.mpr hm]

/-- The loop on a command line of plain words, from a state outside quotes
with an empty current argument. -/
theorem split_loop_command_line (max_argv : Nat) (ws : List (List Char)) (hne : ws ≠ [])
    (hws : ∀ w ∈ ws, PlainWord w) (gaps : List Nat) (skipping : Bool) (st : SplitState)
    (hq1 : st.in_double_quote = false) (hq2 : st.in_single_quote = false)
    (ho : st.outp = []) (hm : st.argc + ws.length < max_argv) :
    split_string_into_argv_loop max_argv (command_line ws gaps) skipping st
      = ⟨0, some (st.argc + ws.length), st.argv ++ ws⟩ := by
  induction ws generalizing gaps skipping st with
  | nil => exact absurd rfl hne
  | cons w ws ih =>
    have hw := hws w (List.mem_cons_self w ws)
    cases ws with
    | nil =>
      have h := split_loop_word max_argv w [] hw skipping st ho
      rw [List.append_nil] at h
      simp only [command_line, h]
      rw [split_loop_end max_argv false { st with outp := w } hq1 hq2 (by simpa using hm)]
      rfl
    | cons w2 ws =>
      simp only [List.length_cons] at hm
      simp only [command_line]
      rw [split_loop_word max_argv w _ hw skipping st ho, List.replicate_succ,
        List.cons_append,
        split_loop_space max_argv _ { st with outp := w } hq1 hq2 (by simp only; omega),
        split_loop_skip,
        ih (by simp) (fun x hx => hws x (List.mem_cons_of_mem _ hx)) _ true
          { st with argc := st.argc + 1, argv := st.argv ++ [w], outp := [] } hq1 hq2 rfl
          (by simp only [List.length_cons]; omega)]
      simp only [List.length_cons, List.append_assoc, List.singleton_append,
        SplitResult.mk.injEq, Option.some.injEq, and_true, true_and]
      omega

theorem command_line_head (w : List Char) (ws : List (List Char)) (gaps : List Nat)
    (hw : PlainWord w) : ∃ c t, command_line (w :: ws) gaps = c :: t ∧ c ≠ ' ' := by
  obtain ⟨hlo, _, hall⟩ := hw
  cases w with
  | nil => simp at hlo
  | cons c w =>
    have hc := (hall c (List.mem_cons_self c w)).1
    cases ws with
    | nil => exact ⟨c, w, rfl, hc⟩
    | cons w2 ws => exact ⟨c, _, rfl, hc⟩

theorem command_line_last (ws : List (List Char)) (hne : ws ≠ [])
    (hws : ∀ w ∈ ws, PlainWord w) (gaps : List Nat) :
    ∃ init d, command_line ws gaps = init ++ [d] ∧ d ≠ ' ' := by
  induction ws generalizing gaps with
  | nil => exact absurd rfl hne
  | cons w ws ih =>
    cases ws with
    | nil =>
      obtain ⟨hlo, _, hall⟩ := hws w (List.mem_cons_self w [])
      have hwne : w ≠ [] := by
        intro h
        rw [h] at hlo
        simp at hlo
      exact ⟨w.dropLast, w.getLast hwne, (List.dropLast_append_getLast hwne).symm,
        (hall _ (List.getLast_mem hwne)).1⟩
    | cons w2 ws =>
      obtain ⟨init, d, h, hd⟩ := ih (by simp) (fun x hx => hws x (List.mem_cons_of_mem _ hx))
        gaps.tail
      refine ⟨w ++ (List.replicate (gaps.headD 0 + 1) ' ' ++ init), d, ?_, hd⟩
      simp only [command_line, h, List.append_assoc]

theorem find_last_nonspace_spaces (n i last_nonspace : Nat) :
    find_last_nonspace (List.replicate n ' ') i last_nonspace = last_nonspace := by
  induction n generalizing i with
  | zero => rfl
  | succ n ih =>
    rw [List.replicate_succ, find_last_nonspace]
    simp only [ne_eq, not_true_eq_false, if_false]
    exact ih (i + 1)

/-- Leading spaces are skipped by the trimming statements. -/
theorem trim_spaces_leading (n : Nat) (s : List Char) :
    trim_spaces (List.replicate n ' ' ++ s) = trim_spaces s := by
  have h : (List.replicate n ' ' ++ s).dropWhile (fun c => c = ' ')
      = s.dropWhile (fun c => c = ' ') := by
    induction n with
    | zero => rfl
    | succ n ih =>
      rw [List.replicate_succ, List.cons_append, List.dropWhile_cons]
      simp [ih]
  unfold trim_spaces
  rw [h]

/-- A single non-space character followed by spaces is not cut: the last
non-space character is the first one, which the test `last_nonspace != buf`
takes for no non-space character at all. -/
theorem trim_spaces_single (c : Char) (hc : c ≠ ' ') (n : Nat) :
    trim_spaces (c :: List.replicate n ' ') = c :: List.replicate n ' ' := by
  have hdrop : (c :: List.replicate n ' ').dropWhile (fun c => c = ' ')
      = c :: List.replicate n ' ' := by
    simp [List.dropWhile, hc]
  unfold trim_spaces
  rw [hdrop, find_last_nonspace, find_last_nonspace_spaces]
  simp [hc]

/-! ### The context round trip -/

/-- Claim C1 (the code differs).  The round trip is not lossless.  For an
interpreter whose methods leave the plainly assigned registers alone and whose
long-mode test changes only with an EFER write: when the interpreter is in
legacy mode before the call and the applied block `R` puts it in long mode
with a last x87 instruction pointer of more than 32 bits, `set_context` keeps
only the low 32 bits of that pointer, and `get_context` right after returns a
block that differs from `R` in `LastFpRip`, whatever the caller's buffer. -/
theorem round_trip_loses_last_fp_pointer {κ : Type} (I : Interp κ) (hI : I.Frame)
    (hM : I.ModeStable) (R buf : _whvp_context) (b : Bochs κ)
    (hprior : I.get_LMA b.cpu = false)
    (hafter : I.get_LMA (set_context I R b).cpu = true)
    (hhigh : 2 ^ 32 ≤ R.fp_control.LastFpRip) :
    (get_context I (set_context I R b).cpu buf).fp_control.LastFpRip
      = R.fp_control.LastFpRip % 2 ^ 32 ∧
    (get_context I (set_context I R b).cpu buf).fp_control.LastFpRip
      ≠ R.fp_control.LastFpRip ∧
    get_context I (set_context I R b).cpu buf ≠ R := by
  obtain ⟨hfip, _⟩ := set_context_last_pointers I hI hM R b
  rw [hprior] at hfip
  have hget : (get_context I (set_context I R b).cpu buf).fp_control.LastFpRip
      = R.fp_control.LastFpRip % 2 ^ 32 := by
    simp only [get_context, hafter, if_true, hfip, Bool.false_eq_true, if_false, lo32]
  have hne : (get_context I (set_context I R b).cpu buf).fp_control.LastFpRip
      ≠ R.fp_control.LastFpRip := by
    rw [hget]
    omega
  exact ⟨hget, hne, fun h => hne (by rw [h])⟩

/-- Failing input for C1: the interpreter is in legacy mode (EFER zero, as after
a reset) and the applied block is the well-formed block of a 64-bit guest
with `LastFpRip = 0xfffff80000401000`; `get_context` right after hands back
`LastFpRip = 0x401000`, so the block returned is not the block applied. -/
theorem round_trip_loses_last_fp_pointer_witness :
    long_mode_context.WellFormed ∧
    (get_context efer_interp
      (set_context efer_interp long_mode_context Bochs.boot_legacy).cpu
      long_mode_context).fp_control.LastFpRip = 0x401000 ∧
    get_context efer_interp
      (set_context efer_interp long_mode_context Bochs.boot_legacy).cpu
      long_mode_context ≠ long_mode_context :=
  ⟨by decide,
   (round_trip_loses_last_fp_pointer efer_interp efer_interp_frame efer_interp_modeStable
     long_mode_context long_mode_context Bochs.boot_legacy (by decide) (by decide)
     (by decide)).1,
   (round_trip_loses_last_fp_pointer efer_interp efer_interp_frame efer_interp_modeStable
     long_mode_context long_mode_context Bochs.boot_legacy (by decide) (by decide)
     (by decide)).2.2⟩

/-! ### The generation counter -/

/-- Claim C2.  Starting from a state whose counter holds the initial value
`0x12ad1fef77be846a`, after `set_context` has been called once for each block
of an arbitrary list `Rs` (so `k = Rs.length` times, with any contexts and any
interpreter), `hypervisor_context_switches` equals the initial value plus `k`
modulo 2^64.  Nothing is assumed about the blocks, so a block equal to the
state already held counts like any other. -/
theorem counter_after_k_set_context {κ : Type} (I : Interp κ) (Rs : List _whvp_context)
    (b : Bochs κ)
    (hb : b.hypervisor_context_switches = hypervisor_context_switches_init) :
    (set_contexts I Rs b).hypervisor_context_switches
      = (0x12ad1fef77be846a + Rs.length) % 2 ^ 64 := by
  rw [set_contexts_counter I Rs b (by rw [hb]; decide), hb]
  rfl

/-- Witness for C2: three calls from the start state give the seed plus 3, also
when the three blocks are equal. -/
theorem counter_after_k_set_context_witness :
    Bochs.boot.hypervisor_context_switches = hypervisor_context_switches_init ∧
    (set_contexts idle [sample_context, sample_context, sample_context]
        Bochs.boot).hypervisor_context_switches = 0x12ad1fef77be846a + 3 :=
  ⟨rfl, counter_after_k_set_context idle [sample_context, sample_context, sample_context]
    Bochs.boot rfl⟩

/-- Claim C3.  An entry stamped with the counter value current at its creation
passes the validity test while no `set_context` has run since, and fails it
after any `m` further `set_context` calls with `1 <= m < 2^64` (here
`m = Rs.length`; the counter is a 64-bit value). -/
theorem stale_entry_rejected {κ : Type} (I : Interp κ) (Rs : List _whvp_context)
    (b : Bochs κ) (hb : b.hypervisor_context_switches < 2 ^ 64) :
    icache_entry_valid b.hypervisor_context_switches b.hypervisor_context_switches = true ∧
    (1 ≤ Rs.length → Rs.length < 2 ^ 64 →
      icache_entry_valid b.hypervisor_context_switches
        (set_contexts I Rs b).hypervisor_context_switches = false) := by
  refine ⟨by simp [icache_entry_valid], fun h1 h2 => ?_⟩
  rw [set_contexts_counter I Rs b hb]
  simp only [icache_entry_valid, beq_eq_false_iff_ne, ne_eq]
  omega

/-- Witness for C3: an entry created at program start is valid there and
invalid after one `set_context`. -/
theorem stale_entry_rejected_witness :
    icache_entry_valid Bochs.boot.hypervisor_context_switches
      Bochs.boot.hypervisor_context_switches = true ∧
    icache_entry_valid Bochs.boot.hypervisor_context_switches
      (set_contexts idle [sample_context] Bochs.boot).hypervisor_context_switches = false :=
  ⟨(stale_entry_rejected idle [sample_context] Bochs.boot (by decide)).1,
   (stale_entry_rejected idle [sample_context] Bochs.boot (by decide)).2 (by decide)
     (by decide)⟩

/-- Claim C4.  The initial value of the counter is non-zero, and after `k`
calls of `set_context` from the initial value, for any
`k < 2^64 - 0x12ad1fef77be846a`, the counter is still non-zero, so an age tag
of zero fails the validity test. -/
theorem zero_age_fails_closed {κ : Type} (I : Interp κ) (Rs : List _whvp_context)
    (b : Bochs κ)
    (hb : b.hypervisor_context_switches = hypervisor_context_switches_init)
    (hk : Rs.length < 2 ^ 64 - 0x12ad1fef77be846a) :
    hypervisor_context_switches_init ≠ 0 ∧
    (set_contexts I Rs b).hypervisor_context_switches ≠ 0 ∧
    icache_entry_valid 0 (set_contexts I Rs b).hypervisor_context_switches = false := by
  have h : (set_contexts I Rs b).hypervisor_context_switches ≠ 0 := by
    rw [set_contexts_counter I Rs b (by rw [hb]; decide), hb]
    simp only [hypervisor_context_switches_init]
    omega
  refine ⟨by decide, h, ?_⟩
  simp only [icache_entry_valid, beq_eq_false_iff_ne, ne_eq]
  exact fun h0 => h h0.symm

/-- Witness for C4: a zero age tag is invalid after two calls from the start
state. -/
theorem zero_age_fails_closed_witness :
    icache_entry_valid 0
      (set_contexts idle [sample_context, sample_context]
        Bochs.boot).hypervisor_context_switches = false :=
  (zero_age_fails_closed idle [sample_context, sample_context] Bochs.boot rfl
    (by decide)).2.2

/-! ### The bounded steppers -/

/-- Claim C5.  In the build without debugger and without handler chaining,
for every interpreter, every `n` and every state, `step_cpu(n)` executes at
most `n` instructions; if it executes fewer than `n`, a call of
`handleAsyncEvent` returned true (asked to return); and if `handleAsyncEvent`
never returns true it executes exactly `n`. -/
theorem step_cpu_budget {κ : Type} (I : Interp κ) (stop_trace n : Nat) (b : Bochs κ) :
    (executions (new_calls b (step_cpu I stop_trace n b).1)).length ≤ n ∧
    ((executions (new_calls b (step_cpu I stop_trace n b).1)).length < n →
      Call.handleAsyncEvent true ∈ new_calls b (step_cpu I stop_trace n b).1) ∧
    ((∀ c, (I.handleAsyncEvent c).2 = false) →
      (executions (new_calls b (step_cpu I stop_trace n b).1)).length = n) := by
  obtain ⟨_, hle, hlt, hall⟩ := step_cpu_loop_calls I stop_trace n (b.call .TLB_flush I.TLB_flush)
  rw [step_cpu_new_calls]
  have hx : ∀ l, executions (Call.TLB_flush :: l) = executions l := fun l => rfl
  rw [hx]
  exact ⟨hle, fun h => List.mem_cons_of_mem _ (hlt h), hall⟩

/-- Witness for C5: with an event latched by the second instruction and a
handler that asks to return, a request for 5 executes 2 and the handler call is
in the log; with the idle interpreter a request for 4 executes 4. -/
theorem step_cpu_budget_witness :
    (executions (new_calls Bochs.boot
      (step_cpu latch_on_second_instruction 0x80000000 5 Bochs.boot).1)).length = 2 ∧
    Call.handleAsyncEvent true ∈
      new_calls Bochs.boot (step_cpu latch_on_second_instruction 0x80000000 5 Bochs.boot).1 ∧
    (executions (new_calls Bochs.boot (step_cpu idle 0x80000000 4 Bochs.boot).1)).length = 4 :=
  ⟨by decide,
   (step_cpu_budget latch_on_second_instruction 0x80000000 5 Bochs.boot).2.1 (by decide),
   (step_cpu_budget idle 0x80000000 4 Bochs.boot).2.2 (fun _ => rfl)⟩

/-- Claim C6.  Let the state after the initial flush be followed by passes of
the loop body.  If no asynchronous event is latched at the test before each of
the first `j` instructions, one is latched at the test before instruction
`j + 1` (with `j < n`), and its handler asks to return, then `step_cpu(n)`
returns having executed exactly `j` instructions. -/
theorem step_cpu_returns_at_latched_event {κ : Type} (I : Interp κ) (stop_trace n j : Nat)
    (b : Bochs κ) (hj : j < n)
    (hquiet : ∀ k < j,
      ((step_cpu_pass I stop_trace)^[k] (b.call .TLB_flush I.TLB_flush)).cpu.async_event = 0)
    (hlatched :
      ((step_cpu_pass I stop_trace)^[j] (b.call .TLB_flush I.TLB_flush)).cpu.async_event ≠ 0)
    (hret : (I.handleAsyncEvent
      ((step_cpu_pass I stop_trace)^[j] (b.call .TLB_flush I.TLB_flush)).cpu).2 = true) :
    (executions (new_calls b (step_cpu I stop_trace n b).1)).length = j := by
  have h := (step_cpu_loop_early_return I stop_trace n j (b.call .TLB_flush I.TLB_flush) hj
    hquiet hlatched hret).1
  rw [step_cpu_new_calls]
  exact h

/-- Witness for C6: a request for 5 instructions where the second instruction
latches an event, so that it is seen before the third, executes exactly 2. -/
theorem step_cpu_returns_at_latched_event_witness :
    (executions (new_calls Bochs.boot
      (step_cpu latch_on_second_instruction 0x80000000 5 Bochs.boot).1)).length = 2 :=
  step_cpu_returns_at_latched_event latch_on_second_instruction 0x80000000 5 2 Bochs.boot
    (by decide) (by decide) (by decide) (by decide)

/-- Claim C8.  In `step_device(n)` let the run get through `i < n` ticks
without returning, and let an event be latched in the state right after tick
`i` (the state at the test that precedes tick `i + 1`).  Then the log of the
call consists of the log up to and including tick `i`, which holds exactly `i`
calls `tickn(1)`, followed immediately by the call of `handleAsyncEvent` on
that very state: the handler sees the event before tick `i + 1` starts.  If
the handler asks to return, nothing follows, so exactly `i` ticks have been
performed. -/
theorem step_device_checks_before_every_tick {κ : Type} (I : Interp κ) (n i : Nat)
    (b : Bochs κ) (hi : i < n)
    (hrun : ∀ k < i, (check_async_event I
      ((step_device_pass I)^[k] (b.call .TLB_flush I.TLB_flush))).2 = false)
    (hlatched :
      ((step_device_pass I)^[i] (b.call .TLB_flush I.TLB_flush)).cpu.async_event ≠ 0) :
    ∃ rest,
      new_calls b (step_device I n b).1
        = new_calls b ((step_device_pass I)^[i] (b.call .TLB_flush I.TLB_flush)) ++
          Call.handleAsyncEvent (I.handleAsyncEvent
            ((step_device_pass I)^[i] (b.call .TLB_flush I.TLB_flush)).cpu).2 :: rest ∧
      ticks (new_calls b ((step_device_pass I)^[i] (b.call .TLB_flush I.TLB_flush)))
        = List.replicate i 1 ∧
      ((I.handleAsyncEvent
          ((step_device_pass I)^[i] (b.call .TLB_flush I.TLB_flush)).cpu).2 = true →
        rest = [] ∧ ticks (new_calls b (step_device I n b).1) = List.replicate i 1) := by
  obtain ⟨m, hm⟩ : ∃ m, n - i = m + 1 := ⟨n - i - 1, by omega⟩
  have hskip := step_device_loop_skip I i n (b.call .TLB_flush I.TLB_flush) (by omega) hrun
  obtain ⟨rest, hrest, hstop⟩ := step_device_loop_latched I m _ hlatched
  obtain ⟨hc1, hc2⟩ := Bochs.call_calls .TLB_flush I.TLB_flush b
  obtain ⟨hi1, hi2⟩ := step_device_iterate_calls I i (b.call .TLB_flush I.TLB_flush)
  obtain ⟨hp1, hp2⟩ := new_calls_trans hc1 hi1
  have hl1 := (step_device_loop_calls I (m + 1)
    ((step_device_pass I)^[i] (b.call .TLB_flush I.TLB_flush))).1
  obtain ⟨_, hf2⟩ := new_calls_trans hp1 hl1
  have hfinal : (step_device I n b).1
      = (step_device_loop I (m + 1)
          ((step_device_pass I)^[i] (b.call .TLB_flush I.TLB_flush))).1 := by
    unfold step_device
    rw [hskip, hm]
  have hx : ∀ l, ticks (Call.TLB_flush :: l) = ticks l := fun l => rfl
  have hticks : ticks (new_calls b
      ((step_device_pass I)^[i] (b.call .TLB_flush I.TLB_flush))) = List.replicate i 1 := by
    rw [hp2, hc2]
    exact hi2
  refine ⟨rest, ?_, hticks, fun ht => ?_⟩
  · rw [hfinal, hf2, hrest]
  · refine ⟨(hstop ht).1, ?_⟩
    rw [hfinal, hf2, hrest, (hstop ht).1, ticks_append, hticks]
    simp [ticks]

/-- Witness for C8: in a request for 10 ticks where tick 1 latches an event,
the log is the flush, tick 1 and then the handler call; no second tick comes
before the handler runs. -/
theorem step_device_checks_before_every_tick_witness :
    new_calls Bochs.boot_ticks (step_device latch_on_first_tick 10 Bochs.boot_ticks).1
      = [Call.TLB_flush, Call.tickn 1, Call.handleAsyncEvent true] ∧
    ticks (new_calls Bochs.boot_ticks (step_device latch_on_first_tick 10 Bochs.boot_ticks).1)
      = [1] := by
  obtain ⟨rest, h1, _, h3⟩ := step_device_checks_before_every_tick latch_on_first_tick 10 1
    Bochs.boot_ticks (by decide) (by decide) (by decide)
  obtain ⟨hr, ht⟩ := h3 rfl
  rw [hr] at h1
  exact ⟨h1, ht⟩

/-! ### Start-up -/

/-- Claim C10.  In every state that a running process can hold when
`initialize_bochservisor` is entered, if the call terminates the process for a
configuration violation (wrong ips, CPU model, processor, core or thread count,
or clock sync), then at that moment no entry of the routines table has been
populated and `bochs_cpu_loop` is still null (and so are the other two cached
addresses). -/
theorem no_partial_bridge (K : Int) (SIM : bx_params) (os : Win32) (g : Globals)
    (hg : Globals.Reachable K g)
    (hv : (initialize_bochservisor K SIM os g).outcome.config_violation = true) :
    (initialize_bochservisor K SIM os g).globals.routines = Globals.initial.routines ∧
    (initialize_bochservisor K SIM os g).globals.bochs_cpu_loop = none ∧
    (initialize_bochservisor K SIM os g).globals.report_coverage = none ∧
    (initialize_bochservisor K SIM os g).globals.register_state = none := by
  have hfirst : g.initialized = false := by
    cases h0 : g.initialized
    · rfl
    · have hx : (initialize_bochservisor K SIM os g).outcome = .exited .called_twice (-1) := by
        unfold initialize_bochservisor
        rw [h0]
        rfl
      rw [hx] at hv
      exact absurd hv (by decide)
  have hinit := Globals.reachable_first_call K g hg hfirst
  rw [(initialize_first_call K SIM os g hfirst).2.2.1 hv, hinit]
  exact ⟨rfl, rfl, rfl, rfl⟩

/-- Witness for C10: at program start a configuration with a wrong ips value
ends the process with the routines table still empty. -/
theorem no_partial_bridge_witness :
    (initialize_bochservisor 0 wrong_ips_params loaded_os Globals.initial).outcome
      = .exited .ips (-1) ∧
    (initialize_bochservisor 0 wrong_ips_params loaded_os Globals.initial).globals.routines
      = Globals.initial.routines ∧
    (initialize_bochservisor 0 wrong_ips_params loaded_os Globals.initial).globals.bochs_cpu_loop
      = none :=
  ⟨by decide,
   (no_partial_bridge 0 wrong_ips_params loaded_os Globals.initial .initial (by decide)).1,
   (no_partial_bridge 0 wrong_ips_params loaded_os Globals.initial .initial (by decide)).2.1⟩

/-! ### Snapshot, memory backing and the dirty-page bitmap -/

/-- Claim C11.  `take_snapshot(d)` calls `save_state` exactly once, with the
destination `d` of its caller, and then ends the process with exit status
-1337; that status is non-zero as a 32-bit value and also when truncated to 8
bits, where it is 199.  The routine never returns to its caller, whatever
`save_state` does or reports. -/
theorem take_snapshot_exits {σ : Type} (save_state : σ → String → σ × Bool)
    (d : String) (sim : σ) :
    (take_snapshot save_state d sim).save_state_calls = [d] ∧
    (take_snapshot save_state d sim).sim = (save_state sim d).1 ∧
    (take_snapshot save_state d sim).ending = .exited (-1337) ∧
    (take_snapshot save_state d sim).ending ≠ .returned ∧
    exit_status_bits 32 (-1337) ≠ 0 ∧
    exit_status_bits 8 (-1337) = 199 :=
  ⟨rfl, rfl, rfl, by simp [take_snapshot], by decide, by decide⟩

/-- Claim C12.  `get_memory_backing(address, type)` returns exactly what the
interpreter method `getHostMemAddr(address, type)` returns and leaves the
state of the bridge (the generation counter and the log of bridge calls) as it
was: the result is the null pointer when the interpreter reports the address
as unbacked, and it is non-null exactly when the interpreter returned a
backing pointer. -/
theorem get_memory_backing_forwards {κ : Type}
    (getHostMemAddr : BX_CPU_C κ → Nat → Int → BX_CPU_C κ × Nat)
    (address : Nat) (type : Int) (b : Bochs κ) :
    (get_memory_backing getHostMemAddr address type b).2
      = (getHostMemAddr b.cpu address type).2 ∧
    (get_memory_backing getHostMemAddr address type b).1.hypervisor_context_switches
      = b.hypervisor_context_switches ∧
    (get_memory_backing getHostMemAddr address type b).1.calls = b.calls ∧
    ((getHostMemAddr b.cpu address type).2 = 0 →
      (get_memory_backing getHostMemAddr address type b).2 = 0) ∧
    ((get_memory_backing getHostMemAddr address type b).2 ≠ 0 ↔
      (getHostMemAddr b.cpu address type).2 ≠ 0) :=
  ⟨rfl, rfl, rfl, fun h => h, Iff.rfl⟩

/-- Witness for C12: with 32 MiB of guest RAM an address beyond the RAM gives
the null pointer and an address inside it gives its host address. -/
theorem get_memory_backing_forwards_witness :
    (get_memory_backing (flat_ram 0x7f0000000000 0x2000000) 0x40000000 1 Bochs.boot).2 = 0 ∧
    (get_memory_backing (flat_ram 0x7f0000000000 0x2000000) 0x1000 1 Bochs.boot).2
      = 0x7f0000001000 :=
  ⟨(get_memory_backing_forwards (flat_ram 0x7f0000000000 0x2000000) 0x40000000 1
      Bochs.boot).2.2.2.1 (by decide),
   by decide⟩

/-- Claim C13.  After `clear_all`, let the tracked store path mark the
addresses of a list (each below 4 GiB, in a bitmap with the declared array
sizes).  Then for every address `A` of the list both
`is_page_dirty(page(A))` and `is_region_dirty(region(A))` are true, so that
the first-level word of the 64 MiB group that holds `A` is non-zero; the
bitmap satisfies the invariant that a set page bit has its covering region bit
set; and a single `mark` keeps that invariant. -/
theorem marked_addresses_dirty (d : DirtyBitmap) (hd : d.WellFormed)
    (addresses : List Nat) (hA : ∀ A ∈ addresses, A < 2 ^ 32) :
    (∀ A ∈ addresses,
      is_page_dirty (marks addresses (clear_all d)) (page A) = true ∧
      is_region_dirty (marks addresses (clear_all d)) (region A) = true ∧
      (marks addresses (clear_all d)).dirty_bits_l1.getD (A / (64 * 1024 * 1024)) 0 ≠ 0) ∧
    (marks addresses (clear_all d)).Covered ∧
    (∀ A, A < 2 ^ 32 → d.Covered → (mark A d).Covered) := by
  obtain ⟨_, _, _, h4, h5⟩ := marks_spec addresses hA (clear_all d) (clear_all_wellFormed d hd)
  refine ⟨fun A hmem => ⟨(h4 A hmem).1, (h4 A hmem).2, ?_⟩, h5 (clear_all_covered d),
    fun A hA0 => (mark_spec A hA0 d hd).2.2.2.2⟩
  have hw := test_bit_word_ne_zero _ _ (h4 A hmem).2
  have hidx : region A / 64 = A / (64 * 1024 * 1024) := by
    unfold region; omega
  rwa [hidx] at hw

/-- Witness for C13: three stores, two of them in the same page. -/
theorem marked_addresses_dirty_witness :
    DirtyBitmap.initial.WellFormed ∧
    is_page_dirty (marks [0x1000, 0x1008, 0x7654321] (clear_all DirtyBitmap.initial))
      (page 0x7654321) = true ∧
    is_region_dirty (marks [0x1000, 0x1008, 0x7654321] (clear_all DirtyBitmap.initial))
      (region 0x7654321) = true ∧
    (marks [0x1000, 0x1008, 0x7654321] (clear_all DirtyBitmap.initial)).dirty_bits_l1.getD
      (0x7654321 / (64 * 1024 * 1024)) 0 ≠ 0 :=
  ⟨initial_wellFormed,
   (marked_addresses_dirty DirtyBitmap.initial initial_wellFormed [0x1000, 0x1008, 0x7654321]
     (by decide)).1 0x7654321 (by decide)⟩

/-- Claim C14.  For every address and every state of the bitmap, `mark`
applied twice, or any positive number of times, leaves both levels in the
state that one `mark` produces. -/
theorem mark_idempotent (A : Nat) (d : DirtyBitmap) :
    mark A (mark A d) = mark A d ∧ ∀ n, (mark A)^[n + 1] d = mark A d := by
  have h : ∀ e, mark A (mark A e) = mark A e := by
    intro e
    unfold mark
    simp only [set_bit_idem]
  refine ⟨h d, fun n => ?_⟩
  induction n with
  | zero => rfl
  | succ n ih => rw [Function.iterate_succ_apply', ih, h]

/-- Claim C15.  After `clear_all` every word of both levels is zero, so every
`is_page_dirty` and every `is_region_dirty` query is false. -/
theorem clear_all_zero (d : DirtyBitmap) :
    (∀ w ∈ (clear_all d).dirty_bits_l1, w = 0) ∧
    (∀ w ∈ (clear_all d).dirty_bits_l2, w = 0) ∧
    (∀ i, is_page_dirty (clear_all d) i = false) ∧
    (∀ i, is_region_dirty (clear_all d) i = false) :=
  ⟨fun _ h => List.eq_of_mem_replicate h, fun _ h => List.eq_of_mem_replicate h,
   fun i => (clear_all_clean d i).1, fun i => (clear_all_clean d i).2⟩

/-- Witness for C15: marking 0x1000 and 0x2000 sets one shared first-level bit
and two distinct second-level bits; after `clear_all` all three queries are
false. -/
theorem clear_all_zero_witness :
    region 0x1000 = region 0x2000 ∧ page 0x1000 ≠ page 0x2000 ∧
    is_region_dirty (marks [0x1000, 0x2000] DirtyBitmap.initial) (region 0x1000) = true ∧
    is_page_dirty (marks [0x1000, 0x2000] DirtyBitmap.initial) (page 0x1000) = true ∧
    is_page_dirty (marks [0x1000, 0x2000] DirtyBitmap.initial) (page 0x2000) = true ∧
    is_region_dirty (clear_all (marks [0x1000, 0x2000] DirtyBitmap.initial))
      (region 0x1000) = false ∧
    is_page_dirty (clear_all (marks [0x1000, 0x2000] DirtyBitmap.initial))
      (page 0x1000) = false ∧
    is_page_dirty (clear_all (marks [0x1000, 0x2000] DirtyBitmap.initial))
      (page 0x2000) = false :=
  ⟨by decide, by decide, by decide, by decide, by decide,
   (clear_all_zero (marks [0x1000, 0x2000] DirtyBitmap.initial)).2.2.2 _,
   (clear_all_zero (marks [0x1000, 0x2000] DirtyBitmap.initial)).2.2.1 _,
   (clear_all_zero (marks [0x1000, 0x2000] DirtyBitmap.initial)).2.2.1 _⟩

/-! ### Mode test, remaining budget, stop-trace bit and flushes -/

/-- Claim C16 (the code differs).  In `set_context` the long-mode test that
chooses between the 64-bit `LastFpRip` / `LastFpRdp` members and the 32-bit
offset-plus-selector pairs is evaluated before `efer.set32` is called: for an
interpreter whose long-mode test changes only with an EFER write, the choice
is made on the mode the interpreter held before the call, whatever EFER the
applied block carries. -/
theorem set_context_mode_test_reads_prior_efer {κ : Type} (I : Interp κ) (hI : I.Frame)
    (hM : I.ModeStable) (R : _whvp_context) (b : Bochs κ) :
    (set_context I R b).cpu.regs.fip
      = (if I.get_LMA b.cpu then R.fp_control.LastFpRip
         else lo32 R.fp_control.LastFpRip) ∧
    (set_context I R b).cpu.regs.fdp
      = (if I.get_LMA b.cpu then R.xmm_control.LastFpRdp
         else lo32 R.xmm_control.LastFpRdp) :=
  set_context_last_pointers I hI hM R b

/-- Failing input for C16: the interpreter is in legacy mode (EFER zero, as
after a reset) and the applied block is the well-formed block of a 64-bit
guest with
`LastFpRip = 0xfffff80000401000`.  After the call the block's EFER is in force
(long mode active), yet `fip` holds only the low 32 bits, and `get_context`
hands back `LastFpRip = 0x401000`. -/
theorem set_context_mode_test_reads_prior_efer_witness :
    long_mode_context.WellFormed ∧
    efer_interp.get_LMA Bochs.boot_legacy.cpu = false ∧
    efer_interp.get_LMA (set_context efer_interp long_mode_context Bochs.boot_legacy).cpu
      = true ∧
    (set_context efer_interp long_mode_context Bochs.boot_legacy).cpu.regs.fip = 0x401000 ∧
    (set_context efer_interp long_mode_context Bochs.boot_legacy).cpu.regs.fdp = 0x2000 ∧
    (get_context efer_interp
      (set_context efer_interp long_mode_context Bochs.boot_legacy).cpu
      long_mode_context).fp_control.LastFpRip = 0x401000 :=
  ⟨by decide, by decide, by decide,
   (set_context_mode_test_reads_prior_efer efer_interp efer_interp_frame
     efer_interp_modeStable long_mode_context Bochs.boot_legacy).1,
   (set_context_mode_test_reads_prior_efer efer_interp efer_interp_frame
     efer_interp_modeStable long_mode_context Bochs.boot_legacy).2,
   by decide⟩

/-- Counterexample to C17.  A request for 5 instructions in which the handler
asks to return before the third: 2 instructions were executed, but the local
budget `steps` is 2 when the function returns, not 5 - 2 = 3. -/
theorem step_cpu_budget_decremented_before_return :
    Call.handleAsyncEvent true ∈
      new_calls Bochs.boot (step_cpu latch_on_second_instruction 0x80000000 5 Bochs.boot).1 ∧
    (executions (new_calls Bochs.boot
      (step_cpu latch_on_second_instruction 0x80000000 5 Bochs.boot).1)).length = 2 ∧
    (step_cpu latch_on_second_instruction 0x80000000 5 Bochs.boot).2 = 2 ∧
    (step_cpu latch_on_second_instruction 0x80000000 5 Bochs.boot).2 ≠
      5 - (executions (new_calls Bochs.boot
        (step_cpu latch_on_second_instruction 0x80000000 5 Bochs.boot).1)).length := by
  decide

/-- Claim C17, amended.  `step_cpu` decrements the budget at the top of every
pass, before the event test.  So when `step_cpu(n)` returns early because
`handleAsyncEvent` asked to return, the budget has already been decremented
for the pass that returns: remaining budget = n - (instructions executed) - 1.
When no handler call asked to return, the budget is 0 and `n` instructions
were executed. -/
theorem step_cpu_remaining_budget {κ : Type} (I : Interp κ) (stop_trace n : Nat)
    (b : Bochs κ) :
    (Call.handleAsyncEvent true ∈ new_calls b (step_cpu I stop_trace n b).1 →
      (step_cpu I stop_trace n b).2
        + (executions (new_calls b (step_cpu I stop_trace n b).1)).length + 1 = n) ∧
    (Call.handleAsyncEvent true ∉ new_calls b (step_cpu I stop_trace n b).1 →
      (step_cpu I stop_trace n b).2 = 0 ∧
      (executions (new_calls b (step_cpu I stop_trace n b).1)).length = n) := by
  have h := step_cpu_loop_remaining I stop_trace n (b.call .TLB_flush I.TLB_flush)
  have hx : ∀ l, executions (Call.TLB_flush :: l) = executions l := fun l => rfl
  have hm : ∀ l : List Call, Call.handleAsyncEvent true ∈ Call.TLB_flush :: l ↔
      Call.handleAsyncEvent true ∈ l := fun l => by simp
  rw [step_cpu_new_calls, hx, hm]
  exact h

/-- Witness for the amended C17: in the run of the counterexample the budget
left, the 2 executed instructions and the one consumed pass add up to 5. -/
theorem step_cpu_remaining_budget_witness :
    (step_cpu latch_on_second_instruction 0x80000000 5 Bochs.boot).2
      + (executions (new_calls Bochs.boot
          (step_cpu latch_on_second_instruction 0x80000000 5 Bochs.boot).1)).length + 1 = 5 :=
  (step_cpu_remaining_budget latch_on_second_instruction 0x80000000 5 Bochs.boot).1
    (by decide)

/-- Claim C18 (the code differs).  In a pass of `step_cpu`, when the
stop-trace bit of `async_event` is set after the instruction has been
executed, `async_event` is non-zero, the pass takes `continue`, and the
statement that clears the bit is skipped: the pass leaves the state, and with
it `async_event` and its stop-trace bit, exactly as it was right after the
execution. -/
theorem stop_trace_bit_not_cleared {κ : Type} (I : Interp κ) (stop_trace : Nat)
    (b : Bochs κ)
    (hset : (step_cpu_post_execution I b).cpu.async_event &&& stop_trace ≠ 0) :
    step_cpu_execute I stop_trace b = step_cpu_post_execution I b ∧
    (step_cpu_execute I stop_trace b).cpu.async_event &&& stop_trace ≠ 0 := by
  have hne : (step_cpu_post_execution I b).cpu.async_event ≠ 0 := by
    intro h0
    rw [h0, Nat.zero_and] at hset
    exact hset rfl
  have he := step_cpu_execute_eq I stop_trace b hne
  exact ⟨he, by rw [he]; exact hset⟩

/-- Failing input for C18: `step_cpu(1)` on an instruction that sets the
stop-trace bit (a taken branch).  After the call `async_event` still has the
bit set. -/
theorem stop_trace_bit_not_cleared_witness :
    (step_cpu_post_execution branch_interp Bochs.boot).cpu.async_event = 0x80000000 ∧
    (step_cpu_execute branch_interp 0x80000000 Bochs.boot).cpu.async_event &&& 0x80000000
      ≠ 0 ∧
    (step_cpu branch_interp 0x80000000 1 Bochs.boot).1.cpu.async_event = 0x80000000 :=
  ⟨by decide,
   (stop_trace_bit_not_cleared branch_interp 0x80000000 Bochs.boot (by decide)).2,
   by decide⟩

/-- Claim C19.  Every call `step_cpu(n)` and every call `step_device(n)`,
including `n = 0`, first calls `TLB_flush` on the state it was entered with
and then runs its loop on the flushed state: the first entry of the log is the
flush, no further flush follows, and for `n = 0` the flush is the whole log. -/
theorem steppers_flush_first {κ : Type} (I : Interp κ) (stop_trace n : Nat) (b : Bochs κ) :
    (step_cpu I stop_trace n b
        = step_cpu_loop I stop_trace n (b.call .TLB_flush I.TLB_flush) ∧
      new_calls b (step_cpu I stop_trace n b).1
        = Call.TLB_flush ::
            new_calls (b.call .TLB_flush I.TLB_flush) (step_cpu I stop_trace n b).1 ∧
      Call.TLB_flush ∉
        new_calls (b.call .TLB_flush I.TLB_flush) (step_cpu I stop_trace n b).1 ∧
      new_calls b (step_cpu I stop_trace 0 b).1 = [Call.TLB_flush]) ∧
    (step_device I n b = step_device_loop I n (b.call .TLB_flush I.TLB_flush) ∧
      new_calls b (step_device I n b).1
        = Call.TLB_flush :: new_calls (b.call .TLB_flush I.TLB_flush) (step_device I n b).1 ∧
      Call.TLB_flush ∉ new_calls (b.call .TLB_flush I.TLB_flush) (step_device I n b).1 ∧
      new_calls b (step_device I 0 b).1 = [Call.TLB_flush]) := by
  refine ⟨⟨rfl, step_cpu_new_calls I stop_trace n b,
    flush_not_in_step_cpu_loop I stop_trace n _, ?_⟩,
    ⟨rfl, step_device_new_calls I n b, flush_not_in_step_device_loop I n _, ?_⟩⟩
  · rw [step_cpu_new_calls]
    simp [step_cpu, step_cpu_loop, new_calls]
  · rw [step_device_new_calls]
    simp [step_device, step_device_loop, new_calls]

/-- Claim C20.  Every `set_context` call, whatever the block and the prior
state, logs the register-writing calls and then `TLB_flush`,
`handleAlignmentCheck`, `handleCpuModeChange`, `handleSseModeChange`,
`handleAvxModeChange`, in this order; `TLB_flush` occurs exactly once; and the
five calls act on a state in which the last plain assignments (the members of
`msr`, ending with `tsc_aux`) have already been made. -/
theorem set_context_flush_then_modes {κ : Type} (I : Interp κ) (R : _whvp_context)
    (b : Bochs κ) :
    new_calls b (set_context I R b)
      = register_write_calls R ++
        [Call.TLB_flush, .handleAlignmentCheck, .handleCpuModeChange, .handleSseModeChange,
         .handleAvxModeChange] ∧
    (new_calls b (set_context I R b)).count Call.TLB_flush = 1 ∧
    ∃ pre : Bochs κ,
      set_context I R b
        = ((((pre.call .TLB_flush I.TLB_flush).call .handleAlignmentCheck
            I.handleAlignmentCheck).call .handleCpuModeChange I.handleCpuModeChange).call
            .handleSseModeChange I.handleSseModeChange).call .handleAvxModeChange
            I.handleAvxModeChange ∧
      new_calls b pre = register_write_calls R ∧
      pre.cpu.regs.kernelgsbase = R.kernel_gs_base ∧
      pre.cpu.regs.apicbase = R.apic_base ∧
      pre.cpu.regs.pat = R.pat ∧
      pre.cpu.regs.sysenter_cs_msr = Reg32 R.sysenter_cs ∧
      pre.cpu.regs.sysenter_eip_msr = R.sysenter_eip ∧
      pre.cpu.regs.sysenter_esp_msr = R.sysenter_esp ∧
      pre.cpu.regs.star = R.star ∧
      pre.cpu.regs.lstar = R.lstar ∧
      pre.cpu.regs.cstar = R.cstar ∧
      pre.cpu.regs.fmask = Reg32 R.sfmask ∧
      pre.cpu.regs.tsc_aux = Reg32 R.tsc_aux := by
  obtain ⟨pre, heq, hcalls, hrest⟩ := set_context_shape I R b
  have hlog : (set_context I R b).calls = b.calls ++ (register_write_calls R ++
      [Call.TLB_flush, .handleAlignmentCheck, .handleCpuModeChange, .handleSseModeChange,
       .handleAvxModeChange]) := by
    rw [heq]
    simp only [Bochs.call_calls_eq, hcalls, List.append_assoc]
    rfl
  refine ⟨new_calls_of_append hlog, ?_, pre, heq, new_calls_of_append hcalls, hrest⟩
  rw [new_calls_of_append hlog]
  simp [register_write_calls]

/-! ### Register-level properties of the context functions -/

/-- Claim C21.  For every register block `R`, every prior state and every
caller buffer, when the interpreter methods called by `set_context` (the
register setters, the flush and the mode re-evaluation handlers) do not write
the plainly assigned registers, `get_context` right after `set_context R`
returns exactly `R`s value for the 16 general-purpose registers, RIP, IDTR and
GDTR base and limit, CR2, CR3, DR0-DR3, all 128 bits of XMM0-XMM15, and the
full 64 bits of KernelGsBase, ApicBase, PAT, SYSENTER_EIP, SYSENTER_ESP, STAR,
LSTAR and CSTAR. -/
theorem verbatim_members_round_trip {κ : Type} (I : Interp κ) (hI : I.Frame)
    (R buf : _whvp_context) (b : Bochs κ) :
    (get_context I (set_context I R b).cpu buf).general = R.general ∧
    (get_context I (set_context I R b).cpu buf).rip = R.rip ∧
    (get_context I (set_context I R b).cpu buf).idtr = R.idtr ∧
    (get_context I (set_context I R b).cpu buf).gdtr = R.gdtr ∧
    (get_context I (set_context I R b).cpu buf).cr2 = R.cr2 ∧
    (get_context I (set_context I R b).cpu buf).cr3 = R.cr3 ∧
    (get_context I (set_context I R b).cpu buf).dr0 = R.dr0 ∧
    (get_context I (set_context I R b).cpu buf).dr1 = R.dr1 ∧
    (get_context I (set_context I R b).cpu buf).dr2 = R.dr2 ∧
    (get_context I (set_context I R b).cpu buf).dr3 = R.dr3 ∧
    (get_context I (set_context I R b).cpu buf).xmms = R.xmms ∧
    (get_context I (set_context I R b).cpu buf).full_msrs = R.full_msrs := by
  obtain ⟨fip, fcs, fdp, fds, h⟩ := set_context_regs I hI R b
  simp [get_context, _whvp_context.general, _whvp_context.xmms, _whvp_context.full_msrs, h]

/-- Witness for C21: the sample block through the idle interpreter; its RAX,
RIP, XMM3 and LSTAR come back at full width. -/
theorem verbatim_members_round_trip_witness :
    idle.Frame ∧
    (get_context idle (set_context idle sample_context Bochs.boot).cpu default).rax
      = 0x1122334455667788 ∧
    (get_context idle (set_context idle sample_context Bochs.boot).cpu default).rip
      = 0xfffff80000401000 ∧
    (get_context idle (set_context idle sample_context Bochs.boot).cpu default).xmm3
      = 0x0123456789abcdef0123456789abcdef ∧
    (get_context idle (set_context idle sample_context Bochs.boot).cpu default).lstar
      = 0xfffff80000a00000 := by
  have h := verbatim_members_round_trip idle idle_frame sample_context default Bochs.boot
  exact ⟨idle_frame, rfl, h.2.1, rfl, rfl⟩

/-- Claim C22.  For each of the eight x87 registers `j` of a block `R` whose
`st<j>` has a 64-bit mantissa `m`, a 15-bit biased exponent `e` and a sign bit
`s`: `set_context` stores `fraction = m` and `exp = e | (s << 15)` in
`st_space[j]`, and `get_context`, when the interpreter macro
`BX_READ_FPU_REG(i)` delivers that stored register for its member `st<i>`,
recovers exactly `(m, e, s)` from it.  Packing is also the inverse of
unpacking: for any register that `GET_FP_REG` reads, `SET_FP_REG` of the
result stores the same mantissa and the same 16-bit sign-and-exponent word. -/
theorem fp_register_pack_unpack {κ : Type} (I : Interp κ) (hI : I.Frame)
    (R buf : _whvp_context) (b : Bochs κ) (i j : Nat) (hi : i < 8) (hj : j < 8)
    (hR : (R.st j).WellFormed)
    (hread : I.BX_READ_FPU_REG (set_context I R b).cpu i
      = (set_context I R b).cpu.regs.st_space j) :
    ((set_context I R b).cpu.regs.st_space j).fraction = (R.st j).Mantissa ∧
    ((set_context I R b).cpu.regs.st_space j).exp
      = (R.st j).BiasedExponent ||| ((R.st j).Sign <<< 15) ∧
    (get_context I (set_context I R b).cpu buf).st i = R.st j ∧
    ∀ (c : BX_CPU_C κ) (idx : Nat),
      SET_FP_REG (GET_FP_REG I c idx)
        = { fraction := (I.BX_READ_FPU_REG c idx).fraction,
            exp := (I.BX_READ_FPU_REG c idx).exp % 2 ^ 16 } := by
  obtain ⟨fip, fcs, fdp, fds, h⟩ := set_context_regs I hI R b
  have hst : (set_context I R b).cpu.regs.st_space j = SET_FP_REG (R.st j) := by
    rw [h]
    interval_cases j <;> rfl
  have hget : (get_context I (set_context I R b).cpu buf).st i
      = GET_FP_REG I (set_context I R b).cpu i := by
    interval_cases i <;> rfl
  refine ⟨by rw [hst]; rfl, by rw [hst]; rfl, ?_, SET_FP_REG_of_read I⟩
  rw [hget]
  exact GET_FP_REG_of_stored I _ i (R.st j) hR (hread.trans hst)

/-- Witness for C22: -1.0 in `st3` (mantissa 0x8000000000000000, biased
exponent 0x3fff, sign 1) is stored with `exp = 0xbfff` and recovered. -/
theorem fp_register_pack_unpack_witness :
    ((set_context fpu_interp minus_one_context Bochs.boot).cpu.regs.st_space 3).exp = 0xbfff ∧
    (get_context fpu_interp (set_context fpu_interp minus_one_context Bochs.boot).cpu
      default).st3 = ⟨0x8000000000000000, 0x3fff, 1⟩ := by
  have h := fp_register_pack_unpack fpu_interp fpu_interp_frame
    minus_one_context default Bochs.boot 3 3 (by decide) (by decide)
    (by unfold WHV_X64_FP_REGISTER.WellFormed; decide) rfl
  exact ⟨h.2.1, h.2.2.1⟩

/-- Claim C26.  `set_context` uses only the low 32 bits of rflags, CR0, CR4,
DR6, DR7, XCR0, EFER, SYSENTER_CS, SFMASK and TSC_AUX: two blocks that differ
only in the upper 32 bits of these members leave the bridge in the same state
(so `get_context` afterwards fills the same block), and, the accessors
`read_eflags` and `get32` being 32 bits wide and the methods called by
`set_context` leaving the plainly assigned registers alone, `get_context`
afterwards returns each of the ten members with its upper 32 bits clear,
SYSENTER_CS, SFMASK and TSC_AUX being the low 32 bits of the block's value. -/
theorem set_context_reads_low32 {κ : Type} (I : Interp κ) (hI : I.Frame) (hT : I.Returns32)
    (R1 R2 buf : _whvp_context) (h : R1.SameLow32 R2) (b : Bochs κ) :
    set_context I R2 b = set_context I R1 b ∧
    get_context I (set_context I R2 b).cpu buf = get_context I (set_context I R1 b).cpu buf ∧
    (∀ v ∈ (get_context I (set_context I R1 b).cpu buf).reg32_members, v < 2 ^ 32) ∧
    (get_context I (set_context I R1 b).cpu buf).sysenter_cs = R1.sysenter_cs % 2 ^ 32 ∧
    (get_context I (set_context I R1 b).cpu buf).sfmask = R1.sfmask % 2 ^ 32 ∧
    (get_context I (set_context I R1 b).cpu buf).tsc_aux = R1.tsc_aux % 2 ^ 32 := by
  have hsame := set_context_same_low32 I R1 R2 h b
  obtain ⟨fip, fcs, fdp, fds, hr⟩ := set_context_regs I hI R1 b
  refine ⟨hsame, by rw [hsame], ?_, ?_, ?_, ?_⟩
  · intro v hv
    simp only [_whvp_context.reg32_members, get_context, hr, List.mem_cons,
      List.mem_singleton, List.not_mem_nil, or_false] at hv
    rcases hv with rfl | rfl | rfl | rfl | rfl | rfl | rfl | rfl | rfl | rfl
    · exact hT.read_eflags _
    · exact hT.get32 _ _
    · exact hT.get32 _ _
    · exact hT.get32 _ _
    · exact hT.get32 _ _
    · exact hT.get32 _ _
    · exact hT.get32 _ _
    · exact Nat.mod_lt _ (by decide)
    · exact Nat.mod_lt _ (by decide)
    · exact Nat.mod_lt _ (by decide)
  · simp [get_context, hr, Reg32]
  · simp [get_context, hr, Reg32]
  · simp [get_context, hr, Reg32]

/-- Witness for C26: two blocks that differ in the upper halves of rflags, CR0,
EFER and SFMASK are applied identically, and SFMASK comes back as 0x4700. -/
theorem set_context_reads_low32_witness :
    low_halves_context.SameLow32 high_halves_context ∧
    set_context idle high_halves_context Bochs.boot
      = set_context idle low_halves_context Bochs.boot ∧
    (get_context idle (set_context idle high_halves_context Bochs.boot).cpu default).sfmask
      = 0x4700 := by
  have hs : low_halves_context.SameLow32 high_halves_context := ⟨rfl, by decide⟩
  have h := set_context_reads_low32 idle idle_frame idle_returns32 low_halves_context
    high_halves_context default hs Bochs.boot
  exact ⟨hs, h.1, by rw [h.1]; exact h.2.2.2.2.1⟩

/-- Claim C27.  `set_context` writes the task priority `(CR8 & 0xf) << 4`: for
every interpreter that keeps the priority `lapic.set_tpr` is given, the
priority it holds after `set_context` is 16 times the low 4 bits of the
block's CR8, and this is the argument of the single `set_tpr` call of every
`set_context`; it is a multiple of 16 below 256.  A block whose CR8 is 16
higher is applied identically, so `get_context` afterwards returns the same
CR8 for both and a CR8 of 16 or more is not preserved; the CR8 values 0..15
map to the 16 distinct priorities 0, 16, ..., 240. -/
theorem set_context_task_priority {κ : Type} (I : Interp κ) (R buf : _whvp_context)
    (b : Bochs κ) :
    (∀ (tpr : κ → Nat), I.KeepsTpr tpr →
      tpr (set_context I R b).cpu.rest = task_priority R.cr8) ∧
    tpr_writes (new_calls b (set_context I R b)) = [task_priority R.cr8] ∧
    task_priority R.cr8 = 16 * (R.cr8 % 16) ∧
    task_priority R.cr8 % 16 = 0 ∧
    task_priority R.cr8 < 256 ∧
    task_priority (R.cr8 + 16) = task_priority R.cr8 ∧
    set_context I { R with cr8 := R.cr8 + 16 } b = set_context I R b ∧
    (get_context I (set_context I { R with cr8 := R.cr8 + 16 } b).cpu buf).cr8
      = (get_context I (set_context I R b).cpu buf).cr8 ∧
    (List.range 16).map task_priority
      = [0, 16, 32, 48, 64, 80, 96, 112, 128, 144, 160, 176, 192, 208, 224, 240] ∧
    ((List.range 16).map task_priority).Nodup := by
  have hv : ∀ x, task_priority x = 16 * (x % 16) := tpr_value
  have h16 : task_priority (R.cr8 + 16) = task_priority R.cr8 := by
    rw [hv, hv]
    omega
  have hsame : set_context I { R with cr8 := R.cr8 + 16 } b = set_context I R b := by
    unfold task_priority at h16
    unfold set_context
    dsimp only
    rw [h16]
  refine ⟨fun tpr hT => set_context_tpr I tpr hT R b, ?_, hv _, ?_, ?_, h16, hsame,
    by rw [hsame], by decide, by decide⟩
  · rw [new_calls_of_append (set_context_log I R b)]
    rfl
  · rw [hv]
    omega
  · rw [hv]
    omega

/-- Witness for C27: an interpreter that stores the priority and reads CR8 back
from it.  A block with CR8 = 0x1f leaves the priority 0xf0 in the local APIC,
and `get_context` afterwards returns CR8 = 0xf. -/
theorem set_context_task_priority_witness :
    tpr_interp.KeepsTpr id ∧
    (set_context tpr_interp high_cr8_context Bochs.boot_legacy).cpu.rest = 0xf0 ∧
    (get_context tpr_interp (set_context tpr_interp high_cr8_context Bochs.boot_legacy).cpu
      default).cr8 = 0xf :=
  ⟨tpr_interp_keepsTpr,
   (set_context_task_priority tpr_interp high_cr8_context default Bochs.boot_legacy).1 id
     tpr_interp_keepsTpr,
   by decide⟩

/-- Counterexample to C28.  The mode handlers run after `prev_rip` and
`prev_rsp` are committed.  With a `handleCpuModeChange` that clears the upper
halves of `RIP` and `RSP`, the committed pointers hold the block's values
while the pointers themselves hold only their low 32 bits. -/
theorem set_context_pointers_diverge :
    (set_context compat_interp sample_context Bochs.boot).cpu.prev_rip = 0xfffff80000401000 ∧
    (set_context compat_interp sample_context Bochs.boot).cpu.regs.RIP = 0x401000 ∧
    (set_context compat_interp sample_context Bochs.boot).cpu.prev_rsp = 0xffffa00000001000 ∧
    (set_context compat_interp sample_context Bochs.boot).cpu.regs.RSP = 0x1000 ∧
    (set_context compat_interp sample_context Bochs.boot).cpu.prev_rip
      ≠ (set_context compat_interp sample_context Bochs.boot).cpu.regs.RIP := by
  decide

/-- Claim C28, amended.  `set_context` assigns `RSP` and `prev_rsp` from
`R.rsp` and `RIP` and `prev_rip` from `R.rip`.  When the interpreter methods
it calls afterwards leave these four members alone, the committed pointers
coincide with the new ones when it returns: `prev_rip = RIP = R.rip` and
`prev_rsp = RSP = R.rsp`. -/
theorem set_context_commits_pointers {κ : Type} (I : Interp κ) (hP : I.FramePointers)
    (R : _whvp_context) (b : Bochs κ) :
    (set_context I R b).cpu.prev_rip = (set_context I R b).cpu.regs.RIP ∧
    (set_context I R b).cpu.regs.RIP = R.rip ∧
    (set_context I R b).cpu.prev_rsp = (set_context I R b).cpu.regs.RSP ∧
    (set_context I R b).cpu.regs.RSP = R.rsp := by
  obtain ⟨h1, h2, h3, h4⟩ := set_context_pointers I hP R b
  rw [h1, h2, h3, h4]
  exact ⟨rfl, rfl, rfl, rfl⟩

/-- Witness for the amended C28: the sample block through the idle
interpreter. -/
theorem set_context_commits_pointers_witness :
    idle.FramePointers ∧
    (set_context idle sample_context Bochs.boot).cpu.prev_rip = 0xfffff80000401000 ∧
    (set_context idle sample_context Bochs.boot).cpu.regs.RIP = 0xfffff80000401000 ∧
    (set_context idle sample_context Bochs.boot).cpu.prev_rsp = 0xffffa00000001000 ∧
    (set_context idle sample_context Bochs.boot).cpu.regs.RSP = 0xffffa00000001000 := by
  have h := set_context_commits_pointers idle idle_framePointers sample_context Bochs.boot
  exact ⟨idle_framePointers, h.1.trans h.2.1, h.2.1, h.2.2.1.trans h.2.2.2, h.2.2.2⟩

/-- Claim C23.  The dirty bitmap covers exactly the 4 GiB space:
`dirty_bits_l1` has 64 words of 64 bits, one word spanning 64 MiB, and
`dirty_bits_l2` has 16384 words of 64 bits, one bit per 4 KiB page, so both
levels span 2^32 bytes; for every physical address `A < 2^32` the L2 word
index `(A / 4096) / 64` is below 16384 and the L1 word index `A / 64 MiB` is
below 64, the highest address using the last word of each array; and both
arrays start all-zero. -/
theorem dirty_bitmap_geometry (A : Nat) (hA : A < 2 ^ 32) :
    dirty_bits_l1_words = 64 ∧
    dirty_bits_l2_words = 16384 ∧
    dirty_bits_l1_words * (64 * 1024 * 1024) = 2 ^ 32 ∧
    dirty_bits_l2_words * 64 * 4096 = 2 ^ 32 ∧
    page A / 64 < dirty_bits_l2_words ∧
    A / (64 * 1024 * 1024) < dirty_bits_l1_words ∧
    region A / 64 = A / (64 * 1024 * 1024) ∧
    page (2 ^ 32 - 1) / 64 = dirty_bits_l2_words - 1 ∧
    (2 ^ 32 - 1) / (64 * 1024 * 1024) = dirty_bits_l1_words - 1 ∧
    DirtyBitmap.initial.dirty_bits_l1 = List.replicate 64 0 ∧
    DirtyBitmap.initial.dirty_bits_l2 = List.replicate 16384 0 := by
  have h1 : dirty_bits_l1_words = 64 := by decide
  have h2 : dirty_bits_l2_words = 16384 := by decide
  refine ⟨h1, h2, by rw [h1]; decide, by rw [h2]; decide, ?_, ?_, ?_, by rw [h2]; decide,
    by rw [h1]; decide, ?_, ?_⟩
  · rw [h2]
    unfold page
    omega
  · rw [h1]
    omega
  · unfold region
    omega
  · unfold DirtyBitmap.initial
    rw [h1]
  · unfold DirtyBitmap.initial
    rw [h2]

/-- Witness for C23: the last page below 4 GiB falls in the last word of each
level. -/
theorem dirty_bitmap_geometry_witness :
    page 0xfffff000 / 64 < dirty_bits_l2_words ∧
    0xfffff000 / (64 * 1024 * 1024) < dirty_bits_l1_words :=
  ⟨(dirty_bitmap_geometry 0xfffff000 (by decide)).2.2.2.2.1,
   (dirty_bitmap_geometry 0xfffff000 (by decide)).2.2.2.2.2.1⟩

/-! ### Termination of the steppers -/

/-- Claim C30.  The interpreter calls being total functions (every call
returns), `step_cpu n` and `step_device n` return for every `n` after at most
`n` entries into the loop body.  In `step_cpu` the budget left is `n` minus
the number of iterations; in `step_device` it is `n` minus the number of
ticks.  An iteration that does not return continues the loop with a budget one
lower (`steps` after `steps + 1`), and every iteration but a returning one
executes an instruction, respectively ticks once. -/
theorem steppers_terminate {κ : Type} (I : Interp κ) (stop_trace : Nat) (n : Nat)
    (b : Bochs κ) :
    step_cpu_loop_iterations I stop_trace n (b.call .TLB_flush I.TLB_flush) ≤ n ∧
    step_device_loop_iterations I n (b.call .TLB_flush I.TLB_flush) ≤ n ∧
    (step_cpu I stop_trace n b).2
      + step_cpu_loop_iterations I stop_trace n (b.call .TLB_flush I.TLB_flush) = n ∧
    (step_device I n b).2
      + (ticks (new_calls (b.call .TLB_flush I.TLB_flush) (step_device I n b).1)).length
      = n ∧
    step_cpu_loop_iterations I stop_trace n (b.call .TLB_flush I.TLB_flush)
      ≤ (executions (new_calls (b.call .TLB_flush I.TLB_flush)
          (step_cpu I stop_trace n b).1)).length + 1 ∧
    step_device_loop_iterations I n (b.call .TLB_flush I.TLB_flush)
      ≤ (ticks (new_calls (b.call .TLB_flush I.TLB_flush) (step_device I n b).1)).length
        + 1 ∧
    (∀ (steps : Nat) (s : Bochs κ),
      step_cpu_loop I stop_trace (steps + 1) s
        = if (check_async_event I s).2 then ((check_async_event I s).1, steps)
          else step_cpu_loop I stop_trace steps (step_cpu_pass I stop_trace s)) ∧
    (∀ (steps : Nat) (s : Bochs κ),
      step_device_loop I (steps + 1) s
        = if (check_async_event I s).2 then ((check_async_event I s).1, steps + 1)
          else step_device_loop I steps (step_device_pass I s)) := by
  have hc := step_cpu_loop_iterations_spec I stop_trace n (b.call .TLB_flush I.TLB_flush)
  have hd := step_device_loop_iterations_le I n (b.call .TLB_flush I.TLB_flush)
  refine ⟨by omega, hd.1, hc, step_device_loop_remaining I n _,
    (step_cpu_loop_iterations_log I stop_trace n _).2,
    (step_device_loop_iterations_log I n _).2, fun _ _ => rfl, fun _ _ => rfl⟩

/-! ### Splitting the command line -/

/-- Claim C24 does not hold for the code.  `split_string_into_argv` skips
leading spaces of every command line, but it cuts trailing spaces only when
the last non-space character is not the first one: for a command line of one
character `c` (not a space or a quote) the result is `argc = 2` with
`argv[1] = c`, while with `n >= 1` spaces added after it the result is
`argc = 3` with an extra empty `argv[2]`. -/
theorem trailing_spaces_kept_after_single_character (c : Char) (n max_argv : Nat)
    (hc : c ≠ ' ' ∧ c ≠ double_quote ∧ c ≠ single_quote) (hn : 1 ≤ n)
    (hm : 3 < max_argv) :
    split_string_into_argv [c] max_argv = ⟨0, some 2, ["bochs".toList, [c]]⟩ ∧
    split_string_into_argv (c :: List.replicate n ' ') max_argv
      = ⟨0, some 3, ["bochs".toList, [c], []]⟩ ∧
    ∀ (k : Nat) (s : List Char),
      split_string_into_argv (List.replicate k ' ' ++ s) max_argv
        = split_string_into_argv s max_argv := by
  obtain ⟨h1, h2, h3⟩ := hc
  refine ⟨?_, ?_, fun k s => ?_⟩
  · have ht := trim_spaces_single c h1 0
    simp only [List.replicate_zero] at ht
    unfold split_string_into_argv
    rw [ht, split_loop_plain max_argv c [] false _ h1 h2 h3 (by decide),
      split_loop_end max_argv false _ rfl rfl (by simp only; omega)]
    rfl
  · obtain ⟨m, rfl⟩ : ∃ m, n = m + 1 := ⟨n - 1, by omega⟩
    unfold split_string_into_argv
    rw [trim_spaces_single c h1, split_loop_plain max_argv c _ false _ h1 h2 h3 (by decide),
      List.replicate_succ, split_loop_space max_argv _ _ rfl rfl (by simp only; omega)]
    have hs := split_loop_skip max_argv m []
      { in_double_quote := false, in_single_quote := false, argc := 1 + 1,
        argv := ["bochs".toList] ++ [[] ++ [c]], outp := [] }
    rw [List.append_nil] at hs
    rw [hs, split_loop_end max_argv true _ rfl rfl (by simp only; omega)]
    rfl
  · unfold split_string_into_argv
    rw [trim_spaces_leading]

/-- Witness for C24: the command line "a" gives `argc = 2`, the command line
"a " gives `argc = 3` with an empty third string. -/
theorem trailing_spaces_kept_after_single_character_witness :
    split_string_into_argv "a".toList 20 = ⟨0, some 2, ["bochs".toList, "a".toList]⟩ ∧
    split_string_into_argv "a ".toList 20
      = ⟨0, some 3, ["bochs".toList, "a".toList, []]⟩ :=
  ⟨(trailing_spaces_kept_after_single_character 'a' 1 20 (by decide) (by decide)
      (by decide)).1,
   (trailing_spaces_kept_after_single_character 'a' 1 20 (by decide) (by decide)
      (by decide)).2.1⟩

/-- Claim C25.  For a command line made of `k >= 1` words that contain no
space and no quote character, each 1 to 79 characters long, separated by one
or more spaces, with `k + 1 < max_argv`, `split_string_into_argv` returns 0,
sets `argc` to `k + 1`, `argv[0]` to "bochs" and `argv[i]` to the `i`-th word
for `1 <= i <= k`. -/
theorem split_plain_words (words : List (List Char)) (gaps : List Nat) (max_argv : Nat)
    (hk : 1 ≤ words.length) (hw : ∀ w ∈ words, PlainWord w)
    (hmax : words.length + 1 < max_argv) :
    split_string_into_argv (command_line words gaps) max_argv
      = ⟨0, some (words.length + 1), "bochs".toList :: words⟩ := by
  cases words with
  | nil => simp at hk
  | cons w ws =>
    obtain ⟨c, t, hct, hc⟩ := command_line_head w ws gaps (hw w (List.mem_cons_self w ws))
    obtain ⟨init, d, hid, hd⟩ := command_line_last (w :: ws) (by simp) hw gaps
    have htrim : trim_spaces (command_line (w :: ws) gaps) = command_line (w :: ws) gaps := by
      rw [hct]
      exact trim_spaces_id c d t init hc hd (hct.symm.trans hid)
    unfold split_string_into_argv
    rw [htrim, split_loop_command_line max_argv (w :: ws) (by simp) hw gaps false _ rfl rfl
      rfl (by simp only; omega)]
    simp only [List.length_cons, List.singleton_append, SplitResult.mk.injEq,
      Option.some.injEq, and_true, true_and]
    omega

/-- Witness for C25: three words, two spaces between the first two and three
between the last two, with the caller's `max_argv = 20`. -/
theorem split_plain_words_witness :
    split_string_into_argv
        (command_line ["-q".toList, "-f".toList, "bochsrc.txt".toList] [1, 2]) 20
      = ⟨0, some 4, ["bochs".toList, "-q".toList, "-f".toList, "bochsrc.txt".toList]⟩ :=
  split_plain_words ["-q".toList, "-f".toList, "bochsrc.txt".toList] [1, 2] 20 (by decide)
    (by decide) (by decide)

end Applepie
